import Mathlib

/-!
Julius platform layer: display surface manager and event loop.

A shallow embedding of `src/platform/screen.c` and `src/platform/julius.c`.

* C `int` values are Lean integers; an operation whose mathematical result leaves the
  32-bit range is undefined behaviour in C and yields `none` here.
* C `float` values are IEEE-754 binary32 numbers.  Every finite binary32 number is an
  integer multiple of `2^-149`, so a float is stored as that integer (`F32.units`).
  Arithmetic rounds to nearest, ties to even, with a 24-bit significand, exactly as the
  hardware does when `FLT_EVAL_METHOD` is 0.  An infinite or NaN result can only flow into
  an `(int)` cast in this program, which is undefined; it yields `none` here.
* SDL, the settings store and the simulation are collaborators outside the repository
  sources; their observable effects are recorded in logs carried by the state.
-/

namespace Julius

/-! ## C integers -/

/-- Smallest value of a C `int`. -/
def INT_MIN : Int := -2147483648

/-- Largest value of a C `int`. -/
def INT_MAX : Int := 2147483647

/-- Result of an `int` computation: defined only when it fits in 32 bits. -/
def cint (x : Int) : Option Int :=
  if INT_MIN ≤ x ∧ x ≤ INT_MAX then some x else none

/-- Signed multiplication `a * b` of two `int` values. -/
def imul (a b : Int) : Option Int := cint (a * b)

/-- Signed division `a / b` of two `int` values: truncates toward zero, undefined for a zero
divisor. -/
def idiv (a b : Int) : Option Int :=
  if b = 0 then none else cint (Int.tdiv a b)

/-- Macro `SDL_min`. -/
def SDL_min (a b : Int) : Int := if a < b then a else b

/-- Modelled from the spec: `calc_bound` of `core/calc.h`, which is not among the sources; the
spec says that an out-of-range scale request is clamped to the nearest valid value. -/
def calc_bound (value min max : Int) : Int :=
  if value < min then min else if value > max then max else value

/-! ## Binary32 floating point -/

/-- Helper for `bitLength`: number of binary digits, by repeated halving. -/
def bitLengthAux : Nat → Nat → Nat
  | 0, _ => 0
  | fuel + 1, n => if n = 0 then 0 else bitLengthAux fuel (n / 2) + 1

/-- One step of the binary descent in `bitLength`: strip `k` low digits when at least `k + 1`
digits are present. -/
def bitStep (k : Nat) (s : Nat × Nat) : Nat × Nat :=
  if 2 ^ k ≤ s.1 then (s.1 / 2 ^ k, s.2 + k) else s

/-- Number of binary digits of `n` (`0` for `0`). -/
def bitLength (n : Nat) : Nat :=
  let s := bitStep 1 (bitStep 2 (bitStep 4 (bitStep 8 (bitStep 16 (bitStep 32 (bitStep 64
    (bitStep 128 (bitStep 256 (n, 0)))))))))
  s.2 + bitLengthAux s.1 s.1

/-- The integer nearest to `p / q`, ties going to the even neighbour. -/
def roundHalfEven (p q : Nat) : Nat :=
  if 2 * (p % q) < q then p / q
  else if q < 2 * (p % q) then p / q + 1
  else if (p / q) % 2 = 0 then p / q else p / q + 1

/-- A finite binary32 value, stored as a multiple of `2^-149`: the value is
`units * 2^-149`. -/
structure F32 where
  units : Int
deriving DecidableEq, Repr

/-- The number of `2^-149` units in `1.0`. -/
def F32.one : Nat := 2 ^ 149

/-- Round the non-negative rational `p / q` (counted in units) to a binary32 magnitude.  A
quotient with `L` binary digits in its integer part is rounded to a multiple of
`2^(L - 24)`, which keeps 24 significant digits; below `2^24` units (the subnormal range and
the first normal binade) the spacing is one unit. -/
def F32.roundUnits (p q : Nat) : Nat :=
  roundHalfEven p (q * 2 ^ (bitLength (p / q) - 24)) * 2 ^ (bitLength (p / q) - 24)

/-- Attach a sign to a rounded magnitude; a magnitude of `2^128` or more is an overflow. -/
def F32.ofMagnitude (neg : Bool) (mag : Nat) : Option F32 :=
  if mag < 2 ^ 128 * F32.one then some ⟨if neg then -(mag : Int) else mag⟩ else none

/-- Conversion `(float) x` of an `int`. -/
def F32.ofInt (x : Int) : Option F32 :=
  F32.ofMagnitude (decide (x < 0)) (F32.roundUnits (x.natAbs * F32.one) 1)

/-- Division `a / b` of two floats. -/
def F32.div (a b : F32) : Option F32 :=
  if b.units = 0 then none
  else F32.ofMagnitude (decide (a.units < 0) != decide (b.units < 0))
    (F32.roundUnits (a.units.natAbs * F32.one) b.units.natAbs)

/-- Conversion `(int) a`: discards the fraction, undefined when the result does not fit. -/
def F32.toInt (a : F32) : Option Int :=
  cint (Int.tdiv a.units F32.one)

/-- The float `num / 2^shift` for a small numerator, for writing constants. -/
def F32.dyadic (num shift : Nat) : F32 := ⟨((num * 2 ^ (149 - shift) : Nat) : Int)⟩

/-- Density `1.0`. -/
def density_1_0 : F32 := F32.dyadic 1 0

/-- Density `1.5`. -/
def density_1_5 : F32 := F32.dyadic 3 1

/-- Density `2.0`. -/
def density_2_0 : F32 := F32.dyadic 2 0

/-- Density `3.0`. -/
def density_3_0 : F32 := F32.dyadic 3 0

/-- The representative densities `1.0`, `1.5`, `2.0` and `3.0`. -/
def representative_density (d : F32) : Prop :=
  d = density_1_0 ∨ d = density_1_5 ∨ d = density_2_0 ∨ d = density_3_0

/-- Density `2.625`, that of a 420 dpi Android screen. -/
def density_2_625 : F32 := F32.dyadic 21 3

/-- The binary32 number nearest to `1.1`, the density of a 176 dpi Android screen:
`9227469 / 2^23`. -/
def density_1_1 : F32 := F32.dyadic 9227469 23

/-- The exact value of a float, as a rational number. -/
def F32.toRat (f : F32) : ℚ := (f.units : ℚ) / 2 ^ 149

/-- The rational `y` lies below the next integer by more than its `2^22`-th part, so that two
roundings to 24 significant digits cannot carry it there. -/
def clear_of_next_integer (y : ℚ) : Prop := y / 2 ^ 22 < (⌊y⌋ : ℚ) + 1 - y

/-- The float expression `(int) (value / density)` for an `int` value, the tail shared by
`scale_logical_to_pixels` and `scale_pixels_to_logical`. -/
def int_div_float (density : F32) (value : Int) : Option Int := do
  let f ← F32.ofInt value
  let r ← F32.div f density
  F32.toInt r

/-! ## `screen.c`: scale arithmetic -/

/-- Static `MINIMUM.WIDTH`. -/
def MINIMUM_WIDTH : Int := 640

/-- Static `MINIMUM.HEIGHT`. -/
def MINIMUM_HEIGHT : Int := 480

/-- Static `scale` of `screen.c`. -/
structure Scale where
  requested_percentage : Int
  percentage : Int
  screen_density : F32
deriving DecidableEq, Repr

/-- `scale_logical_to_pixels`:
`(int) (logical_value * scale.percentage / 100 / scale.screen_density)`. -/
def scale_logical_to_pixels (scale : Scale) (logical_value : Int) : Option Int := do
  let product ← imul logical_value scale.percentage
  let quotient ← idiv product 100
  let f ← F32.ofInt quotient
  let r ← F32.div f scale.screen_density
  F32.toInt r

/-- `scale_pixels_to_logical`:
`(int) (pixel_value * 100 / scale.percentage / scale.screen_density)`. -/
def scale_pixels_to_logical (scale : Scale) (pixel_value : Int) : Option Int := do
  let product ← imul pixel_value 100
  let quotient ← idiv product scale.percentage
  let f ← F32.ofInt quotient
  let r ← F32.div f scale.screen_density
  F32.toInt r

/-- One line of `get_max_scale_percentage`:
`(int) (pixel_size * 100 / scale.screen_density / minimum)`. -/
def max_scale_of (scale : Scale) (pixel_size minimum : Int) : Option Int := do
  let product ← imul pixel_size 100
  let f ← F32.ofInt product
  let r ← F32.div f scale.screen_density
  let m ← F32.ofInt minimum
  let r2 ← F32.div r m
  F32.toInt r2

/-- `get_max_scale_percentage`. -/
def get_max_scale_percentage (scale : Scale) (pixel_width pixel_height : Int) : Option Int := do
  let width_scale_pct ← max_scale_of scale pixel_width MINIMUM_WIDTH
  let height_scale_pct ← max_scale_of scale pixel_height MINIMUM_HEIGHT
  pure (SDL_min width_scale_pct height_scale_pct)

/-- `apply_max_scale`, as a function on the static `scale`. -/
def apply_max_scale (scale : Scale) (pixel_width pixel_height : Int) : Option Scale := do
  let scale1 := { scale with percentage := scale.requested_percentage }
  let max_scale ← get_max_scale_percentage scale1 pixel_width pixel_height
  if scale1.percentage > max_scale then
    pure { scale1 with percentage := max_scale }
  else
    pure scale1

/-! ## Build configuration -/

/-- The preprocessor symbols that select the conditionally compiled branches.  `DRAW_FPS`, a
developer overlay, is taken as undefined. -/
structure Platform where
  vita : Bool
  android : Bool
  nswitch : Bool
  apple : Bool
  windows : Bool
  iphoneos : Bool
  emscripten : Bool
  file_cache : Bool
  software_cursor : Bool
deriving DecidableEq, Repr

/-- `system_is_fullscreen_only`. -/
def system_is_fullscreen_only (p : Platform) : Bool :=
  p.android || p.nswitch || p.vita

/-! ## Events and the call trace -/

/-- The two static slots `s_width` and `s_height` of `system_resize`, the only targets the
`data1` and `data2` pointers of a user event ever get. -/
inductive Slot where
  | s_width
  | s_height
deriving DecidableEq, Repr

/-- Values of `SDL_WindowEvent.event` that `handle_window_event` distinguishes. -/
inductive WindowEventID where
  | enter
  | leave
  | focus_lost
  | focus_gained
  | size_changed
  | resized
  | moved
  | shown
  | hidden
  | other
deriving DecidableEq, Repr

/-- Scroll directions passed to `mouse_set_scroll`. -/
inductive Scroll where
  | SCROLL_NONE
  | SCROLL_UP
  | SCROLL_DOWN
deriving DecidableEq, Repr

/-- Model of `SDL_Event`, with the fields `handle_event` reads.  `touch_mouse` stands for
`which == SDL_TOUCH_MOUSEID`; `left` and `right` stand for the button being `SDL_BUTTON_LEFT`
or `SDL_BUTTON_RIGHT`. -/
inductive Event where
  | window (event : WindowEventID) (data1 data2 : Int)
  | key_down
  | key_up
  | text_input
  | mouse_motion (touch_mouse : Bool) (x y : Int)
  | mouse_button_down (touch_mouse : Bool) (left right : Bool) (x y : Int)
  | mouse_button_up (touch_mouse : Bool) (left right : Bool) (x y : Int)
  | mouse_wheel (touch_mouse : Bool) (y : Int)
  | finger_down
  | finger_motion
  | finger_up
  | joy_axis_motion
  | joy_ball_motion
  | joy_hat_motion
  | joy_button_down
  | joy_button_up
  | joy_device_added
  | joy_device_removed
  | quit
  | user (code : Int) (data1 data2 : Option Slot)
  | other
deriving DecidableEq, Repr

/-- Constant `USER_EVENT_QUIT`. -/
def USER_EVENT_QUIT : Int := 0

/-- Constant `USER_EVENT_RESIZE`. -/
def USER_EVENT_RESIZE : Int := 1

/-- Constant `USER_EVENT_FULLSCREEN`. -/
def USER_EVENT_FULLSCREEN : Int := 2

/-- Constant `USER_EVENT_WINDOWED`. -/
def USER_EVENT_WINDOWED : Int := 3

/-- Constant `USER_EVENT_CENTER_WINDOW`. -/
def USER_EVENT_CENTER_WINDOW : Int := 4

/-- Calls into SDL, each with the arguments and the outcome that matter here. -/
inductive SDLCall where
  | SDL_CreateWindow (width height : Int) (fullscreen : Bool) (ok : Bool)
  | SDL_DestroyWindow
  | SDL_CreateRenderer (software : Bool) (ok : Bool)
  | SDL_DestroyRenderer
  | SDL_CreateTexture (width height : Int) (ok : Bool)
  | SDL_DestroyTexture
  | SDL_RenderSetLogicalSize (width height : Int)
  | SDL_SetWindowMinimumSize (width height : Int)
  | SDL_SetHint_scale_quality (nearest : Bool)
  | SDL_SetWindowGrab (grab : Bool)
  | SDL_SetWindowFullscreen (fullscreen : Bool) (ok : Bool)
  | SDL_SetWindowDisplayMode
  | SDL_SetWindowSize (width height : Int)
  | SDL_RestoreWindow
  | SDL_SetWindowPosition_centered
  | SDL_RenderClear
  | SDL_UpdateTexture
  | SDL_RenderCopy
  | SDL_RenderPresent
  | SDL_PushEvent (event : Event)
  | SDL_WaitEvent
  | SDL_Init (ok : Bool)
  | SDL_Quit
deriving DecidableEq, Repr

/-- Calls into the input layer and the file cache made while an event is dispatched. -/
inductive InputCall where
  | platform_file_manager_cache_invalidate
  | mouse_set_inside_window (inside : Bool)
  | mouse_set_window_focus (focus : Bool)
  | mouse_set_position (x y : Int)
  | mouse_set_left_down (down : Bool)
  | mouse_set_right_down (down : Bool)
  | mouse_set_scroll (direction : Scroll)
  | platform_handle_key_down
  | platform_handle_key_up
  | platform_handle_text
  | platform_touch_start
  | platform_touch_move
  | platform_touch_end
  | platform_joystick_handle_axis
  | platform_joystick_handle_trackball
  | platform_joystick_handle_hat
  | platform_joystick_handle_button (down : Bool)
  | platform_joystick_device_changed (added : Bool)
deriving DecidableEq, Repr

/-- Calls that leave the two modelled files, in the order they are made: calls into SDL, into
the input layer, into the settings and configuration stores, into the graphics layer and into
the simulation.  Calls from `julius.c` into `screen.c` are recorded as well, under the name of
the called function. -/
inductive Action where
  | sdl (call : SDLCall)
  | input (call : InputCall)
  | draw_software_mouse_cursor
  | setting_set_display (fullscreen width height : Int)
  | screen_set_resolution (width height : Int)
  | config_set_display_scale (value : Int)
  | config_set_cursor_scale (value : Int)
  | system_init_cursors (scale : Int)
  | time_set_millis
  | game_pre_init (ok : Bool)
  | game_init (ok : Bool)
  | game_run
  | game_draw
  | game_exit
  | setup_logging
  | teardown_logging
  | emscripten_cancel_main_loop
  | emscripten_quit_game
  | platform_screen_create
  | platform_screen_destroy
  | platform_screen_resize (width height : Int)
  | platform_screen_move (x y : Int)
  | platform_screen_set_window_size (width height : Int)
  | platform_screen_set_fullscreen
  | platform_screen_set_windowed
  | platform_screen_center_window
  | platform_screen_recreate_texture
  | platform_screen_update
  | platform_screen_render
deriving DecidableEq, Repr

/-! ## Program state -/

/-- Attributes of the SDL window behind `SDL.window`. -/
structure SDLWindow where
  w : Int
  h : Int
  x : Int
  y : Int
  fullscreen : Bool
  grab : Bool
  maximized : Bool
  display : Int
  min_w : Int
  min_h : Int
deriving DecidableEq, Repr

/-- Attributes of the SDL renderer behind `SDL.renderer`. -/
structure SDLRenderer where
  software : Bool
  logical_w : Int
  logical_h : Int
deriving DecidableEq, Repr

/-- Attributes of the SDL texture behind `SDL.texture`. -/
structure SDLTexture where
  w : Int
  h : Int
deriving DecidableEq, Repr

/-- Static `SDL` of `screen.c`; `none` is the null pointer. -/
structure SDLHandles where
  window : Option SDLWindow
  renderer : Option SDLRenderer
  texture : Option SDLTexture
deriving DecidableEq, Repr

/-- Static `window_pos` of `screen.c`. -/
structure WindowPos where
  x : Int
  y : Int
  centered : Int
deriving DecidableEq, Repr

/-- Modelled from the spec: the settings store of `game/settings.h`, which is not among the
sources; the spec describes it as holding the fullscreen flag and the window size. -/
structure Settings where
  fullscreen : Int
  window_width : Int
  window_height : Int
deriving DecidableEq, Repr

/-- Fields of `julius_args` read by `setup`. -/
structure Args where
  force_windowed : Int
  force_fullscreen : Int
  display_scale_percentage : Int
  cursor_scale_percentage : Int
  display_id : Int
deriving DecidableEq, Repr

/-- What the surroundings answer: the desktop display mode, the number of displays, where SDL
puts a centred window, whether relative mouse mode is on, the Android screen density, and
`answers`, the success or failure of every fallible call in the order the calls are made. -/
structure Environment where
  desktop_w : Int
  desktop_h : Int
  num_displays : Int
  centered_x : Int
  centered_y : Int
  relative_mouse_mode : Bool
  android_screen_density : F32
  answers : Nat → Bool

/-- Static `data` of `julius.c`. -/
structure LoopData where
  active : Int
  quit : Int
deriving DecidableEq, Repr

/-- All state of the two files together with the state of their collaborators. -/
structure State where
  SDL : SDLHandles
  window_pos : WindowPos
  scale : Scale
  settings : Settings
  screen_width : Int
  screen_height : Int
  config_display_scale : Int
  config_cursor_scale : Int
  env : Environment
  asked : Nat
  data : LoopData
  s_width : Int
  s_height : Int
  args : Args
  queue : List Event
  trace : List Action

/-- Append one call to the trace. -/
def State.log (s : State) (a : Action) : State :=
  { s with trace := s.trace ++ [a] }

/-- Append one SDL call to the trace. -/
def State.logSDL (s : State) (c : SDLCall) : State :=
  s.log (Action.sdl c)

/-- Take the next answer of the surroundings to a fallible call. -/
def State.ask (s : State) : Bool × State :=
  (s.env.answers s.asked, { s with asked := s.asked + 1 })

/-- Apply a change to the window behind `SDL.window`, if there is one. -/
def State.modifyWindow (s : State) (f : SDLWindow → SDLWindow) : State :=
  { s with SDL := { s.SDL with window := s.SDL.window.map f } }

/-- Modelled from the spec: `setting_fullscreen` of `game/settings.h`. -/
def setting_fullscreen (s : State) : Int := s.settings.fullscreen

/-- Modelled from the spec: `setting_window` of `game/settings.h`. -/
def setting_window (s : State) : Int × Int :=
  (s.settings.window_width, s.settings.window_height)

/-- Modelled from the spec: `setting_set_display` of `game/settings.h`, which stores the
fullscreen flag and the size it is given. -/
def setting_set_display (s : State) (fullscreen width height : Int) : State :=
  ({ s with settings := ⟨fullscreen, width, height⟩ }).log
    (Action.setting_set_display fullscreen width height)

/-- Modelled from the spec: `screen_set_resolution` of `graphics/screen.h`, which makes
`screen_width()` and `screen_height()` return the new logical size. -/
def screen_set_resolution (s : State) (width height : Int) : State :=
  ({ s with screen_width := width, screen_height := height }).log
    (Action.screen_set_resolution width height)

/-! ## SDL calls made by `screen.c` -/

/-- `SDL_GetWindowSize`: the size of the window; with a null window SDL leaves the output
variables untouched, and the callers pass uninitialised locals, so there is no result. -/
def SDL_GetWindowSize (s : State) : Option (Int × Int) :=
  s.SDL.window.map fun win => (win.w, win.h)

/-- `SDL_SetWindowGrab`. -/
def SDL_SetWindowGrab (s : State) (grab : Bool) : State :=
  (s.modifyWindow fun win => { win with grab := grab }).logSDL (SDLCall.SDL_SetWindowGrab grab)

/-- `SDL_GetWindowGrab`, `SDL_FALSE` for a null window. -/
def SDL_GetWindowGrab (s : State) : Bool :=
  match s.SDL.window with
  | some win => win.grab
  | none => false

/-- `SDL_SetWindowFullscreen`: returns `true` for the C result `0`.  Entering desktop
fullscreen gives the window the size of the desktop. -/
def SDL_SetWindowFullscreen (s : State) (fullscreen : Bool) : Bool × State :=
  match s.SDL.window with
  | none => (false, s.logSDL (SDLCall.SDL_SetWindowFullscreen fullscreen false))
  | some _ =>
    let (ok, s1) := s.ask
    let s2 := if ok then
        s1.modifyWindow fun win =>
          if fullscreen then
            { win with fullscreen := true, w := s.env.desktop_w, h := s.env.desktop_h }
          else { win with fullscreen := false }
      else s1
    (ok, s2.logSDL (SDLCall.SDL_SetWindowFullscreen fullscreen ok))

/-- `SDL_GetWindowPosition(SDL.window, &window_pos.x, &window_pos.y)`: stores the position of
the window in `window_pos`; with a null window SDL leaves both untouched. -/
def SDL_GetWindowPosition (s : State) : State :=
  match s.SDL.window with
  | some win => { s with window_pos := { s.window_pos with x := win.x, y := win.y } }
  | none => s

/-- The test `SDL_GetWindowFlags(SDL.window) & SDL_WINDOW_MAXIMIZED`, false for a null
window. -/
def SDL_window_is_maximized (s : State) : Bool :=
  match s.SDL.window with
  | some win => win.maximized
  | none => false

/-- `SDL_RestoreWindow`. -/
def SDL_RestoreWindow (s : State) : State :=
  (s.modifyWindow fun win => { win with maximized := false }).logSDL SDLCall.SDL_RestoreWindow

/-- `SDL_SetWindowSize`: SDL rejects a size that is not positive. -/
def SDL_SetWindowSize (s : State) (width height : Int) : State :=
  (s.modifyWindow fun win =>
    if 0 < width ∧ 0 < height then { win with w := width, h := height } else win).logSDL
    (SDLCall.SDL_SetWindowSize width height)

/-- `SDL_RenderSetLogicalSize`. -/
def SDL_RenderSetLogicalSize (s : State) (width height : Int) : State :=
  ({ s with SDL := { s.SDL with renderer := s.SDL.renderer.map fun (r : SDLRenderer) =>
      { r with logical_w := width, logical_h := height } } }).logSDL
    (SDLCall.SDL_RenderSetLogicalSize width height)

/-- `SDL_CreateTexture` on `SDL.renderer`, storing the result in `SDL.texture`: fails without
a renderer, and otherwise as the surroundings decide. -/
def SDL_CreateTexture (s : State) (width height : Int) : State :=
  match s.SDL.renderer with
  | none =>
    ({ s with SDL := { s.SDL with texture := none } }).logSDL
      (SDLCall.SDL_CreateTexture width height false)
  | some _ =>
    let (ok, s1) := s.ask
    ({ s1 with SDL := { s1.SDL with texture := if ok then some ⟨width, height⟩ else none } }).logSDL
      (SDLCall.SDL_CreateTexture width height ok)

/-- `SDL_CreateRenderer` on `SDL.window`, storing the result in `SDL.renderer`. -/
def SDL_CreateRenderer (s : State) (software : Bool) : State :=
  let (ok, s1) := s.ask
  ({ s1 with SDL := { s1.SDL with renderer := if ok then some ⟨software, 0, 0⟩ else none } }).logSDL
    (SDLCall.SDL_CreateRenderer software ok)

/-- `SDL_CreateWindow` centred on a display, storing the result in `SDL.window`.  A desktop
fullscreen window gets the size of the desktop. -/
def SDL_CreateWindow (s : State) (display_id width height : Int) (fullscreen : Bool) : State :=
  let (ok, s1) := s.ask
  let win : SDLWindow :=
    { w := if fullscreen then s.env.desktop_w else width
      h := if fullscreen then s.env.desktop_h else height
      x := s.env.centered_x
      y := s.env.centered_y
      fullscreen := fullscreen
      grab := false
      maximized := false
      display := display_id
      min_w := 0
      min_h := 0 }
  ({ s1 with SDL := { s1.SDL with window := if ok then some win else none } }).logSDL
    (SDLCall.SDL_CreateWindow width height fullscreen ok)

/-! ## `screen.c` -/

/-- `set_scale_percentage`. -/
def set_scale_percentage (p : Platform) (s : State) (new_scale pixel_width pixel_height : Int) :
    Option State := do
  let requested := if p.vita then 100 else calc_bound new_scale 50 500
  let s1 := { s with scale := { s.scale with requested_percentage := requested } }
  if pixel_width = 0 ∨ pixel_height = 0 then
    pure s1
  else
    let scale2 ← apply_max_scale s1.scale pixel_width pixel_height
    let s2 := { s1 with scale := scale2 }
    let min_w ← scale_logical_to_pixels s2.scale MINIMUM_WIDTH
    let min_h ← scale_logical_to_pixels s2.scale MINIMUM_HEIGHT
    let s3 := (s2.modifyWindow fun win => { win with min_w := min_w, min_h := min_h }).logSDL
      (SDLCall.SDL_SetWindowMinimumSize min_w min_h)
    let nearest := !p.apple && !p.android && decide (Int.tmod s3.scale.percentage 100 = 0)
    pure (s3.logSDL (SDLCall.SDL_SetHint_scale_quality nearest))

/-- `destroy_screen_texture`. -/
def destroy_screen_texture (s : State) : State :=
  ({ s with SDL := { s.SDL with texture := none } }).logSDL SDLCall.SDL_DestroyTexture

/-- `platform_screen_destroy`. -/
def platform_screen_destroy (s : State) : State :=
  let s1 := if s.SDL.texture.isSome then destroy_screen_texture s else s
  let s2 := if s1.SDL.renderer.isSome then
      ({ s1 with SDL := { s1.SDL with renderer := none } }).logSDL SDLCall.SDL_DestroyRenderer
    else s1
  if s2.SDL.window.isSome then
    ({ s2 with SDL := { s2.SDL with window := none } }).logSDL SDLCall.SDL_DestroyWindow
  else s2

/-- The first lines of `platform_screen_resize`: the effective scale and the logical size
computed from the pixel size. -/
def resize_logical_size (scale : Scale) (pixel_width pixel_height : Int) :
    Option (Scale × Int × Int) := do
  let scale1 ← apply_max_scale scale pixel_width pixel_height
  let logical_width ← scale_pixels_to_logical scale1 pixel_width
  let logical_height ← scale_pixels_to_logical scale1 pixel_height
  pure (scale1, logical_width, logical_height)

/-- The rest of `platform_screen_resize`, once the logical size is known: keep a presentation
texture of that size, or replace the texture. -/
def resize_presentation_texture (s : State) (logical_width logical_height : Int) : State × Int :=
  if s.SDL.texture.isSome ∧ logical_width = s.screen_width ∧ logical_height = s.screen_height
  then
    (s, 1)
  else
    let s2 := if s.SDL.texture.isSome then destroy_screen_texture s else s
    let s3 := SDL_RenderSetLogicalSize s2 logical_width logical_height
    let s4 := setting_set_display s3 (setting_fullscreen s3) logical_width logical_height
    let s5 := SDL_CreateTexture s4 logical_width logical_height
    if s5.SDL.texture.isSome then
      (screen_set_resolution s5 logical_width logical_height, 1)
    else
      (s5, 0)

/-- `platform_screen_resize`, returning the new state and the C result. -/
def platform_screen_resize (s : State) (pixel_width pixel_height : Int) : Option (State × Int) := do
  let size ← resize_logical_size s.scale pixel_width pixel_height
  pure (resize_presentation_texture { s with scale := size.1 } size.2.1 size.2.2)

/-- `platform_screen_create`, returning the new state and the C result.  The title is not
modelled. -/
def platform_screen_create (p : Platform) (s : State) (display_scale_percentage display_id : Int) :
    Option (State × Int) := do
  let s0 := if p.android then
      { s with scale := { s.scale with screen_density := s.env.android_screen_density } }
    else s
  let s1 ← set_scale_percentage p s0 display_scale_percentage 0 0
  let fullscreen : Int := if system_is_fullscreen_only p then 1 else setting_fullscreen s1
  let size ← (if fullscreen ≠ 0 then
      pure (s1.env.desktop_w, s1.env.desktop_h)
    else do
      let width ← scale_logical_to_pixels s1.scale (setting_window s1).1
      let height ← scale_logical_to_pixels s1.scale (setting_window s1).2
      pure (width, height))
  let s2 := platform_screen_destroy s1
  let display_id := if display_id < 0 ∨ display_id ≥ s2.env.num_displays then 0 else display_id
  let s3 := SDL_CreateWindow s2 display_id size.1 size.2 (decide (fullscreen ≠ 0))
  if s3.SDL.window.isNone then
    pure (s3, 0)
  else
    let size ← (if system_is_fullscreen_only p then SDL_GetWindowSize s3 else pure size)
    let s4 := SDL_CreateRenderer s3 false
    let s5 := if s4.SDL.renderer.isNone then SDL_CreateRenderer s4 true else s4
    if s5.SDL.renderer.isNone then
      pure (s5, 0)
    else
      let s6 := if fullscreen ≠ 0 then SDL_SetWindowGrab s5 true else s5
      let s7 ← set_scale_percentage p s6 display_scale_percentage size.1 size.2
      platform_screen_resize s7 size.1 size.2

/-- `system_scale_display`, returning the new state and the effective percentage. -/
def system_scale_display (p : Platform) (s : State) (display_scale_percentage : Int) :
    Option (State × Int) := do
  let size ← SDL_GetWindowSize s
  let s1 ← set_scale_percentage p s display_scale_percentage size.1 size.2
  let r ← platform_screen_resize s1 size.1 size.2
  pure (r.1, r.1.scale.percentage)

/-- `system_can_scale_display`: the C result together with the values stored through
`min_scale` and `max_scale`; `want_min` and `want_max` say whether those pointers are
non-null. -/
def system_can_scale_display (p : Platform) (s : State) (want_min want_max : Bool) :
    Option (Int × Option Int × Option Int) := do
  if !p.android && system_is_fullscreen_only p then
    pure (0, none, none)
  else
    let size ← SDL_GetWindowSize s
    let refuse ← if p.android then do
        let max_scale_current_orientation ← get_max_scale_percentage s.scale size.1 size.2
        let max_scale_alternative_orientation ← get_max_scale_percentage s.scale size.2 size.1
        pure (decide (max_scale_current_orientation < 100 ∧
          max_scale_alternative_orientation < 100))
      else pure false
    if refuse then
      pure (0, none, none)
    else
      let min_scale : Option Int := if want_min then some 50 else none
      let max_scale ← if want_max then
          (get_max_scale_percentage s.scale size.1 size.2).map some
        else pure none
      pure (1, min_scale, max_scale)

/-- `platform_screen_move`. -/
def platform_screen_move (s : State) (x y : Int) : State :=
  if setting_fullscreen s = 0 then
    { s with window_pos := { x := x, y := y, centered := 0 } }
  else s

/-- `platform_screen_get_scale`. -/
def platform_screen_get_scale (s : State) : Int := s.scale.percentage

/-- `platform_screen_center_window`. -/
def platform_screen_center_window (s : State) : State :=
  let s1 := (s.modifyWindow fun win =>
    { win with x := s.env.centered_x, y := s.env.centered_y }).logSDL
    SDLCall.SDL_SetWindowPosition_centered
  { s1 with window_pos := { s1.window_pos with centered := 1 } }

/-- `platform_screen_set_fullscreen`.  Without a window `SDL_GetDesktopDisplayMode` is asked
about display `-1` and leaves `mode` uninitialised, so there is no result. -/
def platform_screen_set_fullscreen (s : State) : Option State := do
  let _ ← s.SDL.window
  let s1 := SDL_GetWindowPosition s
  let mode := (s1.env.desktop_w, s1.env.desktop_h)
  let (ok, s2) := SDL_SetWindowFullscreen s1 true
  if !ok then
    pure s2
  else
    let s3 := s2.logSDL SDLCall.SDL_SetWindowDisplayMode
    let s4 := SDL_SetWindowGrab s3 true
    pure (setting_set_display s4 1 mode.1 mode.2)

/-- `platform_screen_set_windowed`. -/
def platform_screen_set_windowed (p : Platform) (s : State) : Option State := do
  if system_is_fullscreen_only p then
    pure s
  else
    let logical := setting_window s
    let pixel_width ← scale_logical_to_pixels s.scale logical.1
    let pixel_height ← scale_logical_to_pixels s.scale logical.2
    let s1 := (SDL_SetWindowFullscreen s false).2
    let s2 := SDL_SetWindowSize s1 pixel_width pixel_height
    let s3 := if s2.window_pos.centered ≠ 0 then platform_screen_center_window s2 else s2
    let s4 := if SDL_GetWindowGrab s3 then SDL_SetWindowGrab s3 false else s3
    pure (setting_set_display s4 0 pixel_width pixel_height)

/-- `platform_screen_set_window_size`. -/
def platform_screen_set_window_size (p : Platform) (s : State) (logical_width logical_height : Int) :
    Option State := do
  if system_is_fullscreen_only p then
    pure s
  else
    let pixel_width ← scale_logical_to_pixels s.scale logical_width
    let pixel_height ← scale_logical_to_pixels s.scale logical_height
    let s1 := if setting_fullscreen s ≠ 0 then (SDL_SetWindowFullscreen s false).2
      else SDL_GetWindowPosition s
    let s2 := if SDL_window_is_maximized s1 then SDL_RestoreWindow s1 else s1
    let s3 := SDL_SetWindowSize s2 pixel_width pixel_height
    let s4 := if s3.window_pos.centered ≠ 0 then platform_screen_center_window s3 else s3
    let s5 := if SDL_GetWindowGrab s4 then SDL_SetWindowGrab s4 false else s4
    pure (setting_set_display s5 0 pixel_width pixel_height)

/-- `platform_screen_recreate_texture`, compiled on Windows only. -/
def platform_screen_recreate_texture (s : State) : Option State := do
  if s.SDL.texture.isNone ∧ s.SDL.renderer.isSome ∧ setting_fullscreen s ≠ 0 then
    let width ← scale_pixels_to_logical s.scale s.env.desktop_w
    let height ← scale_pixels_to_logical s.scale s.env.desktop_h
    let s1 := screen_set_resolution s width height
    pure (SDL_CreateTexture s1 s1.screen_width s1.screen_height)
  else
    pure s

/-- `platform_screen_clear`. -/
def platform_screen_clear (s : State) : State := s.logSDL SDLCall.SDL_RenderClear

/-- `platform_screen_update`. -/
def platform_screen_update (p : Platform) (s : State) : State :=
  let s1 := s.logSDL SDLCall.SDL_RenderClear
  let s2 := if p.vita then s1 else s1.logSDL SDLCall.SDL_UpdateTexture
  let s3 := s2.logSDL SDLCall.SDL_RenderCopy
  if p.software_cursor then s3.log Action.draw_software_mouse_cursor else s3

/-- `platform_screen_render`. -/
def platform_screen_render (s : State) : State := s.logSDL SDLCall.SDL_RenderPresent

/-! ## `julius.c` -/

/-- How a run of `julius.c` code can stop early: by undefined behaviour, or by
`exit_with_status(status)` in the state `final`. -/
inductive Halt where
  | undefined
  | exit (status : Int) (final : State)

/-- A computation in `screen.c` has no result exactly when its behaviour is undefined. -/
def defined {α : Type} (r : Option α) : Except Halt α :=
  match r with
  | some a => Except.ok a
  | none => Except.error Halt.undefined

/-- `SDL_PushEvent`: the event joins the end of the queue. -/
def SDL_PushEvent (s : State) (event : Event) : State :=
  ({ s with queue := s.queue ++ [event] }).logSDL (SDLCall.SDL_PushEvent event)

/-- `post_event`: `data1` and `data2` stay uninitialised. -/
def post_event (s : State) (code : Int) : State :=
  SDL_PushEvent s (Event.user code none none)

/-- `system_exit`. -/
def system_exit (s : State) : State := post_event s USER_EVENT_QUIT

/-- `system_resize`: the event points at the two static slots. -/
def system_resize (s : State) (width height : Int) : State :=
  SDL_PushEvent { s with s_width := width, s_height := height }
    (Event.user USER_EVENT_RESIZE (some Slot.s_width) (some Slot.s_height))

/-- `system_center`. -/
def system_center (s : State) : State := post_event s USER_EVENT_CENTER_WINDOW

/-- `system_set_fullscreen`. -/
def system_set_fullscreen (s : State) (fullscreen : Int) : State :=
  post_event s (if fullscreen ≠ 0 then USER_EVENT_FULLSCREEN else USER_EVENT_WINDOWED)

/-- Macro `INTPTR`: read the `int` a pointer refers to; an uninitialised pointer has no
target. -/
def INTPTR (s : State) (d : Option Slot) : Option Int :=
  d.map fun slot =>
    match slot with
    | Slot.s_width => s.s_width
    | Slot.s_height => s.s_height

/-- `run_and_draw`, the variant compiled without `DRAW_FPS`. -/
def run_and_draw (p : Platform) (s : State) : State :=
  let s1 := s.log Action.time_set_millis
  let s2 := s1.log Action.game_run
  let s3 := s2.log Action.game_draw
  let s4 := platform_screen_update p (s3.log Action.platform_screen_update)
  platform_screen_render (s4.log Action.platform_screen_render)

/-- `handle_mouse_button`. -/
def handle_mouse_button (s : State) (left right : Bool) (x y : Int) (is_down : Bool) : State :=
  let s1 := if !s.env.relative_mouse_mode then s.log (Action.input (InputCall.mouse_set_position x y))
    else s
  if left then s1.log (Action.input (InputCall.mouse_set_left_down is_down))
  else if right then s1.log (Action.input (InputCall.mouse_set_right_down is_down))
  else s1

/-- `handle_window_event`; the flag behind `window_active` is `data.active`. -/
def handle_window_event (p : Platform) (s : State) (event : WindowEventID) (data1 data2 : Int) :
    Option State :=
  match event with
  | WindowEventID.enter => some (s.log (Action.input (InputCall.mouse_set_inside_window true)))
  | WindowEventID.leave => some (s.log (Action.input (InputCall.mouse_set_inside_window false)))
  | WindowEventID.focus_lost => some (s.log (Action.input (InputCall.mouse_set_window_focus false)))
  | WindowEventID.focus_gained => some (s.log (Action.input (InputCall.mouse_set_window_focus true)))
  | WindowEventID.size_changed =>
    (platform_screen_resize (s.log (Action.platform_screen_resize data1 data2)) data1 data2).map
      Prod.fst
  | WindowEventID.resized => some s
  | WindowEventID.moved =>
    some (platform_screen_move (s.log (Action.platform_screen_move data1 data2)) data1 data2)
  | WindowEventID.shown =>
    let s1 := if p.file_cache then
        s.log (Action.input InputCall.platform_file_manager_cache_invalidate)
      else s
    some { s1 with data := { s1.data with active := 1 } }
  | WindowEventID.hidden => some { s with data := { s.data with active := 0 } }
  | WindowEventID.other => some s

/-- `handle_event`. -/
def handle_event (p : Platform) (s : State) (event : Event) : Option State :=
  match event with
  | Event.window e data1 data2 => handle_window_event p s e data1 data2
  | Event.key_down => some (s.log (Action.input InputCall.platform_handle_key_down))
  | Event.key_up => some (s.log (Action.input InputCall.platform_handle_key_up))
  | Event.text_input => some (s.log (Action.input InputCall.platform_handle_text))
  | Event.mouse_motion touch_mouse x y =>
    if !touch_mouse && !s.env.relative_mouse_mode then
      some (s.log (Action.input (InputCall.mouse_set_position x y)))
    else some s
  | Event.mouse_button_down touch_mouse left right x y =>
    if !touch_mouse then some (handle_mouse_button s left right x y true) else some s
  | Event.mouse_button_up touch_mouse left right x y =>
    if !touch_mouse then some (handle_mouse_button s left right x y false) else some s
  | Event.mouse_wheel touch_mouse y =>
    if !touch_mouse then
      some (s.log (Action.input (InputCall.mouse_set_scroll
        (if y > 0 then Scroll.SCROLL_UP else if y < 0 then Scroll.SCROLL_DOWN
          else Scroll.SCROLL_NONE))))
    else some s
  | Event.finger_down => some (s.log (Action.input InputCall.platform_touch_start))
  | Event.finger_motion => some (s.log (Action.input InputCall.platform_touch_move))
  | Event.finger_up => some (s.log (Action.input InputCall.platform_touch_end))
  | Event.joy_axis_motion => some (s.log (Action.input InputCall.platform_joystick_handle_axis))
  | Event.joy_ball_motion =>
    some (s.log (Action.input InputCall.platform_joystick_handle_trackball))
  | Event.joy_hat_motion => some (s.log (Action.input InputCall.platform_joystick_handle_hat))
  | Event.joy_button_down =>
    some (s.log (Action.input (InputCall.platform_joystick_handle_button true)))
  | Event.joy_button_up =>
    some (s.log (Action.input (InputCall.platform_joystick_handle_button false)))
  | Event.joy_device_added =>
    some (s.log (Action.input (InputCall.platform_joystick_device_changed true)))
  | Event.joy_device_removed =>
    some (s.log (Action.input (InputCall.platform_joystick_device_changed false)))
  | Event.quit => some { s with data := { s.data with quit := 1 } }
  | Event.user code data1 data2 =>
    if code = USER_EVENT_QUIT then
      some { s with data := { s.data with quit := 1 } }
    else if code = USER_EVENT_RESIZE then do
      let width ← INTPTR s data1
      let height ← INTPTR s data2
      platform_screen_set_window_size p
        (s.log (Action.platform_screen_set_window_size width height)) width height
    else if code = USER_EVENT_FULLSCREEN then
      platform_screen_set_fullscreen (s.log Action.platform_screen_set_fullscreen)
    else if code = USER_EVENT_WINDOWED then
      platform_screen_set_windowed p (s.log Action.platform_screen_set_windowed)
    else if code = USER_EVENT_CENTER_WINDOW then
      some (platform_screen_center_window (s.log Action.platform_screen_center_window))
    else some s
  | Event.other => some s

/-- `init_sdl`, reduced to its outcome: whether `SDL_Init` succeeds. -/
def init_sdl (s : State) : Bool × State :=
  let (ok, s1) := s.ask
  (ok, s1.logSDL (SDLCall.SDL_Init ok))

/-- `pre_init`, reduced to its outcome: whether the game data were found.  The search through
the working directory, the base path, the stored preference and the folder dialog touches
nothing else in the state. -/
def pre_init (s : State) : Bool × State :=
  let (ok, s1) := s.ask
  (ok, s1.log (Action.game_pre_init ok))

/-- Modelled from the spec: `game_init` of `game/game.h`, of which only success or failure
is seen here. -/
def game_init (s : State) : Bool × State :=
  let (ok, s1) := s.ask
  (ok, s1.log (Action.game_init ok))

/-- `setup`; `exit_with_status` ends the run, so what follows a failed check is not run. -/
def setup (p : Platform) (s : State) : Except Halt State := do
  let s0 := s.log Action.setup_logging
  let (sdl_ok, s1) := init_sdl s0
  if !sdl_ok then throw (Halt.exit (-1) s1)
  else
    let (pre_ok, s2) := pre_init s1
    if !pre_ok then throw (Halt.exit 1 s2)
    else
      let s3 := if s2.args.force_windowed ≠ 0 ∧ setting_fullscreen s2 ≠ 0 then
          setting_set_display s2 0 (setting_window s2).1 (setting_window s2).2
        else s2
      let s4 := if s3.args.force_fullscreen ≠ 0 ∧ setting_fullscreen s3 = 0 then
          setting_set_display s3 1 0 0
        else s3
      let s5 := if s4.args.display_scale_percentage ≠ 0 then
          ({ s4 with config_display_scale := s4.args.display_scale_percentage }).log
            (Action.config_set_display_scale s4.args.display_scale_percentage)
        else s4
      let s6 := if s5.args.cursor_scale_percentage ≠ 0 then
          ({ s5 with config_cursor_scale := s5.args.cursor_scale_percentage }).log
            (Action.config_set_cursor_scale s5.args.cursor_scale_percentage)
        else s5
      let created ← defined (platform_screen_create p (s6.log Action.platform_screen_create)
        s6.config_display_scale s6.args.display_id)
      if created.2 = 0 then throw (Halt.exit (-2) created.1)
      else
        let s7 := created.1.log (Action.system_init_cursors created.1.config_cursor_scale)
        let s8 := s7.log Action.time_set_millis
        let (game_ok, s9) := game_init s8
        if !game_ok then throw (Halt.exit 2 s9)
        else pure { s9 with data := { active := 1, quit := 0 } }

/-- `teardown`. -/
def teardown (p : Platform) (s : State) : Except Halt State := do
  let s1 := s.log Action.game_exit
  let s2 := platform_screen_destroy (s1.log Action.platform_screen_destroy)
  let s3 := s2.logSDL SDLCall.SDL_Quit
  let s4 := s3.log Action.teardown_logging
  if p.iphoneos then setup p s4 else pure s4

/-- The loop `while (SDL_PollEvent(&event)) handle_event(&event);` of `main_loop`, run on the
events that are pending. -/
def process_event_queue (p : Platform) : List Event → State → Option State
  | [], s => some s
  | event :: rest, s =>
    match handle_event p { s with queue := rest } event with
    | some s1 => process_event_queue p rest s1
    | none => none

/-- `main_loop`. -/
def main_loop (p : Platform) (s : State) : Except Halt State := do
  let s1 ← (if p.windows then
      defined (platform_screen_recreate_texture (s.log Action.platform_screen_recreate_texture))
    else pure s)
  let s2 ← defined (process_event_queue p s1.queue s1)
  if s2.data.quit ≠ 0 then
    let s3 := if p.emscripten then s2.log Action.emscripten_cancel_main_loop else s2
    let s4 ← teardown p s3
    pure (if p.emscripten then s4.log Action.emscripten_quit_game else s4)
  else if s2.data.active ≠ 0 then
    pure (run_and_draw p s2)
  else
    pure (s2.logSDL SDLCall.SDL_WaitEvent)

/-! ## Vocabulary of the statements -/

/-- The steps of a frame: a simulation tick, a draw pass, a screen update or present (the call
and the SDL calls it makes), and the blocking wait for an event. -/
def Action.is_frame_step : Action → Bool
  | Action.game_run => true
  | Action.game_draw => true
  | Action.platform_screen_update => true
  | Action.platform_screen_render => true
  | Action.draw_software_mouse_cursor => true
  | Action.sdl SDLCall.SDL_RenderClear => true
  | Action.sdl SDLCall.SDL_UpdateTexture => true
  | Action.sdl SDLCall.SDL_RenderCopy => true
  | Action.sdl SDLCall.SDL_RenderPresent => true
  | Action.sdl SDLCall.SDL_WaitEvent => true
  | _ => false

/-- The calls `main_loop` and `run_and_draw` make themselves once the queue is drained. -/
def Action.is_loop_step : Action → Bool
  | Action.time_set_millis => true
  | Action.game_run => true
  | Action.game_draw => true
  | Action.platform_screen_update => true
  | Action.platform_screen_render => true
  | Action.sdl SDLCall.SDL_WaitEvent => true
  | _ => false

/-- Either kind of step. -/
def Action.is_step (a : Action) : Bool := a.is_frame_step || a.is_loop_step

/-- The state `s'` is reached from `s` by appending calls to the trace, none of which
satisfies `P`. -/
def appends_no (P : Action → Bool) (s s' : State) : Prop :=
  ∃ added : List Action, s'.trace = s.trace ++ added ∧ ∀ a ∈ added, P a = false

/-- The state after the first statement of `main_loop`, the per-frame callback compiled on
Windows. -/
def after_frame_callback (p : Platform) (s : State) : Option State :=
  if p.windows then
    platform_screen_recreate_texture (s.log Action.platform_screen_recreate_texture)
  else some s

/-- The state in which a run stopped, when there is one. -/
def final_state (r : Except Halt State) : Option State :=
  match r with
  | Except.ok s => some s
  | Except.error (Halt.exit _ s) => some s
  | Except.error Halt.undefined => none

/-! ## Vocabulary of the statements about surfaces, setup and commands -/

/-- The state `s'` is reached from `s` by appending calls to the trace, all of which satisfy
`Q`. -/
def appends_only (Q : Action → Bool) (s s' : State) : Prop :=
  ∃ added : List Action, s'.trace = s.trace ++ added ∧ ∀ a ∈ added, Q a = true

/-- The calls by which the resize and mode functions of `screen.c` work on an existing
surface: adjusting the window, setting the renderer's logical size, replacing the presentation
texture, and writing the settings and the logical resolution.  Creating or destroying a window
or a renderer is not among them. -/
def Action.is_routine : Action → Bool
  | Action.sdl (SDLCall.SDL_CreateTexture _ _ _) => true
  | Action.sdl SDLCall.SDL_DestroyTexture => true
  | Action.sdl (SDLCall.SDL_RenderSetLogicalSize _ _) => true
  | Action.sdl (SDLCall.SDL_SetWindowMinimumSize _ _) => true
  | Action.sdl (SDLCall.SDL_SetHint_scale_quality _) => true
  | Action.sdl (SDLCall.SDL_SetWindowGrab _) => true
  | Action.sdl (SDLCall.SDL_SetWindowFullscreen _ _) => true
  | Action.sdl SDLCall.SDL_SetWindowDisplayMode => true
  | Action.sdl (SDLCall.SDL_SetWindowSize _ _) => true
  | Action.sdl SDLCall.SDL_RestoreWindow => true
  | Action.sdl SDLCall.SDL_SetWindowPosition_centered => true
  | Action.setting_set_display _ _ _ => true
  | Action.screen_set_resolution _ _ => true
  | _ => false

/-- A call of `SDL_CreateWindow` that returned a window. -/
def Action.window_created : Action → Bool
  | Action.sdl (SDLCall.SDL_CreateWindow _ _ _ true) => true
  | _ => false

/-- A call of `SDL_DestroyWindow`. -/
def Action.window_destroyed : Action → Bool
  | Action.sdl SDLCall.SDL_DestroyWindow => true
  | _ => false

/-- A call of `SDL_CreateRenderer` that returned a renderer. -/
def Action.renderer_created : Action → Bool
  | Action.sdl (SDLCall.SDL_CreateRenderer _ true) => true
  | _ => false

/-- A call of `SDL_DestroyRenderer`. -/
def Action.renderer_destroyed : Action → Bool
  | Action.sdl SDLCall.SDL_DestroyRenderer => true
  | _ => false

/-- An attempt to create, or the destruction of, a window or a renderer. -/
def Action.is_surface_lifecycle : Action → Bool
  | Action.sdl (SDLCall.SDL_CreateWindow _ _ _ _) => true
  | Action.sdl SDLCall.SDL_DestroyWindow => true
  | Action.sdl (SDLCall.SDL_CreateRenderer _ _) => true
  | Action.sdl SDLCall.SDL_DestroyRenderer => true
  | _ => false

/-- Any call `screen.c` makes while it creates, resizes, destroys or changes the mode of the
surface. -/
def Action.is_surface_call (a : Action) : Bool := a.is_routine || a.is_surface_lifecycle

/-- An attempt to create a window, a renderer or a texture, whatever its outcome. -/
def Action.is_creation_attempt : Action → Bool
  | Action.sdl (SDLCall.SDL_CreateWindow _ _ _ _) => true
  | Action.sdl (SDLCall.SDL_CreateRenderer _ _) => true
  | Action.sdl (SDLCall.SDL_CreateTexture _ _ _) => true
  | _ => false

/-- A call of `SDL_CreateTexture` that returned a texture. -/
def Action.texture_created : Action → Bool
  | Action.sdl (SDLCall.SDL_CreateTexture _ _ true) => true
  | _ => false

/-- The four stages of `setup` that can fail: `SDL_Init`, the pre-init of the game data, the
call of `platform_screen_create`, and `game_init`. -/
def Action.is_setup_stage : Action → Bool
  | Action.sdl (SDLCall.SDL_Init _) => true
  | Action.game_pre_init _ => true
  | Action.platform_screen_create => true
  | Action.game_init _ => true
  | _ => false

/-- The stages `setup` has gone through when it exits with a status: for `-1` a failed
`SDL_Init`; for `1` a failed pre-init after `SDL_Init`; for `-2` the call of
`platform_screen_create` after both; for `2` a failed `game_init` after all three. -/
def setup_stages_before_exit (status : Int) : List Action :=
  if status = -1 then [Action.sdl (SDLCall.SDL_Init false)]
  else if status = 1 then [Action.sdl (SDLCall.SDL_Init true), Action.game_pre_init false]
  else if status = -2 then
    [Action.sdl (SDLCall.SDL_Init true), Action.game_pre_init true, Action.platform_screen_create]
  else if status = 2 then
    [Action.sdl (SDLCall.SDL_Init true), Action.game_pre_init true, Action.platform_screen_create,
      Action.game_init false]
  else []

/-- A call of `setting_set_display`: a write of the display settings. -/
def Action.is_setting_write : Action → Bool
  | Action.setting_set_display _ _ _ => true
  | _ => false

/-- A call of `platform_screen_set_window_size` made by `handle_event`. -/
def Action.is_set_window_size_call : Action → Bool
  | Action.platform_screen_set_window_size _ _ => true
  | _ => false

/-- What `handle_event` may call for an event that is not a resize command: the input layer,
the other functions of `screen.c`, and what those call in turn. -/
def Action.is_other_dispatch : Action → Bool
  | Action.input _ => true
  | Action.platform_screen_resize _ _ => true
  | Action.platform_screen_move _ _ => true
  | Action.platform_screen_set_fullscreen => true
  | Action.platform_screen_set_windowed => true
  | Action.platform_screen_center_window => true
  | a => a.is_routine

/-- A step of `screen.c` on an existing surface: it appends routine calls only, creates or
drops neither the window nor the renderer, and leaves alone the loop flags, the two slots of
`system_resize` and the event queue. -/
def routine_step (s s' : State) : Prop :=
  appends_only Action.is_routine s s' ∧
    s'.SDL.window.isSome = s.SDL.window.isSome ∧
    s'.SDL.renderer.isSome = s.SDL.renderer.isSome ∧
    s'.data = s.data ∧ s'.s_width = s.s_width ∧ s'.s_height = s.s_height ∧
    s'.queue = s.queue

/-- At every moment of the trace, the objects created and not yet destroyed number zero or
one: in every initial part of the trace the creations are at least the destructions and at most
one more. -/
def at_most_one_live (created destroyed : Action → Bool) (tr : List Action) : Prop :=
  ∀ pre : List Action, pre <+: tr →
    pre.countP destroyed ≤ pre.countP created ∧ pre.countP created ≤ pre.countP destroyed + 1

/-- The property `at_most_one_live` of a trace, together with what is alive at its end: one
object when `live` is true, none when it is false. -/
def live_at_end (created destroyed : Action → Bool) (tr : List Action) (live : Bool) : Prop :=
  at_most_one_live created destroyed tr ∧
    tr.countP created = tr.countP destroyed + (if live then 1 else 0)

/-- The trace accounts for the handles: windows and renderers were created and destroyed in
turn, and one is alive at the end exactly when `SDL.window`, respectively `SDL.renderer`, is
not null. -/
def surface_invariant (s : State) : Prop :=
  live_at_end Action.window_created Action.window_destroyed s.trace s.SDL.window.isSome ∧
    live_at_end Action.renderer_created Action.renderer_destroyed s.trace s.SDL.renderer.isSome

/-- The calls into `screen.c` that create, resize, destroy or change the mode of the
surface. -/
inductive SurfaceCall where
  | create (display_scale_percentage display_id : Int)
  | resize (pixel_width pixel_height : Int)
  | destroy
  | scale_display (display_scale_percentage : Int)
  | move (x y : Int)
  | set_fullscreen
  | set_windowed
  | set_window_size (logical_width logical_height : Int)
  | center_window
  | recreate_texture
deriving DecidableEq, Repr

/-- Make one call into `screen.c`, dropping the C result. -/
def SurfaceCall.run (p : Platform) (s : State) : SurfaceCall → Option State
  | SurfaceCall.create scale display_id => (platform_screen_create p s scale display_id).map Prod.fst
  | SurfaceCall.resize w h => (platform_screen_resize s w h).map Prod.fst
  | SurfaceCall.destroy => some (platform_screen_destroy s)
  | SurfaceCall.scale_display scale => (system_scale_display p s scale).map Prod.fst
  | SurfaceCall.move x y => some (platform_screen_move s x y)
  | SurfaceCall.set_fullscreen => platform_screen_set_fullscreen s
  | SurfaceCall.set_windowed => platform_screen_set_windowed p s
  | SurfaceCall.set_window_size w h => platform_screen_set_window_size p s w h
  | SurfaceCall.center_window => some (platform_screen_center_window s)
  | SurfaceCall.recreate_texture => platform_screen_recreate_texture s

/-- Make a sequence of calls into `screen.c`, one after the other. -/
def run_surface_calls (p : Platform) : List SurfaceCall → State → Option State
  | [], s => some s
  | call :: rest, s =>
    match call.run p s with
    | some s1 => run_surface_calls p rest s1
    | none => none

/-- `SDL_WINDOWEVENT_SHOWN`. -/
def Event.is_window_shown : Event → Bool
  | Event.window WindowEventID.shown _ _ => true
  | _ => false

/-- `SDL_WINDOWEVENT_HIDDEN`. -/
def Event.is_window_hidden : Event → Bool
  | Event.window WindowEventID.hidden _ _ => true
  | _ => false

/-- `SDL_QUIT`, or the internal command `USER_EVENT_QUIT`. -/
def Event.is_quit_request : Event → Bool
  | Event.quit => true
  | Event.user code _ _ => decide (code = USER_EVENT_QUIT)
  | _ => false

/-- The event `system_resize` queues: `USER_EVENT_RESIZE` pointing at the two static slots. -/
def resize_command : Event :=
  Event.user USER_EVENT_RESIZE (some Slot.s_width) (some Slot.s_height)

/-- A user event with the code `USER_EVENT_RESIZE`, wherever it points. -/
def Event.has_resize_code : Event → Bool
  | Event.user code _ _ => decide (code = USER_EVENT_RESIZE)
  | _ => false

/-- A dispatch by `handle_event` of an event that is neither a resize command nor one that
changes a loop flag: the calls it appends are those of `Action.is_other_dispatch`, and the
loop flags and the two slots of `system_resize` stay as they are. -/
def dispatch_step (s s' : State) : Prop :=
  appends_only Action.is_other_dispatch s s' ∧ s'.s_width = s.s_width ∧
    s'.s_height = s.s_height ∧ s'.data = s.data

/-- The state `s'` differs from `s` by one more event at the end of the queue, and by the
`SDL_PushEvent` that put it there: the surface state (handles, tracked window position, scale,
settings, logical resolution) and the loop flags are the same. -/
def only_queues (s s' : State) (event : Event) : Prop :=
  s'.SDL = s.SDL ∧ s'.window_pos = s.window_pos ∧ s'.scale = s.scale ∧
    s'.settings = s.settings ∧ s'.screen_width = s.screen_width ∧
    s'.screen_height = s.screen_height ∧ s'.data = s.data ∧
    s'.queue = s.queue ++ [event] ∧
    s'.trace = s.trace ++ [Action.sdl (SDLCall.SDL_PushEvent event)]

/-! ## Concrete configurations -/

/-- A desktop build: none of the platform symbols is defined. -/
def desktop : Platform :=
  { vita := false, android := false, nswitch := false, apple := false, windows := false,
    iphoneos := false, emscripten := false, file_cache := false, software_cursor := false }

/-- An Android build. -/
def android_build : Platform := { desktop with android := true, file_cache := true }

/-- Surroundings with a 1920 x 1080 desktop in which every fallible call succeeds. -/
def example_environment : Environment :=
  { desktop_w := 1920, desktop_h := 1080, num_displays := 1, centered_x := 0, centered_y := 0,
    relative_mouse_mode := false, android_screen_density := density_2_0,
    answers := fun _ => true }

/-- A running program with a window of the given pixel size and a renderer, before the first
presentation texture exists. -/
def example_state (width height requested : Int) (density : F32) : State :=
  { SDL :=
      { window := some { w := width, h := height, x := 0, y := 0, fullscreen := false,
                         grab := false, maximized := false, display := 0, min_w := 0,
                         min_h := 0 }
        renderer := some ⟨false, 0, 0⟩
        texture := none }
    window_pos := ⟨0, 0, 1⟩
    scale := ⟨requested, requested, density⟩
    settings := ⟨0, 800, 600⟩
    screen_width := 0
    screen_height := 0
    config_display_scale := 100
    config_cursor_scale := 100
    env := example_environment
    asked := 0
    data := ⟨1, 0⟩
    s_width := 0
    s_height := 0
    args := ⟨0, 0, 0, 0, 0⟩
    queue := []
    trace := [] }

/-- The program before any surface exists: no window, renderer or texture, nothing in the
trace, windowed mode with a stored window size of 800 x 600. -/
def initial_state : State :=
  { example_state 0 0 100 density_1_0 with SDL := ⟨none, none, none⟩ }

/-- The program before any surface exists, in surroundings whose fallible calls succeed or
fail as `answers` says, in the order they are made. -/
def initial_state_answering (answers : Nat → Bool) : State :=
  { initial_state with env := { example_environment with answers := answers } }

/-- The example program at 1920 x 1080 with a request of 150, after its first
`platform_screen_resize(1920, 1080)`: the presentation texture of 1280 x 720 exists. -/
def example_state_resized : State :=
  (resize_presentation_texture
    { example_state 1920 1080 150 density_1_0 with scale := ⟨150, 150, density_1_0⟩ }
    1280 720).1

/-- A hidden program (`active` is 0) with an `SDL_QUIT` event pending. -/
def idle_state_with_quit : State :=
  { example_state 1920 1080 100 density_1_0 with
    data := { active := 0, quit := 0 }, queue := [Event.quit] }

/-- The state `idle_state_with_quit` once its queue is drained: the quit flag is set. -/
def idle_state_drained : State :=
  { example_state 1920 1080 100 density_1_0 with
    data := { active := 0, quit := 1 }, queue := [] }

/-! ## Bit length -/

theorem size_div_two_pow {m k : Nat} (h : 2 ^ k ≤ m) : Nat.size (m / 2 ^ k) + k = Nat.size m := by
  apply eq_of_forall_ge_iff
  intro j
  rw [Nat.size_le]
  by_cases hj : k ≤ j
  · obtain ⟨i, rfl⟩ := Nat.exists_eq_add_of_le hj
    rw [show Nat.size (m / 2 ^ k) + k ≤ k + i ↔ Nat.size (m / 2 ^ k) ≤ i by omega, Nat.size_le,
      Nat.div_lt_iff_lt_mul (by positivity), pow_add, mul_comm]
  · have hlt : 2 ^ j < 2 ^ k := Nat.pow_lt_pow_right (by norm_num) (by omega)
    constructor
    · intro h1; omega
    · intro h1; omega

theorem bitLengthAux_eq_size : ∀ (fuel n : Nat), n ≤ fuel → bitLengthAux fuel n = Nat.size n := by
  intro fuel
  induction fuel with
  | zero =>
    intro n hn
    have : n = 0 := by omega
    subst this
    simp [bitLengthAux]
  | succ f ih =>
    intro n hn
    unfold bitLengthAux
    by_cases h0 : n = 0
    · subst h0; simp
    · have hlt : n / 2 ≤ f := by omega
      rw [if_neg h0, ih (n / 2) hlt]
      by_cases h1 : n = 1
      · subst h1; simp
      · have h2 : 2 ^ 1 ≤ n := by
          rw [pow_one]; omega
        have := size_div_two_pow h2
        simpa using this

theorem bitStep_inv (k : Nat) (s : Nat × Nat) :
    (bitStep k s).2 + Nat.size (bitStep k s).1 = s.2 + Nat.size s.1 := by
  unfold bitStep
  split
  · rename_i h
    have := size_div_two_pow h
    simp only
    omega
  · rfl

theorem bitLength_eq_size (n : Nat) : bitLength n = Nat.size n := by
  unfold bitLength
  simp only
  rw [bitLengthAux_eq_size _ _ le_rfl]
  simp only [bitStep_inv]
  simp

/-! ## Rounding half to even -/

theorem roundHalfEven_ge (p q : Nat) : p / q ≤ roundHalfEven p q := by
  unfold roundHalfEven
  split_ifs <;> omega

theorem roundHalfEven_le {p q c : Nat} (hq : 0 < q) (h : p ≤ c * q) : roundHalfEven p q ≤ c := by
  have hdiv : p / q ≤ c := Nat.div_le_of_le_mul (by rw [mul_comm]; exact h)
  have hdm := Nat.div_add_mod p q
  by_cases hr : p % q = 0
  · unfold roundHalfEven
    rw [hr, if_pos (by omega)]
    exact hdiv
  · have hlt : p / q < c := by
      rcases Nat.lt_or_ge (p / q) c with h1 | h1
      · exact h1
      · exfalso
        have h2 : p / q = c := le_antisymm hdiv h1
        rw [h2] at hdm
        have : q * c = c * q := mul_comm _ _
        omega
    unfold roundHalfEven
    split_ifs <;> omega

theorem roundHalfEven_err (p q : Nat) : 2 * (roundHalfEven p q * q) ≤ 2 * p + q := by
  have hdm := Nat.div_add_mod p q
  have hc : p / q * q = q * (p / q) := mul_comm _ _
  unfold roundHalfEven
  split_ifs with h1 h2 h3
  · omega
  · rw [add_mul]; omega
  · omega
  · rw [add_mul]; omega

theorem roundHalfEven_lt {p q c : Nat} (h : 2 * p + q < 2 * (c * q)) :
    roundHalfEven p q < c := by
  have herr := roundHalfEven_err p q
  by_contra hge
  push_neg at hge
  have hmul : c * q ≤ roundHalfEven p q * q := Nat.mul_le_mul_right q hge
  omega

/-! ## Rounding to the `float` grid -/

theorem roundUnits_eq (P Q : Nat) :
    F32.roundUnits P Q =
      roundHalfEven P (Q * 2 ^ (Nat.size (P / Q) - 24)) * 2 ^ (Nat.size (P / Q) - 24) := by
  unfold F32.roundUnits
  rw [bitLength_eq_size]

theorem spacing_le {P Q t : Nat} (hQ : 0 < Q) (hP : P < 2 ^ (t + 24) * Q) :
    Nat.size (P / Q) - 24 ≤ t := by
  have h1 : P / Q < 2 ^ (t + 24) := (Nat.div_lt_iff_lt_mul hQ).2 hP
  have h2 : Nat.size (P / Q) ≤ t + 24 := Nat.size_le.2 h1
  omega

theorem spacing_lower {P Q b : Nat} (hQ : 0 < Q) (hb : Nat.size (P / Q) - 24 = b + 1) :
    2 ^ (b + 24) * Q ≤ P := by
  have h1 : b + 24 < Nat.size (P / Q) := by omega
  have h2 : 2 ^ (b + 24) ≤ P / Q := Nat.lt_size.1 h1
  exact (Nat.le_div_iff_mul_le hQ).1 h2

theorem roundUnits_ge {P Q m j : Nat} (hQ : 0 < Q) (hm : m < 2 ^ 24) (h : m * 2 ^ j * Q ≤ P) :
    m * 2 ^ j ≤ F32.roundUnits P Q := by
  rw [roundUnits_eq]
  generalize hb : Nat.size (P / Q) - 24 = b
  have hg : 0 < 2 ^ b := by positivity
  by_cases hj : b ≤ j
  · obtain ⟨i, rfl⟩ := Nat.exists_eq_add_of_le hj
    have h1 : m * 2 ^ i ≤ P / (Q * 2 ^ b) := by
      rw [Nat.le_div_iff_mul_le (by positivity)]
      calc m * 2 ^ i * (Q * 2 ^ b) = m * 2 ^ (b + i) * Q := by rw [pow_add]; ring
        _ ≤ P := h
    calc m * 2 ^ (b + i) = m * 2 ^ i * 2 ^ b := by rw [pow_add]; ring
      _ ≤ P / (Q * 2 ^ b) * 2 ^ b := Nat.mul_le_mul_right _ h1
      _ ≤ roundHalfEven P (Q * 2 ^ b) * 2 ^ b := Nat.mul_le_mul_right _ (roundHalfEven_ge _ _)
  · obtain ⟨b', rfl⟩ : ∃ b', b = b' + 1 := ⟨b - 1, by omega⟩
    have h1 := spacing_lower hQ hb
    have h2 : 2 ^ 23 ≤ P / (Q * 2 ^ (b' + 1)) := by
      rw [Nat.le_div_iff_mul_le (by positivity)]
      calc 2 ^ 23 * (Q * 2 ^ (b' + 1)) = 2 ^ (b' + 24) * Q := by
            rw [pow_add, pow_add]; ring
        _ ≤ P := h1
    have h3 : 2 ^ j ≤ 2 ^ b' := Nat.pow_le_pow_right (by norm_num) (by omega)
    calc m * 2 ^ j ≤ 2 ^ 24 * 2 ^ b' := Nat.mul_le_mul hm.le h3
      _ = 2 ^ 23 * 2 ^ (b' + 1) := by rw [pow_add]; ring
      _ ≤ P / (Q * 2 ^ (b' + 1)) * 2 ^ (b' + 1) := Nat.mul_le_mul_right _ h2
      _ ≤ roundHalfEven P (Q * 2 ^ (b' + 1)) * 2 ^ (b' + 1) :=
          Nat.mul_le_mul_right _ (roundHalfEven_ge _ _)

theorem roundUnits_le {P Q m j : Nat} (hQ : 0 < Q) (hm : m < 2 ^ 24) (h : P ≤ m * 2 ^ j * Q) :
    F32.roundUnits P Q ≤ m * 2 ^ j := by
  rw [roundUnits_eq]
  generalize hb : Nat.size (P / Q) - 24 = b
  by_cases hj : b ≤ j
  · obtain ⟨i, rfl⟩ := Nat.exists_eq_add_of_le hj
    have h1 : roundHalfEven P (Q * 2 ^ b) ≤ m * 2 ^ i := by
      apply roundHalfEven_le (by positivity)
      calc P ≤ m * 2 ^ (b + i) * Q := h
        _ = m * 2 ^ i * (Q * 2 ^ b) := by rw [pow_add]; ring
    calc roundHalfEven P (Q * 2 ^ b) * 2 ^ b ≤ m * 2 ^ i * 2 ^ b := Nat.mul_le_mul_right _ h1
      _ = m * 2 ^ (b + i) := by rw [pow_add]; ring
  · exfalso
    obtain ⟨b', rfl⟩ : ∃ b', b = b' + 1 := ⟨b - 1, by omega⟩
    have h1 := spacing_lower hQ hb
    have h3 : 2 ^ j ≤ 2 ^ b' := Nat.pow_le_pow_right (by norm_num) (by omega)
    have h4 : m * 2 ^ j < 2 ^ (b' + 24) := by
      calc m * 2 ^ j < 2 ^ 24 * 2 ^ j := Nat.mul_lt_mul_of_pos_right hm (by positivity)
        _ ≤ 2 ^ 24 * 2 ^ b' := Nat.mul_le_mul_left _ h3
        _ = 2 ^ (b' + 24) := by rw [pow_add]; ring
    have h5 : m * 2 ^ j * Q < 2 ^ (b' + 24) * Q := Nat.mul_lt_mul_of_pos_right h4 hQ
    omega

theorem roundUnits_exact {Q m j : Nat} (hQ : 0 < Q) (hm : m < 2 ^ 24) :
    F32.roundUnits (m * 2 ^ j * Q) Q = m * 2 ^ j :=
  le_antisymm (roundUnits_le hQ hm le_rfl) (roundUnits_ge hQ hm le_rfl)

theorem roundUnits_err {P Q t : Nat} (hQ : 0 < Q) (hP : P < 2 ^ (t + 24) * Q) :
    2 * (F32.roundUnits P Q * Q) ≤ 2 * P + Q * 2 ^ t := by
  rw [roundUnits_eq]
  have hb := spacing_le hQ hP
  have h1 := roundHalfEven_err P (Q * 2 ^ (Nat.size (P / Q) - 24))
  have h2 : 2 ^ (Nat.size (P / Q) - 24) ≤ 2 ^ t := Nat.pow_le_pow_right (by norm_num) hb
  have h3 : Q * 2 ^ (Nat.size (P / Q) - 24) ≤ Q * 2 ^ t := Nat.mul_le_mul_left _ h2
  calc 2 * (roundHalfEven P (Q * 2 ^ (Nat.size (P / Q) - 24)) * 2 ^ (Nat.size (P / Q) - 24) * Q)
      = 2 * (roundHalfEven P (Q * 2 ^ (Nat.size (P / Q) - 24)) *
          (Q * 2 ^ (Nat.size (P / Q) - 24))) := by ring
    _ ≤ 2 * P + Q * 2 ^ (Nat.size (P / Q) - 24) := h1
    _ ≤ 2 * P + Q * 2 ^ t := by omega

theorem roundUnits_lt {P Q c t : Nat} (hQ : 0 < Q) (hP : P < 2 ^ (t + 24) * Q)
    (hgap : 2 * P + Q * 2 ^ t < 2 * (c * 2 ^ t * Q)) : F32.roundUnits P Q < c * 2 ^ t := by
  have herr := roundUnits_err hQ hP
  by_contra hge
  push_neg at hge
  have : c * 2 ^ t * Q ≤ F32.roundUnits P Q * Q := Nat.mul_le_mul_right _ hge
  omega

/-! ## Scaling the operands of a division -/

theorem roundHalfEven_scale (p q t : Nat) (ht : 0 < t) :
    roundHalfEven (p * t) (q * t) = roundHalfEven p q := by
  unfold roundHalfEven
  rw [Nat.mul_div_mul_right _ _ ht, Nat.mul_mod_mul_right]
  have h1 : (2 * (p % q * t) < q * t) ↔ (2 * (p % q) < q) := by
    rw [← mul_assoc]
    exact Nat.mul_lt_mul_right ht
  have h2 : (q * t < 2 * (p % q * t)) ↔ (q < 2 * (p % q)) := by
    rw [← mul_assoc]
    exact Nat.mul_lt_mul_right ht
  simp only [h1, h2]

theorem roundUnits_scale (P Q t : Nat) (ht : 0 < t) :
    F32.roundUnits (P * t) (Q * t) = F32.roundUnits P Q := by
  unfold F32.roundUnits
  rw [Nat.mul_div_mul_right _ _ ht]
  have : Q * t * 2 ^ (bitLength (P / Q) - 24) = Q * 2 ^ (bitLength (P / Q) - 24) * t := by ring
  rw [this, roundHalfEven_scale _ _ _ ht]

theorem cint_eq_some {x : Int} (h1 : -2147483648 ≤ x) (h2 : x ≤ 2147483647) : cint x = some x := by
  unfold cint INT_MIN INT_MAX
  rw [if_pos ⟨h1, h2⟩]

theorem ofMagnitude_false {mag : Nat} (h : mag < 2 ^ 128 * F32.one) :
    F32.ofMagnitude false mag = some ⟨(mag : Int)⟩ := by
  unfold F32.ofMagnitude
  rw [if_pos h]
  simp

theorem ofInt_natCast (n : Nat) :
    F32.ofInt (n : Int) = F32.ofMagnitude false (F32.roundUnits (n * F32.one) 1) := by
  unfold F32.ofInt
  have : ¬ ((n : Int) < 0) := by omega
  simp [this]

theorem div_natCast (u v : Nat) (hv : 0 < v) :
    F32.div ⟨(u : Int)⟩ ⟨(v : Int)⟩ =
      F32.ofMagnitude false (F32.roundUnits (u * F32.one) v) := by
  unfold F32.div
  have h1 : ¬ ((u : Int) < 0) := by omega
  have h2 : ¬ ((v : Int) < 0) := by omega
  have h3 : ¬ ((v : Int) = 0) := by omega
  simp [h1, h2, h3]

theorem toInt_natCast (u : Nat) :
    F32.toInt ⟨(u : Int)⟩ = cint ((u / F32.one : Nat) : Int) := by
  unfold F32.toInt
  congr 1

/-! ## Truncated quotients -/

/-- Bounds for one division: rounding `n / q` (with `q ≤ 3`) never crosses an integer. -/
theorem roundUnits_floor_bounds {n q : Nat} (hq0 : 0 < q) (hq : q ≤ 3) (hn : n < 2 ^ 23 * q) :
    n / q * 2 ^ 149 ≤ F32.roundUnits (n * 2 ^ 149) q ∧
      F32.roundUnits (n * 2 ^ 149) q < (n / q + 1) * 2 ^ 149 := by
  have hM : n / q < 2 ^ 23 := (Nat.div_lt_iff_lt_mul hq0).2 hn
  have hMq : n / q * q ≤ n := Nat.div_mul_le_self n q
  have hlt : n < (n / q + 1) * q := by
    have := Nat.lt_succ_iff.2 (le_refl (n / q))
    exact (Nat.div_lt_iff_lt_mul hq0).1 this
  constructor
  · apply roundUnits_ge hq0 (lt_trans hM (by norm_num))
    calc n / q * 2 ^ 149 * q = n / q * q * 2 ^ 149 := by ring
      _ ≤ n * 2 ^ 149 := Nat.mul_le_mul_right _ hMq
  · have h149 : (2 : Nat) ^ 149 = 2 * 2 ^ 148 := by norm_num
    have h172 : (2 : Nat) ^ (148 + 24) = 2 ^ 23 * (2 * 2 ^ 148) := by norm_num
    have key := @roundUnits_lt (n * 2 ^ 149) q (2 * (n / q + 1)) 148 hq0
    rw [h172, h149] at key
    rw [h149]
    have hK : 0 < (2 : Nat) ^ 148 := by positivity
    generalize (2 : Nat) ^ 148 = K at key hK ⊢
    · have hP : n * (2 * K) < 2 ^ 23 * (2 * K) * q := by
        have := Nat.mul_lt_mul_of_pos_right hn (show 0 < 2 * K by omega)
        calc n * (2 * K) < 2 ^ 23 * q * (2 * K) := this
          _ = 2 ^ 23 * (2 * K) * q := by ring
      have hgap : 2 * (n * (2 * K)) + q * K < 2 * (2 * (n / q + 1) * K * q) := by
        have h1 : (n + 1) * K ≤ (n / q + 1) * q * K := Nat.mul_le_mul_right _ hlt
        have h2 : q * K ≤ 3 * K := Nat.mul_le_mul_right _ hq
        calc 2 * (n * (2 * K)) + q * K ≤ 4 * (n * K) + 3 * K := by
              have : 2 * (n * (2 * K)) = 4 * (n * K) := by ring
              omega
          _ < 4 * ((n + 1) * K) := by
              have : 4 * ((n + 1) * K) = 4 * (n * K) + 4 * K := by ring
              omega
          _ ≤ 4 * ((n / q + 1) * q * K) := Nat.mul_le_mul_left _ h1
          _ = 2 * (2 * (n / q + 1) * K * q) := by ring
      have := key hP hgap
      calc F32.roundUnits (n * (2 * K)) q < 2 * (n / q + 1) * K := this
        _ = (n / q + 1) * (2 * K) := by ring

/-- One division followed by the conversion to `int` yields the exact floor. -/
theorem roundUnits_floor {n q : Nat} (hq0 : 0 < q) (hq : q ≤ 3) (hn : n < 2 ^ 23 * q) :
    F32.roundUnits (n * 2 ^ 149) q / 2 ^ 149 = n / q := by
  obtain ⟨h1, h2⟩ := roundUnits_floor_bounds hq0 hq hn
  apply Nat.div_eq_of_lt_le
  · exact h1
  · exact h2

/-- Arithmetic behind `roundUnits_floor2_bounds`: the error of the first rounding leaves the
second rounding clear of the next integer. -/
theorem floor2_gap {n q mn K r M : Nat} (hK : 0 < K) (hq : q ≤ 3) (hmn : mn ≤ 640)
    (hlt : n < (M + 1) * (mn * q))
    (herr : 2 * (r * q) ≤ 2 * (n * (2 ^ 11 * K)) + q * (2 ^ 8 * K)) :
    2 * r + mn * K < 2 * (2 ^ 11 * (M + 1) * K * mn) := by
  have e1 : (2 * r + mn * K) * q = 2 * (r * q) + mn * q * K := by ring
  have e2 : 2 * (2 ^ 11 * (M + 1) * K * mn) * q = 4096 * ((M + 1) * (mn * q) * K) := by ring
  have e3 : 2 * (n * (2 ^ 11 * K)) = 4096 * (n * K) := by ring
  have e5 : q * (2 ^ 8 * K) = 256 * (q * K) := by ring
  have h1 : (n + 1) * K ≤ (M + 1) * (mn * q) * K := Nat.mul_le_mul_right _ hlt
  have h2 : q * K ≤ 3 * K := Nat.mul_le_mul_right _ hq
  have h3 : mn * q * K ≤ 640 * (3 * K) := by
    calc mn * q * K = mn * (q * K) := by ring
      _ ≤ 640 * (3 * K) := Nat.mul_le_mul hmn h2
  have e4 : (n + 1) * K = n * K + K := by ring
  rw [e3, e5] at herr
  have hmul : (2 * r + mn * K) * q < 2 * (2 ^ 11 * (M + 1) * K * mn) * q := by
    rw [e1, e2]
    omega
  exact Nat.lt_of_mul_lt_mul_right hmul

/-- Two divisions in a row, the second by an integer between 257 and 640: the result,
converted to `int`, is the floor of the exact quotient. -/
theorem roundUnits_floor2_bounds {n q mn : Nat} (hq0 : 0 < q) (hq : q ≤ 3) (hmn0 : 256 < mn)
    (hmn : mn ≤ 640) (hn : n < 2 ^ 21 * q) :
    n / (mn * q) * 2 ^ 149 ≤ F32.roundUnits (F32.roundUnits (n * 2 ^ 149) q) mn ∧
      F32.roundUnits (F32.roundUnits (n * 2 ^ 149) q) mn < (n / (mn * q) + 1) * 2 ^ 149 := by
  have hmnpos : 0 < mn := by omega
  have hmq : 0 < mn * q := Nat.mul_pos hmnpos hq0
  have hMle : n / (mn * q) * (mn * q) ≤ n := Nat.div_mul_le_self n (mn * q)
  have hlt : n < (n / (mn * q) + 1) * (mn * q) :=
    (Nat.div_lt_iff_lt_mul hmq).1 (Nat.lt_succ_iff.2 (le_refl _))
  have hM1 : mn * (n / (mn * q)) < 2 ^ 21 := by
    have : mn * (n / (mn * q)) * q < 2 ^ 21 * q :=
      lt_of_le_of_lt (by calc mn * (n / (mn * q)) * q = n / (mn * q) * (mn * q) := by ring
                            _ ≤ n := hMle) hn
    exact Nat.lt_of_mul_lt_mul_right this
  have hM : n / (mn * q) < 2 ^ 21 :=
    lt_of_le_of_lt (Nat.le_mul_of_pos_left _ hmnpos) hM1
  -- first rounding, from below
  have hr1 : mn * (n / (mn * q)) * 2 ^ 149 ≤ F32.roundUnits (n * 2 ^ 149) q := by
    apply roundUnits_ge hq0 (lt_trans hM1 (by norm_num))
    calc mn * (n / (mn * q)) * 2 ^ 149 * q = n / (mn * q) * (mn * q) * 2 ^ 149 := by ring
      _ ≤ n * 2 ^ 149 := Nat.mul_le_mul_right _ hMle
  -- first rounding, from above
  have h170 : (2 : Nat) ^ (146 + 24) = 2 ^ 21 * 2 ^ 149 := by norm_num
  have hP1 : n * 2 ^ 149 < 2 ^ (146 + 24) * q := by
    rw [h170]
    calc n * 2 ^ 149 < 2 ^ 21 * q * 2 ^ 149 := Nat.mul_lt_mul_of_pos_right hn (by positivity)
      _ = 2 ^ 21 * 2 ^ 149 * q := by ring
  have herr := roundUnits_err hq0 hP1
  have hr1le : F32.roundUnits (n * 2 ^ 149) q ≤ 2 ^ 21 * 2 ^ 149 := by
    have := @roundUnits_le (n * 2 ^ 149) q 1 (21 + 149) hq0 (by norm_num)
    rw [show (1 : Nat) * 2 ^ (21 + 149) = 2 ^ 21 * 2 ^ 149 by norm_num] at this
    apply this
    calc n * 2 ^ 149 ≤ 2 ^ 21 * q * 2 ^ 149 := Nat.mul_le_mul_right _ hn.le
      _ = 2 ^ 21 * 2 ^ 149 * q := by ring
  constructor
  · apply roundUnits_ge hmnpos (lt_trans hM (by norm_num))
    calc n / (mn * q) * 2 ^ 149 * mn = mn * (n / (mn * q)) * 2 ^ 149 := by ring
      _ ≤ F32.roundUnits (n * 2 ^ 149) q := hr1
  · have key := @roundUnits_lt (F32.roundUnits (n * 2 ^ 149) q) mn
      (2 ^ 11 * (n / (mn * q) + 1)) 138 hmnpos
    have h149 : (2 : Nat) ^ 149 = 2 ^ 11 * 2 ^ 138 := by norm_num
    have h146 : (2 : Nat) ^ 146 = 2 ^ 8 * 2 ^ 138 := by norm_num
    have h162 : (2 : Nat) ^ (138 + 24) = 2 ^ 24 * 2 ^ 138 := by norm_num
    rw [h162, h149] at key
    rw [h146, h149] at herr
    rw [h149] at hr1le ⊢
    have hK : 0 < (2 : Nat) ^ 138 := by positivity
    generalize (2 : Nat) ^ 138 = K at key herr hr1le hK ⊢
    generalize F32.roundUnits (n * (2 ^ 11 * K)) q = r at key herr hr1le ⊢
    have hPk : r < 2 ^ 24 * K * mn := by
      have e : 2 ^ 21 * (2 ^ 11 * K) = 2 ^ 24 * K * 256 := by ring
      have hT : 0 < 2 ^ 24 * K := Nat.mul_pos (by norm_num) hK
      have h2 : 2 ^ 24 * K * 256 < 2 ^ 24 * K * mn := by
        generalize 2 ^ 24 * K = T at hT ⊢
        exact (Nat.mul_lt_mul_left hT).2 hmn0
      omega
    have hgap := floor2_gap hK hq hmn hlt herr
    have hfin := key hPk hgap
    have e : 2 ^ 11 * (n / (mn * q) + 1) * K = (n / (mn * q) + 1) * (2 ^ 11 * K) := by ring
    rw [e] at hfin
    exact hfin

/-! ## Division by a representative density -/

theorem div_scaled (u a q k : Nat) (hq : 0 < q) (hk : 0 < k) (hU : F32.one = a * k) :
    F32.div ⟨(u : Int)⟩ ⟨((q * k : Nat) : Int)⟩ =
      F32.ofMagnitude false (F32.roundUnits (a * u) q) := by
  rw [div_natCast u (q * k) (Nat.mul_pos hq hk), hU]
  have e : u * (a * k) = a * u * k := by ring
  rw [e, roundUnits_scale _ _ _ hk]

theorem div_representative {d : F32} (hd : representative_density d) :
    ∃ a q : Nat, 0 < a ∧ a ≤ q ∧ q ≤ 3 ∧ a ≤ 2 ∧ (a = 1 ∨ d = density_1_5) ∧
      d.toRat = (q : ℚ) / (a : ℚ) ∧
      ∀ u : Nat, F32.div ⟨(u : Int)⟩ d = F32.ofMagnitude false (F32.roundUnits (a * u) q) := by
  rcases hd with rfl | rfl | rfl | rfl
  · refine ⟨1, 1, by norm_num, by norm_num, by norm_num, by norm_num, Or.inl rfl, ?_, ?_⟩
    · norm_num [F32.toRat, density_1_0, F32.dyadic]
    · intro u
      exact div_scaled u 1 1 (2 ^ 149) (by norm_num) (by positivity) (by norm_num [F32.one])
  · refine ⟨2, 3, by norm_num, by norm_num, by norm_num, by norm_num, Or.inr rfl, ?_, ?_⟩
    · norm_num [F32.toRat, density_1_5, F32.dyadic]
    · intro u
      exact div_scaled u 2 3 (2 ^ 148) (by norm_num) (by positivity) (by norm_num [F32.one])
  · refine ⟨1, 2, by norm_num, by norm_num, by norm_num, by norm_num, Or.inl rfl, ?_, ?_⟩
    · norm_num [F32.toRat, density_2_0, F32.dyadic]
    · intro u
      exact div_scaled u 1 2 (2 ^ 149) (by norm_num) (by positivity) (by norm_num [F32.one])
  · refine ⟨1, 3, by norm_num, by norm_num, by norm_num, by norm_num, Or.inl rfl, ?_, ?_⟩
    · norm_num [F32.toRat, density_3_0, F32.dyadic]
    · intro u
      exact div_scaled u 1 3 (2 ^ 149) (by norm_num) (by positivity) (by norm_num [F32.one])

/-! ## Exact conversions -/

theorem cint_natCast {n : Nat} (h : n ≤ 2147483647) : cint (n : Int) = some (n : Int) :=
  cint_eq_some (by omega) (by omega)

theorem ofInt_exact {y : Nat} (hy : y < 2 ^ 24) :
    F32.ofInt (y : Int) = some ⟨((y * 2 ^ 149 : Nat) : Int)⟩ := by
  rw [ofInt_natCast]
  have h1 : F32.roundUnits (y * F32.one) 1 = y * 2 ^ 149 := by
    have := @roundUnits_exact 1 y 149 (by norm_num) hy
    rw [mul_one] at this
    unfold F32.one
    exact this
  rw [h1]
  apply ofMagnitude_false
  unfold F32.one
  calc y * 2 ^ 149 < 2 ^ 24 * 2 ^ 149 := Nat.mul_lt_mul_of_pos_right hy (by positivity)
    _ ≤ 2 ^ 128 * 2 ^ 149 := Nat.mul_le_mul_right _ (by norm_num)

theorem toInt_of_bounds {r M : Nat} (hM : M ≤ 2147483647) (h1 : M * 2 ^ 149 ≤ r)
    (h2 : r < (M + 1) * 2 ^ 149) : F32.toInt ⟨(r : Int)⟩ = some (M : Int) := by
  rw [toInt_natCast]
  have : r / F32.one = M := by
    unfold F32.one
    exact Nat.div_eq_of_lt_le h1 h2
  rw [this]
  exact cint_natCast hM

theorem ofMagnitude_of_lt {r M : Nat} (hM : M ≤ 2147483647) (h2 : r < (M + 1) * 2 ^ 149) :
    F32.ofMagnitude false r = some ⟨(r : Int)⟩ := by
  apply ofMagnitude_false
  unfold F32.one
  calc r < (M + 1) * 2 ^ 149 := h2
    _ ≤ 2 ^ 128 * 2 ^ 149 := Nat.mul_le_mul_right _ (by
        have : (2147483647 : Nat) + 1 ≤ 2 ^ 128 := by norm_num
        omega)

/-- The float tail of both conversions is exact: `(int) (y / d)` is the floor of the exact
quotient, for `y` below `2^23` and a density whose reciprocal is `a / q`. -/
theorem int_div_float_exact {d : F32} {a q : Nat}
    (hdiv : ∀ u : Nat, F32.div ⟨(u : Int)⟩ d = F32.ofMagnitude false (F32.roundUnits (a * u) q))
    (ha : 0 < a) (haq : a ≤ q) (hq : q ≤ 3) {y : Nat} (hy : y < 2 ^ 23) :
    int_div_float d (y : Int) = some ((a * y / q : Nat) : Int) := by
  have hq0 : 0 < q := lt_of_lt_of_le ha haq
  have hn : a * y < 2 ^ 23 * q := by
    calc a * y ≤ q * y := Nat.mul_le_mul_right _ haq
      _ < q * 2 ^ 23 := Nat.mul_lt_mul_of_pos_left hy hq0
      _ = 2 ^ 23 * q := by ring
  obtain ⟨h1, h2⟩ := roundUnits_floor_bounds hq0 hq hn
  have hM : a * y / q ≤ 2147483647 := by
    have : a * y / q < 2 ^ 23 := (Nat.div_lt_iff_lt_mul hq0).2 hn
    exact le_trans this.le (by norm_num)
  unfold int_div_float
  rw [ofInt_exact (lt_trans hy (by norm_num))]
  simp only [Option.bind_eq_bind, Option.some_bind, bind]
  rw [hdiv]
  have e : a * (y * 2 ^ 149) = a * y * 2 ^ 149 := by ring
  rw [e, ofMagnitude_of_lt hM h2]
  simp only [Option.some_bind, Option.bind]
  exact toInt_of_bounds hM h1 h2

/-! ## Lower bounds and the maximum scale -/

/-- Beyond the exact range the float tail is still monotone: a quotient of at least `c` is
converted to at least `c`, and the conversion is defined up to `2^31 - 128`. -/
theorem int_div_float_ge {d : F32} {a q : Nat}
    (hdiv : ∀ u : Nat, F32.div ⟨(u : Int)⟩ d = F32.ofMagnitude false (F32.roundUnits (a * u) q))
    (ha : 0 < a) (haq : a ≤ q) {y c y0 : Nat} (hy0 : y0 < 2 ^ 24) (hy0y : y0 ≤ y)
    (hc : c * q ≤ a * y0) (hy : y ≤ 2147483520) :
    ∃ t : Nat, int_div_float d (y : Int) = some (t : Int) ∧ c ≤ t ∧ t ≤ 2147483520 := by
  have hq0 : 0 < q := lt_of_lt_of_le ha haq
  have hcy0 : c ≤ y0 := by
    have : c * q ≤ y0 * q := le_trans hc (by rw [mul_comm y0 q]; exact Nat.mul_le_mul_right _ haq)
    exact Nat.le_of_mul_le_mul_right this hq0
  have hB : (2147483520 : Nat) = (2 ^ 24 - 1) * 2 ^ 7 := by norm_num
  have hm : (2 ^ 24 - 1 : Nat) < 2 ^ 24 := by norm_num
  -- conversion of `y`
  have hf1 : y0 * 2 ^ 149 ≤ F32.roundUnits (y * 2 ^ 149) 1 := by
    apply roundUnits_ge (by norm_num) hy0
    rw [mul_one]
    exact Nat.mul_le_mul_right _ hy0y
  have hf2 : F32.roundUnits (y * 2 ^ 149) 1 ≤ (2 ^ 24 - 1) * 2 ^ 156 := by
    apply roundUnits_le (by norm_num) hm
    rw [mul_one]
    calc y * 2 ^ 149 ≤ (2 ^ 24 - 1) * 2 ^ 7 * 2 ^ 149 := Nat.mul_le_mul_right _ (hB ▸ hy)
      _ = (2 ^ 24 - 1) * 2 ^ 156 := by norm_num
  generalize hf : F32.roundUnits (y * 2 ^ 149) 1 = f at hf1 hf2
  -- division by the density
  have hr1 : c * 2 ^ 149 ≤ F32.roundUnits (a * f) q := by
    apply roundUnits_ge hq0 (lt_of_le_of_lt hcy0 hy0)
    calc c * 2 ^ 149 * q = c * q * 2 ^ 149 := by ring
      _ ≤ a * y0 * 2 ^ 149 := Nat.mul_le_mul_right _ hc
      _ = a * (y0 * 2 ^ 149) := by ring
      _ ≤ a * f := Nat.mul_le_mul_left _ hf1
  have hr2 : F32.roundUnits (a * f) q ≤ (2 ^ 24 - 1) * 2 ^ 156 := by
    apply roundUnits_le hq0 hm
    calc a * f ≤ q * f := Nat.mul_le_mul_right _ haq
      _ ≤ q * ((2 ^ 24 - 1) * 2 ^ 156) := Nat.mul_le_mul_left _ hf2
      _ = (2 ^ 24 - 1) * 2 ^ 156 * q := by ring
  generalize hr : F32.roundUnits (a * f) q = r at hr1 hr2
  have hbig : (2 ^ 24 - 1) * 2 ^ 156 < 2 ^ 128 * F32.one := by
    unfold F32.one; norm_num
  refine ⟨r / 2 ^ 149, ?_, ?_, ?_⟩
  · unfold int_div_float
    rw [ofInt_natCast]
    have e1 : y * F32.one = y * 2 ^ 149 := by unfold F32.one; rfl
    rw [e1, hf, ofMagnitude_false (lt_of_le_of_lt hf2 hbig)]
    simp only [Option.bind_eq_bind, Option.some_bind, bind]
    rw [hdiv, hr, ofMagnitude_false (lt_of_le_of_lt hr2 hbig)]
    simp only [Option.some_bind, Option.bind]
    rw [toInt_natCast]
    have e2 : F32.one = 2 ^ 149 := rfl
    rw [e2]
    apply cint_natCast
    have : r / 2 ^ 149 ≤ (2 ^ 24 - 1) * 2 ^ 156 / 2 ^ 149 := Nat.div_le_div_right hr2
    have e3 : (2 ^ 24 - 1) * 2 ^ 156 / 2 ^ 149 = 2147483520 := by norm_num
    omega
  · exact (Nat.le_div_iff_mul_le (by positivity)).2 hr1
  · have : r / 2 ^ 149 ≤ (2 ^ 24 - 1) * 2 ^ 156 / 2 ^ 149 := Nat.div_le_div_right hr2
    have e3 : (2 ^ 24 - 1) * 2 ^ 156 / 2 ^ 149 = 2147483520 := by norm_num
    omega

/-- One line of `get_max_scale_percentage` is exact for sizes whose hundredfold is below
`2^21`: it yields the floor of `size * 100 / density / minimum`. -/
theorem max_scale_of_exact {scale : Scale} {a q : Nat}
    (hdiv : ∀ u : Nat, F32.div ⟨(u : Int)⟩ scale.screen_density =
      F32.ofMagnitude false (F32.roundUnits (a * u) q))
    (ha : 0 < a) (haq : a ≤ q) (hq : q ≤ 3) {x mn : Nat} (hx : x * 100 < 2 ^ 21)
    (hmn0 : 256 < mn) (hmn : mn ≤ 640) :
    max_scale_of scale (x : Int) (mn : Int) = some ((a * (x * 100) / (mn * q) : Nat) : Int) := by
  have hq0 : 0 < q := lt_of_lt_of_le ha haq
  have hn : a * (x * 100) < 2 ^ 21 * q := by
    calc a * (x * 100) ≤ q * (x * 100) := Nat.mul_le_mul_right _ haq
      _ < q * 2 ^ 21 := Nat.mul_lt_mul_of_pos_left hx hq0
      _ = 2 ^ 21 * q := by ring
  obtain ⟨h1, h2⟩ := roundUnits_floor2_bounds hq0 hq hmn0 hmn hn
  have hM : a * (x * 100) / (mn * q) ≤ 2147483647 := by
    have h3 : a * (x * 100) / (mn * q) ≤ a * (x * 100) := Nat.div_le_self _ _
    have h4 : (2 : Nat) ^ 21 * q ≤ 2 ^ 21 * 3 := Nat.mul_le_mul_left _ hq
    have h5 : (2 : Nat) ^ 21 * 3 ≤ 2147483647 := by norm_num
    omega
  -- the first quotient is a float
  have hr1le : F32.roundUnits (a * (x * 100) * 2 ^ 149) q ≤ 2 ^ 21 * 2 ^ 149 := by
    have := @roundUnits_le (a * (x * 100) * 2 ^ 149) q 1 (21 + 149) hq0 (by norm_num)
    rw [show (1 : Nat) * 2 ^ (21 + 149) = 2 ^ 21 * 2 ^ 149 by norm_num] at this
    apply this
    calc a * (x * 100) * 2 ^ 149 ≤ 2 ^ 21 * q * 2 ^ 149 := Nat.mul_le_mul_right _ hn.le
      _ = 2 ^ 21 * 2 ^ 149 * q := by ring
  have hbig : (2 : Nat) ^ 21 * 2 ^ 149 < 2 ^ 128 * F32.one := by
    unfold F32.one; norm_num
  unfold max_scale_of imul
  have e0 : ((x : Int) * 100) = ((x * 100 : Nat) : Int) := by push_cast; ring
  rw [e0, cint_natCast (by omega)]
  simp only [Option.bind_eq_bind, Option.some_bind, bind]
  rw [ofInt_exact (lt_trans hx (by norm_num))]
  simp only [Option.some_bind, Option.bind]
  rw [hdiv]
  have e : a * (x * 100 * 2 ^ 149) = a * (x * 100) * 2 ^ 149 := by ring
  rw [e, ofMagnitude_false (lt_of_le_of_lt hr1le hbig)]
  simp only [Option.some_bind, Option.bind]
  rw [ofInt_exact (lt_of_le_of_lt hmn (by norm_num))]
  simp only [Option.some_bind, Option.bind]
  have hd2 := div_scaled (F32.roundUnits (a * (x * 100) * 2 ^ 149) q) 1 mn (2 ^ 149)
    (by omega) (by positivity) (by unfold F32.one; ring)
  rw [one_mul] at hd2
  rw [hd2, ofMagnitude_of_lt hM h2]
  simp only [Option.some_bind, Option.bind]
  exact toInt_of_bounds hM h1 h2

/-! ## The conversions of `screen.c` on natural numbers -/

theorem SDL_min_eq_min (a b : Int) : SDL_min a b = min a b := by
  unfold SDL_min
  split_ifs with h
  · exact (min_eq_left h.le).symm
  · exact (min_eq_right (not_lt.1 h)).symm

theorem scale_pixels_to_logical_eq (scale : Scale) (v : Int) :
    scale_pixels_to_logical scale v =
      (imul v 100).bind fun product => (idiv product scale.percentage).bind fun quotient =>
        int_div_float scale.screen_density quotient := rfl

theorem scale_logical_to_pixels_eq (scale : Scale) (v : Int) :
    scale_logical_to_pixels scale v =
      (imul v scale.percentage).bind fun product => (idiv product 100).bind fun quotient =>
        int_div_float scale.screen_density quotient := rfl

theorem idiv_natCast {a b : Nat} (hb : 0 < b) (ha : a ≤ 2147483647) :
    idiv (a : Int) (b : Int) = some ((a / b : Nat) : Int) := by
  unfold idiv
  have hb0 : ¬ ((b : Int) = 0) := by omega
  rw [if_neg hb0]
  have e : Int.tdiv (a : Int) (b : Int) = ((a / b : Nat) : Int) := rfl
  rw [e]
  apply cint_natCast
  exact le_trans (Nat.div_le_self _ _) ha

theorem imul_natCast {a b : Nat} (h : a * b ≤ 2147483647) :
    imul (a : Int) (b : Int) = some ((a * b : Nat) : Int) := by
  unfold imul
  have e : (a : Int) * (b : Int) = ((a * b : Nat) : Int) := by push_cast; ring
  rw [e]
  exact cint_natCast h

/-- The integer part of `scale_pixels_to_logical` on non-negative arguments. -/
theorem scale_pixels_to_logical_nat {scale : Scale} {v pct : Nat} (hpct : scale.percentage = pct)
    (hpos : 0 < pct) (hv : v * 100 ≤ 2147483647) :
    scale_pixels_to_logical scale (v : Int) =
      int_div_float scale.screen_density ((v * 100 / pct : Nat) : Int) := by
  rw [scale_pixels_to_logical_eq, hpct]
  have h1 := @imul_natCast v 100 hv
  simp only [Nat.cast_ofNat] at h1
  rw [h1, Option.some_bind, idiv_natCast hpos hv, Option.some_bind]

/-- The integer part of `scale_logical_to_pixels` on non-negative arguments. -/
theorem scale_logical_to_pixels_nat {scale : Scale} {v pct : Nat} (hpct : scale.percentage = pct)
    (hv : v * pct ≤ 2147483647) :
    scale_logical_to_pixels scale (v : Int) =
      int_div_float scale.screen_density ((v * pct / 100 : Nat) : Int) := by
  rw [scale_logical_to_pixels_eq, hpct, imul_natCast hv, Option.some_bind]
  have h1 := @idiv_natCast (v * pct) 100 (by norm_num) hv
  simp only [Nat.cast_ofNat] at h1
  rw [h1, Option.some_bind]

theorem max_scale_of_density {s1 s2 : Scale} (h : s1.screen_density = s2.screen_density)
    (x mn : Int) : max_scale_of s1 x mn = max_scale_of s2 x mn := by
  unfold max_scale_of
  rw [h]

theorem get_max_scale_percentage_density {s1 s2 : Scale}
    (h : s1.screen_density = s2.screen_density) (w h' : Int) :
    get_max_scale_percentage s1 w h' = get_max_scale_percentage s2 w h' := by
  unfold get_max_scale_percentage
  rw [max_scale_of_density h, max_scale_of_density h]

/-- `apply_max_scale` sets the effective percentage to the smaller of the request and the
maximum, and touches nothing else. -/
theorem apply_max_scale_eq (scale : Scale) (w h : Int) :
    apply_max_scale scale w h =
      (get_max_scale_percentage scale w h).map fun m =>
        { scale with percentage := min scale.requested_percentage m } := by
  unfold apply_max_scale
  have hd := @get_max_scale_percentage_density
    { scale with percentage := scale.requested_percentage } scale rfl w h
  simp only [hd]
  cases hm : get_max_scale_percentage scale w h with
  | none => rfl
  | some m =>
    simp only [Option.bind_eq_bind, Option.some_bind, bind, Option.map_some', pure]
    by_cases hlt : scale.requested_percentage > m
    · rw [if_pos hlt, min_eq_right (le_of_lt hlt)]
    · rw [if_neg hlt, min_eq_left (not_lt.1 hlt)]

theorem apply_max_scale_idem {scale sc : Scale} {w h : Int}
    (h1 : apply_max_scale scale w h = some sc) : apply_max_scale sc w h = some sc := by
  rw [apply_max_scale_eq] at h1 ⊢
  cases hm : get_max_scale_percentage scale w h with
  | none => rw [hm] at h1; simp at h1
  | some m =>
    rw [hm] at h1
    simp only [Option.map_some', Option.some.injEq] at h1
    subst h1
    have hd := @get_max_scale_percentage_density
      { scale with percentage := min scale.requested_percentage m } scale rfl w h
    rw [hd, hm]
    rfl

/-! ## Values that are not positive -/

theorem roundUnits_zero (Q : Nat) : F32.roundUnits 0 Q = 0 := by
  unfold F32.roundUnits roundHalfEven
  simp

theorem ofMagnitude_units_nonpos {neg : Bool} {mag : Nat} {f : F32}
    (h : F32.ofMagnitude neg mag = some f) (hneg : neg = true ∨ mag = 0) : f.units ≤ 0 := by
  unfold F32.ofMagnitude at h
  by_cases hm : mag < 2 ^ 128 * F32.one
  · rw [if_pos hm] at h
    simp only [Option.some.injEq] at h
    subst h
    rcases hneg with h1 | h1
    · subst h1; simp
    · subst h1; simp
  · rw [if_neg hm] at h
    simp at h

theorem ofInt_units_nonpos {x : Int} {f : F32} (hx : x ≤ 0) (h : F32.ofInt x = some f) :
    f.units ≤ 0 := by
  unfold F32.ofInt at h
  apply ofMagnitude_units_nonpos h
  rcases lt_or_eq_of_le hx with h1 | h1
  · left; simpa using h1
  · right; subst h1; simp [roundUnits_zero]

theorem div_units_nonpos {a b r : F32} (ha : a.units ≤ 0) (hb : 0 < b.units)
    (h : F32.div a b = some r) : r.units ≤ 0 := by
  unfold F32.div at h
  rw [if_neg (by omega)] at h
  apply ofMagnitude_units_nonpos h
  rcases lt_or_eq_of_le ha with h1 | h1
  · left
    have : ¬ (b.units < 0) := by omega
    simp [h1, this]
  · right
    rw [h1]
    simp [roundUnits_zero]

theorem toInt_nonpos {f : F32} {t : Int} (hf : f.units ≤ 0) (h : F32.toInt f = some t) :
    t ≤ 0 := by
  unfold F32.toInt cint at h
  split_ifs at h
  simp only [Option.some.injEq] at h
  subst h
  obtain ⟨v, hv⟩ : ∃ v : Int, f.units = -v := ⟨-f.units, by ring⟩
  rw [hv, Int.neg_tdiv]
  have : 0 ≤ v.tdiv (F32.one : Int) := Int.tdiv_nonneg (by omega) (by positivity)
  omega

theorem representative_units_pos {d : F32} (hd : representative_density d) : 0 < d.units := by
  rcases hd with rfl | rfl | rfl | rfl <;>
    simp only [density_1_0, density_1_5, density_2_0, density_3_0, F32.dyadic] <;> positivity

/-- A size that is not positive has no positive maximum scale. -/
theorem max_scale_of_nonpos {scale : Scale} (hd : 0 < scale.screen_density.units) {x : Int}
    {mn : Nat} (hx : x ≤ 0) (hmn0 : 0 < mn) (hmn : mn < 2 ^ 24) {t : Int}
    (h : max_scale_of scale x (mn : Int) = some t) : t ≤ 0 := by
  unfold max_scale_of at h
  simp only [Option.bind_eq_bind, bind, Option.bind_eq_some] at h
  obtain ⟨p, hp, f, hf, r, hr, m, hm, r2, hr2, ht⟩ := h
  have hp0 : p ≤ 0 := by
    unfold imul cint at hp
    split_ifs at hp
    simp only [Option.some.injEq] at hp
    omega
  have hf0 := ofInt_units_nonpos hp0 hf
  have hr0 := div_units_nonpos hf0 hd hr
  rw [ofInt_exact hmn] at hm
  simp only [Option.some.injEq] at hm
  subst hm
  have hr20 := div_units_nonpos hr0 (by simp only; positivity) hr2
  exact toInt_nonpos hr20 ht

theorem max_scale_of_imul {scale : Scale} {x mn t : Int} (h : max_scale_of scale x mn = some t) :
    x * 100 ≤ 2147483647 := by
  unfold max_scale_of at h
  simp only [Option.bind_eq_bind, bind, Option.bind_eq_some] at h
  obtain ⟨p, hp, -⟩ := h
  unfold imul cint INT_MAX at hp
  split_ifs at hp with hc
  exact hc.2

/-- Whatever the float tail returns is at least `c` when the exact quotient is. -/
theorem int_div_float_lower {d : F32} {a q : Nat}
    (hdiv : ∀ u : Nat, F32.div ⟨(u : Int)⟩ d = F32.ofMagnitude false (F32.roundUnits (a * u) q))
    (ha : 0 < a) (haq : a ≤ q) {y c y0 : Nat} (hy0 : y0 < 2 ^ 24) (hy0y : y0 ≤ y)
    (hc : c * q ≤ a * y0) {t : Int} (h : int_div_float d (y : Int) = some t) : (c : Int) ≤ t := by
  have hq0 : 0 < q := lt_of_lt_of_le ha haq
  have hcy0 : c ≤ y0 := by
    have : c * q ≤ y0 * q := le_trans hc (by rw [mul_comm y0 q]; exact Nat.mul_le_mul_right _ haq)
    exact Nat.le_of_mul_le_mul_right this hq0
  have hf1 : y0 * 2 ^ 149 ≤ F32.roundUnits (y * 2 ^ 149) 1 := by
    apply roundUnits_ge (by norm_num) hy0
    rw [mul_one]
    exact Nat.mul_le_mul_right _ hy0y
  generalize hf : F32.roundUnits (y * 2 ^ 149) 1 = f at hf1
  have hr1 : c * 2 ^ 149 ≤ F32.roundUnits (a * f) q := by
    apply roundUnits_ge hq0 (lt_of_le_of_lt hcy0 hy0)
    calc c * 2 ^ 149 * q = c * q * 2 ^ 149 := by ring
      _ ≤ a * y0 * 2 ^ 149 := Nat.mul_le_mul_right _ hc
      _ = a * (y0 * 2 ^ 149) := by ring
      _ ≤ a * f := Nat.mul_le_mul_left _ hf1
  generalize hr : F32.roundUnits (a * f) q = r at hr1
  unfold int_div_float at h
  rw [ofInt_natCast] at h
  have e1 : y * F32.one = y * 2 ^ 149 := by unfold F32.one; rfl
  rw [e1, hf] at h
  unfold F32.ofMagnitude at h
  by_cases hb1 : f < 2 ^ 128 * F32.one
  · rw [if_pos hb1] at h
    simp only [Option.bind_eq_bind, Option.some_bind, bind, Bool.false_eq_true, if_false] at h
    rw [hdiv, hr] at h
    unfold F32.ofMagnitude at h
    by_cases hb2 : r < 2 ^ 128 * F32.one
    · rw [if_pos hb2] at h
      simp only [Option.some_bind, Option.bind, Bool.false_eq_true, if_false] at h
      rw [toInt_natCast] at h
      unfold cint at h
      split_ifs at h
      simp only [Option.some.injEq] at h
      subst h
      have : c ≤ r / F32.one := by
        unfold F32.one
        exact (Nat.le_div_iff_mul_le (by positivity)).2 hr1
      exact_mod_cast this
    · rw [if_neg hb2] at h
      simp at h
  · rw [if_neg hb1] at h
    simp at h

/-! ## The minimum logical resolution -/

theorem apply_max_scale_some {scale sc : Scale} {w h : Int}
    (h1 : apply_max_scale scale w h = some sc) :
    ∃ mw mh : Int, max_scale_of scale w MINIMUM_WIDTH = some mw ∧
      max_scale_of scale h MINIMUM_HEIGHT = some mh ∧
      sc = { scale with percentage := min scale.requested_percentage (min mw mh) } := by
  rw [apply_max_scale_eq] at h1
  unfold get_max_scale_percentage at h1
  cases hw : max_scale_of scale w MINIMUM_WIDTH with
  | none => rw [hw] at h1; simp at h1
  | some mw =>
    cases hh : max_scale_of scale h MINIMUM_HEIGHT with
    | none => rw [hw, hh] at h1; simp at h1
    | some mh =>
      rw [hw, hh] at h1
      simp only [Option.bind_eq_bind, Option.some_bind, bind, pure, Option.map_some',
        Option.some.injEq, SDL_min_eq_min] at h1
      exact ⟨mw, mh, rfl, rfl, h1.symm⟩

/-- One dimension of the logical size: when the effective percentage is positive and within
the maximum computed for this dimension, the logical dimension is at least the minimum. -/
theorem logical_dimension_lower {scale sc : Scale} {a q : Nat}
    (hdiv : ∀ u : Nat, F32.div ⟨(u : Int)⟩ scale.screen_density =
      F32.ofMagnitude false (F32.roundUnits (a * u) q))
    (hunits : 0 < scale.screen_density.units)
    (ha : 0 < a) (ha2 : a ≤ 2) (haq : a ≤ q) (hq : q ≤ 3)
    (hdens : sc.screen_density = scale.screen_density)
    {x mx : Int} {mn : Nat} (hmn0 : 256 < mn) (hmn : mn ≤ 640) (heven : mn % 2 = 0)
    (hmx : max_scale_of scale x (mn : Int) = some mx)
    (hpos : 0 < sc.percentage) (hle : sc.percentage ≤ mx) (h500 : sc.percentage ≤ 500) :
    (∀ t, scale_pixels_to_logical sc x = some t → (mn : Int) ≤ t) ∧
      (x * 100 ≤ 2147483520 → ∃ t, scale_pixels_to_logical sc x = some t) := by
  have hq0 : 0 < q := lt_of_lt_of_le ha haq
  have hxpos : 0 < x := by
    by_contra hx
    have := max_scale_of_nonpos hunits (not_lt.1 hx) (by omega) (by
      exact lt_of_le_of_lt hmn (by norm_num)) hmx
    omega
  have himul := max_scale_of_imul hmx
  obtain ⟨n, rfl⟩ := Int.eq_ofNat_of_zero_le hxpos.le
  obtain ⟨k, hk⟩ := Int.eq_ofNat_of_zero_le hpos.le
  have hk0 : 0 < k := by omega
  have hk500 : k ≤ 500 := by omega
  have hn : n * 100 ≤ 2147483647 := by omega
  -- the smallest integer quotient that still reaches the minimum
  obtain ⟨y0, hy0⟩ : ∃ y0, a * y0 = mn * q := by
    rcases Nat.lt_or_ge a 2 with h1 | h1
    · exact ⟨mn * q, by have : a = 1 := by omega
                        rw [this, one_mul]⟩
    · have h2 : a = 2 := by omega
      refine ⟨mn / 2 * q, ?_⟩
      have : 2 * (mn / 2) = mn := by omega
      rw [h2, ← mul_assoc, this]
  have hy0le : y0 ≤ 1920 := by
    have h1 : a * y0 ≤ 640 * 3 := by rw [hy0]; exact Nat.mul_le_mul hmn hq
    have h2 : y0 ≤ a * y0 := Nat.le_mul_of_pos_left _ ha
    omega
  have hky : k * y0 ≤ n * 100 := by
    rcases Nat.lt_or_ge (n * 100) (2 ^ 21) with hsmall | hbig
    · rw [max_scale_of_exact hdiv ha haq hq hsmall hmn0 hmn] at hmx
      simp only [Option.some.injEq] at hmx
      have h1 : k ≤ a * (n * 100) / (mn * q) := by
        have : (k : Int) ≤ ((a * (n * 100) / (mn * q) : Nat) : Int) := by rw [hmx, ← hk]; exact hle
        exact_mod_cast this
      have h2 : k * (mn * q) ≤ a * (n * 100) :=
        (Nat.le_div_iff_mul_le (Nat.mul_pos (by omega) hq0)).1 h1
      rw [← hy0] at h2
      have h3 : a * (k * y0) ≤ a * (n * 100) := by
        calc a * (k * y0) = k * (a * y0) := by ring
          _ ≤ a * (n * 100) := h2
      exact Nat.le_of_mul_le_mul_left h3 ha
    · have h1 : k * y0 ≤ 500 * 1920 := Nat.mul_le_mul hk500 hy0le
      have h2 : (500 : Nat) * 1920 ≤ 2 ^ 21 := by norm_num
      omega
  have hy : y0 ≤ n * 100 / k := (Nat.le_div_iff_mul_le hk0).2 (by rw [mul_comm]; exact hky)
  have hp2l := @scale_pixels_to_logical_nat sc n k hk hk0 hn
  rw [hdens] at hp2l
  have hc : mn * q ≤ a * y0 := by rw [hy0]
  constructor
  · intro t ht
    rw [hp2l] at ht
    exact int_div_float_lower hdiv ha haq (lt_of_le_of_lt hy0le (by norm_num)) hy hc ht
  · intro hb
    have hyb : n * 100 / k ≤ 2147483520 := le_trans (Nat.div_le_self _ _) (by omega)
    obtain ⟨t, ht, -, -⟩ :=
      int_div_float_ge hdiv ha haq (lt_of_le_of_lt hy0le (by norm_num)) hy hc hyb
    exact ⟨t, by rw [hp2l, ht]⟩

/-- C3. For every representative density, every requested percentage in [50, 500] and every
pixel size for which `apply_max_scale` yields a positive effective percentage, the logical
size computed by `platform_screen_resize` is at least 640 x 480: whatever size the first lines
of the function return satisfies the bound, and they do return a size for every pixel size up
to 21474835 (where `size * 100` is still converted to `float` without leaving the `int`
range). -/
theorem resize_keeps_minimum_resolution (s : State) (w h : Int) (sc : Scale)
    (hd : representative_density s.scale.screen_density)
    (hr : 50 ≤ s.scale.requested_percentage ∧ s.scale.requested_percentage ≤ 500)
    (hsc : apply_max_scale s.scale w h = some sc) (hpos : 0 < sc.percentage) :
    (∀ size, resize_logical_size s.scale w h = some size →
        size.1 = sc ∧ 640 ≤ size.2.1 ∧ 480 ≤ size.2.2) ∧
      (w * 100 ≤ 2147483520 → h * 100 ≤ 2147483520 →
        ∃ lw lh, resize_logical_size s.scale w h = some (sc, lw, lh) ∧
          platform_screen_resize s w h =
            some (resize_presentation_texture { s with scale := sc } lw lh)) := by
  obtain ⟨a, q, ha, haq, hq, ha2, -, -, hdiv⟩ := div_representative hd
  have hunits := representative_units_pos hd
  obtain ⟨mw, mh, hmw, hmh, hsceq⟩ := apply_max_scale_some hsc
  have hdens : sc.screen_density = s.scale.screen_density := by rw [hsceq]
  have hpct : sc.percentage = min s.scale.requested_percentage (min mw mh) := by rw [hsceq]
  have h500 : sc.percentage ≤ 500 := by
    rw [hpct]; exact le_trans (min_le_left _ _) hr.2
  have hlew : sc.percentage ≤ mw := by
    rw [hpct]; exact le_trans (min_le_right _ _) (min_le_left _ _)
  have hleh : sc.percentage ≤ mh := by
    rw [hpct]; exact le_trans (min_le_right _ _) (min_le_right _ _)
  have e640 : MINIMUM_WIDTH = ((640 : Nat) : Int) := rfl
  have e480 : MINIMUM_HEIGHT = ((480 : Nat) : Int) := rfl
  rw [e640] at hmw
  rw [e480] at hmh
  obtain ⟨hw1, hw2⟩ := logical_dimension_lower hdiv hunits ha ha2 haq hq hdens
    (by norm_num) (by norm_num) (by norm_num) hmw hpos hlew h500
  obtain ⟨hh1, hh2⟩ := logical_dimension_lower hdiv hunits ha ha2 haq hq hdens
    (by norm_num) (by norm_num) (by norm_num) hmh hpos hleh h500
  constructor
  · intro size hsize
    unfold resize_logical_size at hsize
    rw [hsc] at hsize
    simp only [Option.bind_eq_bind, Option.some_bind, bind, Option.bind_eq_some, pure,
      Option.some.injEq] at hsize
    obtain ⟨lw, hlw, lh, hlh, rfl⟩ := hsize
    exact ⟨rfl, by exact_mod_cast hw1 lw hlw, by exact_mod_cast hh1 lh hlh⟩
  · intro hwb hhb
    obtain ⟨lw, hlw⟩ := hw2 hwb
    obtain ⟨lh, hlh⟩ := hh2 hhb
    have hsize : resize_logical_size s.scale w h = some (sc, lw, lh) := by
      unfold resize_logical_size
      rw [hsc]
      simp only [Option.bind_eq_bind, Option.some_bind, bind, pure]
      rw [hlw, hlh]
      rfl
    refine ⟨lw, lh, hsize, ?_⟩
    unfold platform_screen_resize
    rw [hsize]
    rfl

/-! ## The scale state through `set_scale_percentage` -/

theorem calc_bound_of_mem {r : Int} (hr : 50 ≤ r ∧ r ≤ 500) : calc_bound r 50 500 = r := by
  unfold calc_bound
  rw [if_neg (by omega), if_neg (by omega)]

theorem log_scale (s : State) (a : Action) : (s.log a).scale = s.scale := rfl

theorem logSDL_scale (s : State) (c : SDLCall) : (s.logSDL c).scale = s.scale := rfl

theorem modifyWindow_scale (s : State) (f : SDLWindow → SDLWindow) :
    (s.modifyWindow f).scale = s.scale := rfl

theorem SDL_CreateTexture_scale (s : State) (w h : Int) :
    (SDL_CreateTexture s w h).scale = s.scale := by
  unfold SDL_CreateTexture
  cases s.SDL.renderer <;> rfl

theorem screen_set_resolution_scale (s : State) (w h : Int) :
    (screen_set_resolution s w h).scale = s.scale := rfl

theorem setting_set_display_scale (s : State) (f w h : Int) :
    (setting_set_display s f w h).scale = s.scale := rfl

theorem SDL_RenderSetLogicalSize_scale (s : State) (w h : Int) :
    (SDL_RenderSetLogicalSize s w h).scale = s.scale := rfl

theorem destroy_screen_texture_scale (s : State) : (destroy_screen_texture s).scale = s.scale :=
  rfl

theorem resize_presentation_texture_scale (s : State) (lw lh : Int) :
    (resize_presentation_texture s lw lh).1.scale = s.scale := by
  unfold resize_presentation_texture
  dsimp only
  split_ifs <;>
    simp only [screen_set_resolution_scale, setting_set_display_scale,
      SDL_RenderSetLogicalSize_scale, destroy_screen_texture_scale, SDL_CreateTexture_scale]

/-- With a request in range, off Vita and for a non-empty size, `set_scale_percentage`
stores the request, applies the maximum and otherwise only talks to SDL. -/
theorem set_scale_percentage_scale {p : Platform} {s s1 : State} {r w h : Int}
    (hvita : p.vita = false) (hr : 50 ≤ r ∧ r ≤ 500) (hw : w ≠ 0) (hh : h ≠ 0)
    (h1 : set_scale_percentage p s r w h = some s1) :
    apply_max_scale { s.scale with requested_percentage := r } w h = some s1.scale := by
  unfold set_scale_percentage at h1
  rw [hvita] at h1
  simp only [Bool.false_eq_true, if_false, calc_bound_of_mem hr, hw, hh, or_self,
    Option.bind_eq_bind, bind, Option.bind_eq_some, pure, Option.some.injEq] at h1
  obtain ⟨sc, hsc, a, -, b, -, rfl⟩ := h1
  rw [hsc]
  rfl

theorem set_scale_percentage_defined {p : Platform} {s : State} {r w h : Int} {sc : Scale}
    {a b : Int} (hvita : p.vita = false) (hr : 50 ≤ r ∧ r ≤ 500) (hw : w ≠ 0) (hh : h ≠ 0)
    (hsc : apply_max_scale { s.scale with requested_percentage := r } w h = some sc)
    (ha : scale_logical_to_pixels sc MINIMUM_WIDTH = some a)
    (hb : scale_logical_to_pixels sc MINIMUM_HEIGHT = some b) :
    ∃ s1, set_scale_percentage p s r w h = some s1 ∧ s1.scale = sc := by
  unfold set_scale_percentage
  rw [hvita]
  simp only [Bool.false_eq_true, if_false, calc_bound_of_mem hr, hw, hh, or_self,
    Option.bind_eq_bind, bind, pure, hsc, Option.some_bind, ha, hb]
  exact ⟨_, rfl, rfl⟩

/-- The minimum window size handed to SDL is always defined for a representative density and
an effective percentage between 1 and 500. -/
theorem minimum_size_defined {sc : Scale} (hd : representative_density sc.screen_density)
    (hpct : 1 ≤ sc.percentage ∧ sc.percentage ≤ 500) {mn : Nat} (hmn : mn ≤ 640) :
    ∃ t, scale_logical_to_pixels sc (mn : Int) = some t := by
  obtain ⟨a, q, ha, haq, hq, -, -, -, hdiv⟩ := div_representative hd
  obtain ⟨k, hk⟩ := Int.eq_ofNat_of_zero_le (show 0 ≤ sc.percentage by omega)
  have hk500 : k ≤ 500 := by omega
  have hprod : mn * k ≤ 640 * 500 := Nat.mul_le_mul hmn hk500
  rw [scale_logical_to_pixels_nat hk (by omega)]
  have hy : mn * k / 100 < 2 ^ 23 :=
    lt_of_le_of_lt (Nat.div_le_self _ _) (lt_of_le_of_lt hprod (by norm_num))
  exact ⟨_, int_div_float_exact hdiv ha haq hq hy⟩

/-- A logical dimension is defined for every non-negative pixel size up to 21474835. -/
theorem logical_dimension_defined {sc : Scale} (hd : representative_density sc.screen_density)
    (hpct : 1 ≤ sc.percentage) {x : Int} (hx0 : 0 ≤ x) (hx : x * 100 ≤ 2147483520) :
    ∃ t, scale_pixels_to_logical sc x = some t := by
  obtain ⟨a, q, ha, haq, hq, -, -, -, hdiv⟩ := div_representative hd
  obtain ⟨k, hk⟩ := Int.eq_ofNat_of_zero_le (show 0 ≤ sc.percentage by omega)
  obtain ⟨n, rfl⟩ := Int.eq_ofNat_of_zero_le hx0
  have hn : n * 100 ≤ 2147483520 := by omega
  rw [scale_pixels_to_logical_nat hk (by omega) (by omega)]
  obtain ⟨t, ht, -, -⟩ := @int_div_float_ge sc.screen_density a q hdiv ha haq (n * 100 / k) 0 0
    (by norm_num) (Nat.zero_le _) (by simp) (le_trans (Nat.div_le_self _ _) hn)
  exact ⟨t, ht⟩

theorem floor_natCast_div (n k : Nat) : ⌊((n : ℚ)) / (k : ℚ)⌋ = ((n / k : Nat) : Int) := by
  have := Rat.floor_intCast_div_natCast (n : ℤ) k
  simpa using this

theorem floor_div_ratio (y a q : Nat) (ha : 0 < a) (hq : 0 < q) :
    ⌊(((y : Int)) : ℚ) / ((q : ℚ) / (a : ℚ))⌋ = ((a * y / q : Nat) : Int) := by
  rw [← floor_natCast_div]
  congr 1
  have haq' : (a : ℚ) ≠ 0 := by exact_mod_cast ha.ne'
  have hqq : (q : ℚ) ≠ 0 := by exact_mod_cast hq.ne'
  push_cast
  field_simp
  ring

/-- The exact logical dimension for sizes below `2^22`: two truncations. -/
theorem scale_pixels_to_logical_exact {sc : Scale} {a q : Nat}
    (hdiv : ∀ u : Nat, F32.div ⟨(u : Int)⟩ sc.screen_density =
      F32.ofMagnitude false (F32.roundUnits (a * u) q))
    (ha : 0 < a) (haq : a ≤ q) (hq : q ≤ 3) {n k : Nat} (hk : sc.percentage = k)
    (hk50 : 50 ≤ k) (hn : n < 2 ^ 22) :
    scale_pixels_to_logical sc (n : Int) = some ((a * (n * 100 / k) / q : Nat) : Int) := by
  have h1 : n * 100 ≤ 2147483647 := by
    have : (2 : Nat) ^ 22 * 100 ≤ 2147483647 := by norm_num
    omega
  rw [scale_pixels_to_logical_nat hk (by omega) h1]
  apply int_div_float_exact hdiv ha haq hq
  have h2 : n * 100 / k ≤ n * 100 / 50 := Nat.div_le_div_left hk50 (by norm_num)
  have h3 : n * 100 / 50 = n * 2 := by omega
  have h4 : (2 : Nat) ^ 22 * 2 = 2 ^ 23 := by norm_num
  omega

/-- C6, amended. For every pixel dimension `p` with `0 ≤ p < 2^22`, every effective
percentage in [50, 500] and every representative density `d`, the logical dimension that
`platform_screen_resize` computes is `p * 100 / pct` truncated to an integer and then divided
by `d` and truncated again; for `d` in {1.0, 2.0, 3.0} this equals the single truncation of
`p / (pct / 100 * d)`. -/
theorem logical_dimension_truncations (sc : Scale) (p : Int)
    (hd : representative_density sc.screen_density)
    (hpct : 50 ≤ sc.percentage ∧ sc.percentage ≤ 500) (hp : 0 ≤ p ∧ p < 2 ^ 22) :
    scale_pixels_to_logical sc p =
        some ⌊((⌊((p : ℚ) * 100) / (sc.percentage : ℚ)⌋ : Int) : ℚ) / sc.screen_density.toRat⌋ ∧
      (sc.screen_density ≠ density_1_5 →
        scale_pixels_to_logical sc p =
          some ⌊(p : ℚ) / ((sc.percentage : ℚ) / 100 * sc.screen_density.toRat)⌋) := by
  obtain ⟨a, q, ha, haq, hq, -, ha1, hrat, hdiv⟩ := div_representative hd
  have hq0 : 0 < q := lt_of_lt_of_le ha haq
  obtain ⟨n, rfl⟩ := Int.eq_ofNat_of_zero_le hp.1
  obtain ⟨k, hk⟩ := Int.eq_ofNat_of_zero_le (show 0 ≤ sc.percentage by omega)
  have hk50 : 50 ≤ k := by omega
  have hn : n < 2 ^ 22 := by exact_mod_cast hp.2
  have hcode := scale_pixels_to_logical_exact hdiv ha haq hq hk hk50 hn
  have hkq : (k : ℚ) ≠ 0 := by
    have : 0 < k := by omega
    exact_mod_cast this.ne'
  have haq' : (a : ℚ) ≠ 0 := by exact_mod_cast ha.ne'
  have hqq : (q : ℚ) ≠ 0 := by exact_mod_cast hq0.ne'
  have hinner : ⌊(((n : Int) : ℚ) * 100) / (sc.percentage : ℚ)⌋ = ((n * 100 / k : Nat) : Int) := by
    rw [hk]
    have := floor_natCast_div (n * 100) k
    push_cast at this ⊢
    exact this
  constructor
  · rw [hcode, hinner, hrat, floor_div_ratio _ _ _ ha hq0]
  · intro hne
    have ha1' : a = 1 := by
      rcases ha1 with h | h
      · exact h
      · exact absurd h hne
    subst ha1'
    rw [hcode, hrat, hk]
    congr 1
    rw [one_mul, Nat.div_div_eq_div_mul]
    have := floor_natCast_div (n * 100) (k * q)
    rw [← this]
    congr 1
    push_cast
    field_simp

theorem floor_max_scale (x a q mn : Nat) (ha : 0 < a) (hq : 0 < q) (hmn : 0 < mn) :
    ⌊((x : Int) : ℚ) * 100 / ((q : ℚ) / (a : ℚ)) / ((mn : Int) : ℚ)⌋
      = ((a * (x * 100) / (mn * q) : Nat) : Int) := by
  rw [← floor_natCast_div]
  congr 1
  have haq' : (a : ℚ) ≠ 0 := by exact_mod_cast ha.ne'
  have hqq : (q : ℚ) ≠ 0 := by exact_mod_cast hq.ne'
  have hmq : (mn : ℚ) ≠ 0 := by exact_mod_cast hmn.ne'
  push_cast
  field_simp
  ring

theorem div_density_1_0 (u : Nat) :
    F32.div ⟨(u : Int)⟩ density_1_0 = F32.ofMagnitude false (F32.roundUnits (1 * u) 1) :=
  div_scaled u 1 1 (2 ^ 149) (by norm_num) (by positivity) (by norm_num [F32.one])

/-- With density 1.0 the float tail is the identity below `2^23`. -/
theorem int_div_float_one {y : Nat} (hy : y < 2 ^ 23) :
    int_div_float density_1_0 (y : Int) = some (y : Int) := by
  have := @int_div_float_exact density_1_0 1 1 div_density_1_0 (by norm_num) (by norm_num)
    (by norm_num) y hy
  simpa using this

/-- Integer arithmetic of the composed conversions: dividing by `k` and multiplying back
loses less than `k` in the numerator. -/
theorem round_trip_nat (v m k : Nat) (hm : 0 < m) (hk : 0 < k) :
    v * m / k * k / m ≤ v ∧ m * v < m * (v * m / k * k / m) + k + m := by
  have h1 := Nat.div_add_mod (v * m) k
  have h2 := Nat.mod_lt (v * m) hk
  have h3 := Nat.div_add_mod (v * m / k * k) m
  have h4 := Nat.mod_lt (v * m / k * k) hm
  have e1 : k * (v * m / k) = v * m / k * k := mul_comm _ _
  have e2 : v * m = m * v := mul_comm _ _
  constructor
  · apply Nat.div_le_of_le_mul
    rw [← e1]
    omega
  · omega



/-- C2, amended. With density 1.0, for every effective percentage `pct` in [50, 500] and
every `v` with `0 ≤ v` and `5 * v < 2^23`, both compositions of the two conversions are
defined and never exceed `v`; pixels to logical and back falls short of `v` by less than
`1 + pct/100` (so by at most 1 when `pct ≤ 100`), and logical to pixels and back falls short
by less than `1 + 100/pct` (so by at most 1 when `pct ≥ 100`). -/
theorem scale_round_trip (sc : Scale) (v : Int) (hd : sc.screen_density = density_1_0)
    (hpct : 50 ≤ sc.percentage ∧ sc.percentage ≤ 500) (hv : 0 ≤ v ∧ v * 5 < 2 ^ 23) :
    ∃ a b : Int,
      (scale_pixels_to_logical sc v).bind (scale_logical_to_pixels sc) = some a ∧
      (scale_logical_to_pixels sc v).bind (scale_pixels_to_logical sc) = some b ∧
      a ≤ v ∧ b ≤ v ∧ 100 * (v - a) < sc.percentage + 100 ∧
      sc.percentage * (v - b) < 100 + sc.percentage ∧
      (sc.percentage ≤ 100 → v - a ≤ 1) ∧ (100 ≤ sc.percentage → v - b ≤ 1) := by
  obtain ⟨n, rfl⟩ := Int.eq_ofNat_of_zero_le hv.1
  obtain ⟨k, hk⟩ := Int.eq_ofNat_of_zero_le (show 0 ≤ sc.percentage by omega)
  have hk50 : 50 ≤ k := by omega
  have hk500 : k ≤ 500 := by omega
  have hk0 : 0 < k := by omega
  have hn : n * 5 < 2 ^ 23 := by exact_mod_cast hv.2
  have h23 : (2 : Nat) ^ 23 = 8388608 := by norm_num
  rw [h23] at hn
  obtain ⟨hA1, hA2⟩ := round_trip_nat n 100 k (by norm_num) hk0
  obtain ⟨hB1, hB2⟩ := round_trip_nat n k 100 hk0 (by norm_num)
  -- the intermediate quotients
  have hL : n * 100 / k ≤ n * 2 := by
    have h2 : n * 100 / k ≤ n * 100 / 50 := Nat.div_le_div_left hk50 (by norm_num)
    omega
  have hLk : n * 100 / k * k ≤ n * 100 := Nat.div_mul_le_self _ _
  have hP : n * k / 100 ≤ n * 5 := by
    have h2 : n * k ≤ n * 500 := Nat.mul_le_mul_left _ hk500
    have h3 : n * k / 100 ≤ n * 500 / 100 := Nat.div_le_div_right h2
    omega
  have hnk : n * k ≤ n * 500 := Nat.mul_le_mul_left _ hk500
  have hP100 : n * k / 100 * 100 ≤ n * k := Nat.div_mul_le_self _ _
  -- the four conversions
  have c1 : scale_pixels_to_logical sc (n : Int) = some ((n * 100 / k : Nat) : Int) := by
    rw [scale_pixels_to_logical_nat hk hk0 (by omega), hd]
    exact int_div_float_one (by rw [h23]; omega)
  have c2 : scale_logical_to_pixels sc ((n * 100 / k : Nat) : Int)
      = some ((n * 100 / k * k / 100 : Nat) : Int) := by
    rw [scale_logical_to_pixels_nat hk (by omega), hd]
    exact int_div_float_one (by rw [h23]; omega)
  have c3 : scale_logical_to_pixels sc (n : Int) = some ((n * k / 100 : Nat) : Int) := by
    rw [scale_logical_to_pixels_nat hk (by omega), hd]
    exact int_div_float_one (by rw [h23]; omega)
  have c4 : scale_pixels_to_logical sc ((n * k / 100 : Nat) : Int)
      = some ((n * k / 100 * 100 / k : Nat) : Int) := by
    rw [scale_pixels_to_logical_nat hk hk0 (by omega), hd]
    exact int_div_float_one (by rw [h23]; omega)
  refine ⟨_, _, by rw [c1, Option.some_bind, c2], by rw [c3, Option.some_bind, c4], ?_, ?_, ?_,
    ?_, ?_, ?_⟩
  · exact_mod_cast hA1
  · exact_mod_cast hB1
  · rw [hk]
    have : (100 : Int) * (n : Int) < 100 * ((n * 100 / k * k / 100 : Nat) : Int) + k + 100 := by
      exact_mod_cast hA2
    omega
  · rw [hk]
    have : (k : Int) * (n : Int) < k * ((n * k / 100 * 100 / k : Nat) : Int) + 100 + k := by
      exact_mod_cast hB2
    have e : (k : Int) * ((n : Int) - ((n * k / 100 * 100 / k : Nat) : Int))
        = k * n - k * ((n * k / 100 * 100 / k : Nat) : Int) := by ring
    rw [e]
    omega
  · intro h100
    rw [hk] at h100
    have : k ≤ 100 := by exact_mod_cast h100
    have h5 : n ≤ n * 100 / k * k / 100 + 1 := by omega
    have : (n : Int) ≤ ((n * 100 / k * k / 100 : Nat) : Int) + 1 := by exact_mod_cast h5
    omega
  · intro h100
    rw [hk] at h100
    have hk100 : 100 ≤ k := by exact_mod_cast h100
    have h5 : n ≤ n * k / 100 * 100 / k + 1 := by
      by_contra hc
      push_neg at hc
      have h6 : n * k / 100 * 100 / k + 2 ≤ n := by omega
      have h7 : k * (n * k / 100 * 100 / k + 2) ≤ k * n := Nat.mul_le_mul_left _ h6
      have e : k * (n * k / 100 * 100 / k + 2) = k * (n * k / 100 * 100 / k) + 2 * k := by ring
      omega
    have : (n : Int) ≤ ((n * k / 100 * 100 / k : Nat) : Int) + 1 := by exact_mod_cast h5
    omega

theorem resize_logical_size_idem {scale sc : Scale} {w h lw lh : Int}
    (h1 : resize_logical_size scale w h = some (sc, lw, lh)) :
    resize_logical_size sc w h = some (sc, lw, lh) := by
  unfold resize_logical_size at h1 ⊢
  simp only [Option.bind_eq_bind, bind, Option.bind_eq_some, pure, Option.some.injEq,
    Prod.mk.injEq] at h1
  obtain ⟨sc1, hsc1, a, ha, b, hb, rfl, rfl, rfl⟩ := h1
  rw [apply_max_scale_idem hsc1]
  simp only [Option.bind_eq_bind, Option.some_bind, bind, ha, hb, pure]

theorem SDL_CreateTexture_screen (s : State) (w h : Int) :
    (SDL_CreateTexture s w h).screen_width = s.screen_width ∧
      (SDL_CreateTexture s w h).screen_height = s.screen_height := by
  unfold SDL_CreateTexture
  cases s.SDL.renderer <;> exact ⟨rfl, rfl⟩

/-- When the texture part of `platform_screen_resize` reports success, a presentation texture
exists and the logical screen resolution is the requested logical size. -/
theorem resize_presentation_texture_success {s s1 : State} {lw lh : Int}
    (h : resize_presentation_texture s lw lh = (s1, 1)) :
    s1.SDL.texture.isSome = true ∧ s1.screen_width = lw ∧ s1.screen_height = lh ∧
      s1.scale = s.scale := by
  have hscale := resize_presentation_texture_scale s lw lh
  rw [h] at hscale
  refine ⟨?_, ?_, ?_, hscale⟩ <;>
  · unfold resize_presentation_texture at h
    dsimp only at h
    split_ifs at h with h1 h2 h3 h3
    · simp only [Prod.mk.injEq, and_true] at h
      subst h
      first | exact h1.1 | exact h1.2.1.symm | exact h1.2.2.symm
    · simp only [Prod.mk.injEq, and_true] at h
      subst h
      first | exact h3 | rfl
    · simp at h
    · simp only [Prod.mk.injEq, and_true] at h
      subst h
      first | exact h3 | rfl
    · simp at h

/-- C4. If `platform_screen_resize(w, h)` returns success, an immediately following call with
the same arguments returns success and leaves the whole state as it is: the trace gains no
call (no texture is destroyed or created, the renderer and the settings are not touched), and
the logical screen resolution and the effective scale percentage keep their values. -/
theorem resize_twice_is_noop (s s1 : State) (w h : Int)
    (hfirst : platform_screen_resize s w h = some (s1, 1)) :
    platform_screen_resize s1 w h = some (s1, 1) := by
  unfold platform_screen_resize at hfirst
  simp only [Option.bind_eq_bind, bind, Option.bind_eq_some, pure, Option.some.injEq] at hfirst
  obtain ⟨⟨sc, lw, lh⟩, hsize, htex⟩ := hfirst
  obtain ⟨ht, hw, hh, hsc⟩ := resize_presentation_texture_success htex
  simp only at hsc ht hw hh
  have hsize2 : resize_logical_size s1.scale w h = some (sc, lw, lh) := by
    rw [hsc]; exact resize_logical_size_idem hsize
  unfold platform_screen_resize
  rw [hsize2]
  simp only [Option.bind_eq_bind, Option.some_bind, bind, pure, Option.some.injEq]
  have hs1 : ({ s1 with scale := sc } : State) = s1 := by rw [← hsc]
  rw [hs1]
  unfold resize_presentation_texture
  rw [if_pos ⟨ht, hw.symm, hh.symm⟩]

/-- C9. On a fullscreen-only platform `platform_screen_set_windowed()` and
`platform_screen_set_window_size(w, h)` return without changing anything: the state after the
call, with the window, the tracked window position, the scale state, the settings and the
trace of calls, is the state before. -/
theorem fullscreen_only_mode_calls_are_noops (p : Platform) (s : State) (w h : Int)
    (hp : system_is_fullscreen_only p = true) :
    platform_screen_set_windowed p s = some s ∧
      platform_screen_set_window_size p s w h = some s := by
  unfold platform_screen_set_windowed platform_screen_set_window_size
  rw [hp]
  exact ⟨rfl, rfl⟩

/-- C10, amended. `system_can_scale_display` returns false on every fullscreen-only platform
other than Android (Switch, Vita), whatever the state; on a platform that is not
fullscreen-only it returns true with `min = 50` and `max = get_max_scale_percentage` of the
window size; on Android it returns false exactly when that maximum is below 100 for the
window size and for the window size with width and height exchanged, and true with the same
`min` and `max` otherwise. -/
theorem scaling_permission_by_platform (p : Platform) (s : State) :
    (p.android = false → system_is_fullscreen_only p = true →
        system_can_scale_display p s true true = some (0, none, none)) ∧
      (∀ win, s.SDL.window = some win →
        (system_is_fullscreen_only p = false →
          system_can_scale_display p s true true =
            (get_max_scale_percentage s.scale win.w win.h).map fun m => (1, some 50, some m)) ∧
        (p.android = true → ∀ m1 m2,
          get_max_scale_percentage s.scale win.w win.h = some m1 →
          get_max_scale_percentage s.scale win.h win.w = some m2 →
          system_can_scale_display p s true true =
            some (if m1 < 100 ∧ m2 < 100 then (0, none, none) else (1, some 50, some m1)))) := by
  refine ⟨?_, ?_⟩
  · intro ha hf
    unfold system_can_scale_display
    rw [ha, hf]
    rfl
  · intro win hwin
    constructor
    · intro hf
      have ha : p.android = false := by
        unfold system_is_fullscreen_only at hf
        simp only [Bool.or_eq_false_iff] at hf
        exact hf.1.1
      unfold system_can_scale_display SDL_GetWindowSize
      rw [ha, hf, hwin]
      cases hm : get_max_scale_percentage s.scale win.w win.h <;>
        simp [hm]
    · intro ha m1 m2 h1 h2
      unfold system_can_scale_display SDL_GetWindowSize
      rw [ha, hwin]
      by_cases hlt : m1 < 100 ∧ m2 < 100
      · simp [h1, h2, hlt]
      · simp [h1, h2, hlt]

/-! ## Traces -/

theorem appends_no_refl (P : Action → Bool) (s : State) : appends_no P s s :=
  ⟨[], by simp, by simp⟩

theorem appends_no_trans {P : Action → Bool} {s1 s2 s3 : State} (h1 : appends_no P s1 s2)
    (h2 : appends_no P s2 s3) : appends_no P s1 s3 := by
  obtain ⟨a1, e1, p1⟩ := h1
  obtain ⟨a2, e2, p2⟩ := h2
  refine ⟨a1 ++ a2, by rw [e2, e1, List.append_assoc], ?_⟩
  intro a ha
  rcases List.mem_append.1 ha with h | h
  · exact p1 a h
  · exact p2 a h

theorem appends_no_of_trace_eq {P : Action → Bool} {s s' : State} (h : s'.trace = s.trace) :
    appends_no P s s' :=
  ⟨[], by simp [h], by simp⟩

theorem appends_no_log {P : Action → Bool} (s : State) {a : Action} (h : P a = false) :
    appends_no P s (s.log a) :=
  ⟨[a], rfl, by simpa using h⟩

theorem appends_no_logSDL {P : Action → Bool} (s : State) {c : SDLCall}
    (h : P (Action.sdl c) = false) : appends_no P s (s.logSDL c) :=
  appends_no_log s h

theorem appends_no_mono {P Q : Action → Bool} {s s' : State}
    (hPQ : ∀ a, Q a = false → P a = false) (h : appends_no Q s s') : appends_no P s s' := by
  obtain ⟨added, e, hq⟩ := h
  exact ⟨added, e, fun a ha => hPQ a (hq a ha)⟩

theorem is_frame_step_of_is_step (a : Action) (h : a.is_step = false) :
    a.is_frame_step = false := by
  unfold Action.is_step at h
  simp only [Bool.or_eq_false_iff] at h
  exact h.1

theorem is_loop_step_of_is_step (a : Action) (h : a.is_step = false) :
    a.is_loop_step = false := by
  unfold Action.is_step at h
  simp only [Bool.or_eq_false_iff] at h
  exact h.2

/-- The calls appended between two states leave the list of loop steps as it was. -/
theorem filter_of_appends_no {P : Action → Bool} {s s' : State} (h : appends_no P s s') :
    s'.trace.filter P = s.trace.filter P := by
  obtain ⟨added, e, hq⟩ := h
  rw [e, List.filter_append]
  have : added.filter P = [] := by
    rw [List.filter_eq_nil_iff]
    intro a ha
    simp [hq a ha]
  rw [this, List.append_nil]

/-! ### The functions of `screen.c` append no step -/

theorem quiet_setting_set_display (s : State) (f w h : Int) :
    appends_no Action.is_step s (setting_set_display s f w h) :=
  ⟨[_], rfl, by simp [Action.is_step, Action.is_frame_step, Action.is_loop_step]⟩

theorem quiet_screen_set_resolution (s : State) (w h : Int) :
    appends_no Action.is_step s (screen_set_resolution s w h) :=
  ⟨[_], rfl, by simp [Action.is_step, Action.is_frame_step, Action.is_loop_step]⟩

theorem quiet_SDL_SetWindowGrab (s : State) (g : Bool) :
    appends_no Action.is_step s (SDL_SetWindowGrab s g) :=
  ⟨[_], rfl, by simp [Action.is_step, Action.is_frame_step, Action.is_loop_step]⟩

theorem quiet_SDL_SetWindowFullscreen (s : State) (f : Bool) :
    appends_no Action.is_step s (SDL_SetWindowFullscreen s f).2 := by
  unfold SDL_SetWindowFullscreen
  cases hw : s.SDL.window with
  | none => exact ⟨[_], rfl, by simp [Action.is_step, Action.is_frame_step, Action.is_loop_step]⟩
  | some win =>
    refine ⟨[Action.sdl (SDLCall.SDL_SetWindowFullscreen f (s.env.answers s.asked))], ?_,
      by simp [Action.is_step, Action.is_frame_step, Action.is_loop_step]⟩
    simp only [State.ask, State.logSDL, State.log, State.modifyWindow]
    split_ifs <;> rfl

theorem quiet_SDL_SetWindowSize (s : State) (w h : Int) :
    appends_no Action.is_step s (SDL_SetWindowSize s w h) :=
  ⟨[_], rfl, by simp [Action.is_step, Action.is_frame_step, Action.is_loop_step]⟩

theorem quiet_SDL_RenderSetLogicalSize (s : State) (w h : Int) :
    appends_no Action.is_step s (SDL_RenderSetLogicalSize s w h) :=
  ⟨[_], rfl, by simp [Action.is_step, Action.is_frame_step, Action.is_loop_step]⟩

theorem quiet_SDL_CreateTexture (s : State) (w h : Int) :
    appends_no Action.is_step s (SDL_CreateTexture s w h) := by
  unfold SDL_CreateTexture
  cases s.SDL.renderer with
  | none => exact ⟨[_], rfl, by simp [Action.is_step, Action.is_frame_step, Action.is_loop_step]⟩
  | some r => exact ⟨[_], rfl, by simp [Action.is_step, Action.is_frame_step, Action.is_loop_step]⟩

theorem quiet_SDL_CreateRenderer (s : State) (b : Bool) :
    appends_no Action.is_step s (SDL_CreateRenderer s b) :=
  ⟨[_], rfl, by simp [Action.is_step, Action.is_frame_step, Action.is_loop_step]⟩

theorem quiet_SDL_CreateWindow (s : State) (d w h : Int) (f : Bool) :
    appends_no Action.is_step s (SDL_CreateWindow s d w h f) :=
  ⟨[_], rfl, by simp [Action.is_step, Action.is_frame_step, Action.is_loop_step]⟩

theorem quiet_destroy_screen_texture (s : State) :
    appends_no Action.is_step s (destroy_screen_texture s) :=
  ⟨[_], rfl, by simp [Action.is_step, Action.is_frame_step, Action.is_loop_step]⟩

theorem quiet_ite {P : Action → Bool} {c : Prop} [Decidable c] {s a b : State}
    (ha : appends_no P s a) (hb : appends_no P s b) : appends_no P s (if c then a else b) := by
  split_ifs
  · exact ha
  · exact hb

theorem quiet_platform_screen_destroy (s : State) :
    appends_no Action.is_step s (platform_screen_destroy s) := by
  unfold platform_screen_destroy
  have h1 : appends_no Action.is_step s
      (if s.SDL.texture.isSome then destroy_screen_texture s else s) :=
    quiet_ite (quiet_destroy_screen_texture s) (appends_no_refl _ s)
  generalize (if s.SDL.texture.isSome then destroy_screen_texture s else s) = s1 at h1
  have h2 : appends_no Action.is_step s1
      (if s1.SDL.renderer.isSome then
        ({ s1 with SDL := { s1.SDL with renderer := none } }).logSDL SDLCall.SDL_DestroyRenderer
      else s1) :=
    quiet_ite ⟨[_], rfl, by simp [Action.is_step, Action.is_frame_step, Action.is_loop_step]⟩
      (appends_no_refl _ s1)
  dsimp only
  generalize (if s1.SDL.renderer.isSome then
        ({ s1 with SDL := { s1.SDL with renderer := none } }).logSDL SDLCall.SDL_DestroyRenderer
      else s1) = s2 at h2
  exact appends_no_trans h1 (appends_no_trans h2
    (quiet_ite ⟨[_], rfl, by simp [Action.is_step, Action.is_frame_step, Action.is_loop_step]⟩
      (appends_no_refl _ s2)))

theorem quiet_resize_presentation_texture (s : State) (lw lh : Int) :
    appends_no Action.is_step s (resize_presentation_texture s lw lh).1 := by
  unfold resize_presentation_texture
  by_cases h1 : s.SDL.texture.isSome ∧ lw = s.screen_width ∧ lh = s.screen_height
  · rw [if_pos h1]
    exact appends_no_refl _ s
  · rw [if_neg h1]
    dsimp only
    have hA : appends_no Action.is_step s
        (if s.SDL.texture.isSome then destroy_screen_texture s else s) :=
      quiet_ite (quiet_destroy_screen_texture s) (appends_no_refl _ s)
    generalize (if s.SDL.texture.isSome then destroy_screen_texture s else s) = s2 at hA
    have hB := quiet_SDL_RenderSetLogicalSize s2 lw lh
    generalize SDL_RenderSetLogicalSize s2 lw lh = s3 at hB
    have hC := quiet_setting_set_display s3 (setting_fullscreen s3) lw lh
    generalize setting_set_display s3 (setting_fullscreen s3) lw lh = s4 at hC
    have hD := quiet_SDL_CreateTexture s4 lw lh
    generalize SDL_CreateTexture s4 lw lh = s5 at hD
    have h5 := appends_no_trans hA (appends_no_trans hB (appends_no_trans hC hD))
    by_cases h2 : s5.SDL.texture.isSome
    · rw [if_pos h2]
      exact appends_no_trans h5 (quiet_screen_set_resolution s5 lw lh)
    · rw [if_neg h2]
      exact h5

theorem quiet_platform_screen_resize {s s' : State} {w h ret : Int}
    (h1 : platform_screen_resize s w h = some (s', ret)) : appends_no Action.is_step s s' := by
  unfold platform_screen_resize at h1
  simp only [Option.bind_eq_bind, bind, Option.bind_eq_some, pure, Option.some.injEq] at h1
  obtain ⟨size, -, h2⟩ := h1
  have := quiet_resize_presentation_texture { s with scale := size.1 } size.2.1 size.2.2
  rw [h2] at this
  exact appends_no_trans (appends_no_of_trace_eq rfl) this

theorem quiet_platform_screen_center_window (s : State) :
    appends_no Action.is_step s (platform_screen_center_window s) :=
  ⟨[_], rfl, by simp [Action.is_step, Action.is_frame_step, Action.is_loop_step]⟩

theorem quiet_platform_screen_move (s : State) (x y : Int) :
    appends_no Action.is_step s (platform_screen_move s x y) := by
  unfold platform_screen_move
  split_ifs
  · exact appends_no_of_trace_eq rfl
  · exact appends_no_refl _ s

theorem quiet_platform_screen_recreate_texture {s s' : State}
    (h : platform_screen_recreate_texture s = some s') : appends_no Action.is_step s s' := by
  unfold platform_screen_recreate_texture at h
  split_ifs at h
  · simp only [Option.bind_eq_bind, bind, Option.bind_eq_some, pure, Option.some.injEq] at h
    obtain ⟨w, -, hh, -, rfl⟩ := h
    exact appends_no_trans (quiet_screen_set_resolution s w hh) (quiet_SDL_CreateTexture _ _ _)
  · simp only [pure, Option.some.injEq] at h
    subst h
    exact appends_no_refl _ s

theorem quiet_SDL_GetWindowPosition (s : State) :
    appends_no Action.is_step s (SDL_GetWindowPosition s) := by
  unfold SDL_GetWindowPosition
  cases s.SDL.window with
  | none => exact appends_no_refl _ s
  | some win => exact appends_no_of_trace_eq rfl

theorem quiet_SDL_RestoreWindow (s : State) :
    appends_no Action.is_step s (SDL_RestoreWindow s) :=
  ⟨[_], rfl, by simp [Action.is_step, Action.is_frame_step, Action.is_loop_step]⟩

theorem quiet_platform_screen_set_fullscreen {s s' : State}
    (h : platform_screen_set_fullscreen s = some s') : appends_no Action.is_step s s' := by
  unfold platform_screen_set_fullscreen at h
  simp only [Option.bind_eq_bind, bind, Option.bind_eq_some] at h
  obtain ⟨win, -, h⟩ := h
  have h1 := quiet_SDL_GetWindowPosition s
  generalize SDL_GetWindowPosition s = s1 at h h1
  have h2 := quiet_SDL_SetWindowFullscreen s1 true
  rcases hfs : SDL_SetWindowFullscreen s1 true with ⟨ok, s2⟩
  rw [hfs] at h h2
  simp only at h h2
  cases ok with
  | false =>
    simp only [Bool.not_false, if_true, pure, Option.some.injEq] at h
    subst h
    exact appends_no_trans h1 h2
  | true =>
    simp only [Bool.not_true, Bool.false_eq_true, if_false, pure, Option.some.injEq] at h
    subst h
    refine appends_no_trans h1 (appends_no_trans h2 (appends_no_trans ?_
      (appends_no_trans (quiet_SDL_SetWindowGrab _ true) (quiet_setting_set_display _ _ _ _))))
    exact appends_no_logSDL _ (by simp [Action.is_step, Action.is_frame_step, Action.is_loop_step])

theorem quiet_grab_release (s : State) :
    appends_no Action.is_step s (if SDL_GetWindowGrab s then SDL_SetWindowGrab s false else s) :=
  quiet_ite (quiet_SDL_SetWindowGrab s false) (appends_no_refl _ s)

theorem quiet_center_if (s : State) :
    appends_no Action.is_step s
      (if s.window_pos.centered ≠ 0 then platform_screen_center_window s else s) :=
  quiet_ite (quiet_platform_screen_center_window s) (appends_no_refl _ s)

theorem quiet_platform_screen_set_windowed {p : Platform} {s s' : State}
    (h : platform_screen_set_windowed p s = some s') : appends_no Action.is_step s s' := by
  unfold platform_screen_set_windowed at h
  by_cases hfo : system_is_fullscreen_only p = true
  · rw [if_pos hfo] at h
    simp only [pure, Option.some.injEq] at h
    subst h
    exact appends_no_refl _ s
  · rw [if_neg hfo] at h
    simp only [Option.bind_eq_bind, bind, Option.bind_eq_some, pure, Option.some.injEq] at h
    obtain ⟨pw, -, ph, -, rfl⟩ := h
    refine appends_no_trans ?_ (quiet_setting_set_display _ _ _ _)
    refine appends_no_trans ?_ (quiet_grab_release _)
    refine appends_no_trans ?_ (quiet_center_if _)
    refine appends_no_trans ?_ (quiet_SDL_SetWindowSize _ _ _)
    exact quiet_SDL_SetWindowFullscreen s false

theorem quiet_platform_screen_set_window_size {p : Platform} {s s' : State} {w h : Int}
    (h1 : platform_screen_set_window_size p s w h = some s') : appends_no Action.is_step s s' := by
  unfold platform_screen_set_window_size at h1
  by_cases hfo : system_is_fullscreen_only p = true
  · rw [if_pos hfo] at h1
    simp only [pure, Option.some.injEq] at h1
    subst h1
    exact appends_no_refl _ s
  · rw [if_neg hfo] at h1
    simp only [Option.bind_eq_bind, bind, Option.bind_eq_some, pure, Option.some.injEq] at h1
    obtain ⟨pw, -, ph, -, rfl⟩ := h1
    refine appends_no_trans ?_ (quiet_setting_set_display _ _ _ _)
    refine appends_no_trans ?_ (quiet_grab_release _)
    refine appends_no_trans ?_ (quiet_center_if _)
    refine appends_no_trans ?_ (quiet_SDL_SetWindowSize _ _ _)
    refine appends_no_trans ?_ (quiet_ite (quiet_SDL_RestoreWindow _) (appends_no_refl _ _))
    exact quiet_ite (quiet_SDL_SetWindowFullscreen s false) (quiet_SDL_GetWindowPosition s)

theorem quiet_log_input (s : State) (c : InputCall) :
    appends_no Action.is_step s (s.log (Action.input c)) :=
  appends_no_log s (by simp [Action.is_step, Action.is_frame_step, Action.is_loop_step])

theorem quiet_handle_mouse_button (s : State) (l r : Bool) (x y : Int) (d : Bool) :
    appends_no Action.is_step s (handle_mouse_button s l r x y d) := by
  unfold handle_mouse_button
  dsimp only
  have h1 : appends_no Action.is_step s
      (if (!s.env.relative_mouse_mode) = true then
        s.log (Action.input (InputCall.mouse_set_position x y)) else s) :=
    quiet_ite (quiet_log_input s _) (appends_no_refl _ s)
  generalize (if (!s.env.relative_mouse_mode) = true then
        s.log (Action.input (InputCall.mouse_set_position x y)) else s) = s1 at h1
  exact appends_no_trans h1 (quiet_ite (quiet_log_input _ _)
    (quiet_ite (quiet_log_input _ _) (appends_no_refl _ _)))

theorem quiet_handle_window_event {p : Platform} {s s' : State} {e : WindowEventID}
    {d1 d2 : Int} (h : handle_window_event p s e d1 d2 = some s') :
    appends_no Action.is_step s s' := by
  cases e <;> simp only [handle_window_event, Option.some.injEq, Option.map_eq_some] at h
  case enter => subst h; exact quiet_log_input s _
  case leave => subst h; exact quiet_log_input s _
  case focus_lost => subst h; exact quiet_log_input s _
  case focus_gained => subst h; exact quiet_log_input s _
  case size_changed =>
    cases h2 : platform_screen_resize (s.log (Action.platform_screen_resize d1 d2)) d1 d2 with
    | none => rw [h2] at h; simp at h
    | some r =>
    rw [h2] at h
    simp only [Option.map_some', Option.some.injEq] at h
    subst h
    obtain ⟨s2, ret⟩ := r
    exact appends_no_trans
      (appends_no_log s (by simp [Action.is_step, Action.is_frame_step, Action.is_loop_step]))
      (quiet_platform_screen_resize h2)
  case resized => subst h; exact appends_no_refl _ s
  case moved =>
    subst h
    exact appends_no_trans
      (appends_no_log s (by simp [Action.is_step, Action.is_frame_step, Action.is_loop_step]))
      (quiet_platform_screen_move _ _ _)
  case shown =>
    subst h
    refine appends_no_trans (?_ : appends_no Action.is_step s
      (if p.file_cache = true then
        s.log (Action.input InputCall.platform_file_manager_cache_invalidate) else s))
      (appends_no_of_trace_eq rfl)
    exact quiet_ite (quiet_log_input s _) (appends_no_refl _ s)
  case hidden => subst h; exact appends_no_of_trace_eq rfl
  case other => subst h; exact appends_no_refl _ s

theorem quiet_handle_event {p : Platform} {s s' : State} {e : Event}
    (h : handle_event p s e = some s') : appends_no Action.is_step s s' := by
  cases e <;> simp only [handle_event, Option.some.injEq] at h
  case window e d1 d2 => exact quiet_handle_window_event h
  case key_down => subst h; exact quiet_log_input s _
  case key_up => subst h; exact quiet_log_input s _
  case text_input => subst h; exact quiet_log_input s _
  case mouse_motion t x y =>
    split_ifs at h <;> simp only [Option.some.injEq] at h <;> subst h
    · exact quiet_log_input s _
    · exact appends_no_refl _ s
  case mouse_button_down t l r x y =>
    split_ifs at h <;> simp only [Option.some.injEq] at h <;> subst h
    · exact quiet_handle_mouse_button s l r x y true
    · exact appends_no_refl _ s
  case mouse_button_up t l r x y =>
    split_ifs at h <;> simp only [Option.some.injEq] at h <;> subst h
    · exact quiet_handle_mouse_button s l r x y false
    · exact appends_no_refl _ s
  case mouse_wheel t y =>
    by_cases ht : (!t) = true
    · rw [if_pos ht] at h
      simp only [Option.some.injEq] at h
      subst h
      exact quiet_log_input s _
    · rw [if_neg ht] at h
      simp only [Option.some.injEq] at h
      subst h
      exact appends_no_refl _ s
  case finger_down => subst h; exact quiet_log_input s _
  case finger_motion => subst h; exact quiet_log_input s _
  case finger_up => subst h; exact quiet_log_input s _
  case joy_axis_motion => subst h; exact quiet_log_input s _
  case joy_ball_motion => subst h; exact quiet_log_input s _
  case joy_hat_motion => subst h; exact quiet_log_input s _
  case joy_button_down => subst h; exact quiet_log_input s _
  case joy_button_up => subst h; exact quiet_log_input s _
  case joy_device_added => subst h; exact quiet_log_input s _
  case joy_device_removed => subst h; exact quiet_log_input s _
  case quit => subst h; exact appends_no_of_trace_eq rfl
  case user code d1 d2 =>
    by_cases h0 : code = USER_EVENT_QUIT
    · rw [if_pos h0] at h
      simp only [Option.some.injEq] at h
      subst h
      exact appends_no_of_trace_eq rfl
    rw [if_neg h0] at h
    by_cases h1 : code = USER_EVENT_RESIZE
    · rw [if_pos h1] at h
      simp only [Option.bind_eq_bind, bind, Option.bind_eq_some] at h
      obtain ⟨w, -, hh, -, h⟩ := h
      exact appends_no_trans
        (appends_no_log s (by simp [Action.is_step, Action.is_frame_step, Action.is_loop_step]))
        (quiet_platform_screen_set_window_size h)
    rw [if_neg h1] at h
    by_cases h2 : code = USER_EVENT_FULLSCREEN
    · rw [if_pos h2] at h
      exact appends_no_trans
        (appends_no_log s (by simp [Action.is_step, Action.is_frame_step, Action.is_loop_step]))
        (quiet_platform_screen_set_fullscreen h)
    rw [if_neg h2] at h
    by_cases h3 : code = USER_EVENT_WINDOWED
    · rw [if_pos h3] at h
      exact appends_no_trans
        (appends_no_log s (by simp [Action.is_step, Action.is_frame_step, Action.is_loop_step]))
        (quiet_platform_screen_set_windowed h)
    rw [if_neg h3] at h
    by_cases h4 : code = USER_EVENT_CENTER_WINDOW
    · rw [if_pos h4] at h
      simp only [Option.some.injEq] at h
      subst h
      exact appends_no_trans
        (appends_no_log s (by simp [Action.is_step, Action.is_frame_step, Action.is_loop_step]))
        (quiet_platform_screen_center_window _)
    rw [if_neg h4] at h
    simp only [Option.some.injEq] at h
    subst h
    exact appends_no_refl _ s
  case other => subst h; exact appends_no_refl _ s

theorem quiet_process_event_queue {p : Platform} (q : List Event) :
    ∀ {s s' : State}, process_event_queue p q s = some s' → appends_no Action.is_step s s' := by
  induction q with
  | nil =>
    intro s s' h
    simp only [process_event_queue, Option.some.injEq] at h
    subst h
    exact appends_no_refl _ s
  | cons e rest ih =>
    intro s s' h
    simp only [process_event_queue] at h
    cases h1 : handle_event p { s with queue := rest } e with
    | none => rw [h1] at h; simp at h
    | some s1 =>
      rw [h1] at h
      have h2 : appends_no Action.is_step s { s with queue := rest } :=
        appends_no_of_trace_eq rfl
      exact appends_no_trans (appends_no_trans h2 (quiet_handle_event h1)) (ih h)

theorem quiet_after_frame_callback {p : Platform} {s s' : State}
    (h : after_frame_callback p s = some s') : appends_no Action.is_step s s' := by
  unfold after_frame_callback at h
  split_ifs at h
  · exact appends_no_trans
      (appends_no_log s (by simp [Action.is_step, Action.is_frame_step, Action.is_loop_step]))
      (quiet_platform_screen_recreate_texture h)
  · simp only [Option.some.injEq] at h
    subst h
    exact appends_no_refl _ s

theorem quiet_set_scale_percentage {p : Platform} {s s' : State} {n w h : Int}
    (h1 : set_scale_percentage p s n w h = some s') : appends_no Action.is_step s s' := by
  unfold set_scale_percentage at h1
  simp only [Option.bind_eq_bind, bind, pure] at h1
  by_cases hz : w = 0 ∨ h = 0
  · rw [if_pos hz] at h1
    simp only [Option.some.injEq] at h1
    subst h1
    exact appends_no_of_trace_eq rfl
  · rw [if_neg hz] at h1
    simp only [Option.bind_eq_some, Option.some.injEq] at h1
    obtain ⟨sc, -, mw, -, mh, -, rfl⟩ := h1
    refine appends_no_trans (appends_no_trans (?_ : appends_no Action.is_step s
      (({ s with scale := sc } : State).modifyWindow
        fun win => { win with min_w := mw, min_h := mh })) (appends_no_logSDL _ ?_))
      (appends_no_logSDL _ ?_)
    · exact appends_no_of_trace_eq rfl
    · simp [Action.is_step, Action.is_frame_step, Action.is_loop_step]
    · simp [Action.is_step, Action.is_frame_step, Action.is_loop_step]

theorem quiet_platform_screen_create {p : Platform} {s s' : State} {d i ret : Int}
    (h : platform_screen_create p s d i = some (s', ret)) : appends_no Action.is_step s s' := by
  unfold platform_screen_create at h
  dsimp only at h
  obtain ⟨s1, hs1, h⟩ := Option.bind_eq_some.1 h
  obtain ⟨size, -, h⟩ := Option.bind_eq_some.1 h
  have h0 : appends_no Action.is_step s
      (if p.android = true then
        { s with scale := { s.scale with screen_density := s.env.android_screen_density } }
      else s) := quiet_ite (appends_no_of_trace_eq rfl) (appends_no_refl _ s)
  have h1 := appends_no_trans h0 (quiet_set_scale_percentage hs1)
  clear hs1 h0
  have h2 := quiet_platform_screen_destroy s1
  generalize platform_screen_destroy s1 = s2 at h h2
  have h3 := quiet_SDL_CreateWindow s2
    (if i < 0 ∨ i ≥ s2.env.num_displays then 0 else i) size.1 size.2
    (decide ((if system_is_fullscreen_only p = true then 1 else setting_fullscreen s1) ≠ 0))
  generalize SDL_CreateWindow s2
    (if i < 0 ∨ i ≥ s2.env.num_displays then 0 else i) size.1 size.2
    (decide ((if system_is_fullscreen_only p = true then 1 else setting_fullscreen s1) ≠ 0)) = s3
    at h h3
  have h13 := appends_no_trans h1 (appends_no_trans h2 h3)
  clear h1 h2 h3
  by_cases hw : s3.SDL.window.isNone = true
  · rw [if_pos hw] at h
    simp only [pure, Option.some.injEq, Prod.mk.injEq] at h
    rw [← h.1]
    exact h13
  rw [if_neg hw] at h
  obtain ⟨size2, -, h⟩ := Option.bind_eq_some.1 h
  have h4 : appends_no Action.is_step s3
      (if (SDL_CreateRenderer s3 false).SDL.renderer.isNone = true then
        SDL_CreateRenderer (SDL_CreateRenderer s3 false) true
      else SDL_CreateRenderer s3 false) :=
    quiet_ite (appends_no_trans (quiet_SDL_CreateRenderer _ _) (quiet_SDL_CreateRenderer _ _))
      (quiet_SDL_CreateRenderer _ _)
  generalize (if (SDL_CreateRenderer s3 false).SDL.renderer.isNone = true then
        SDL_CreateRenderer (SDL_CreateRenderer s3 false) true
      else SDL_CreateRenderer s3 false) = s5 at h h4
  by_cases hr : s5.SDL.renderer.isNone = true
  · rw [if_pos hr] at h
    simp only [pure, Option.some.injEq, Prod.mk.injEq] at h
    rw [← h.1]
    exact appends_no_trans h13 h4
  rw [if_neg hr] at h
  obtain ⟨s7, hs7, h⟩ := Option.bind_eq_some.1 h
  have h6 : appends_no Action.is_step s5
      (if (if system_is_fullscreen_only p = true then 1 else setting_fullscreen s1) ≠ 0 then
        SDL_SetWindowGrab s5 true else s5) :=
    quiet_ite (quiet_SDL_SetWindowGrab _ _) (appends_no_refl _ _)
  exact appends_no_trans h13 (appends_no_trans h4 (appends_no_trans h6
    (appends_no_trans (quiet_set_scale_percentage hs7) (quiet_platform_screen_resize h))))

theorem frame_of_step {s s' : State} (h : appends_no Action.is_step s s') :
    appends_no Action.is_frame_step s s' :=
  appends_no_mono is_frame_step_of_is_step h

theorem loop_of_step {s s' : State} (h : appends_no Action.is_step s s') :
    appends_no Action.is_loop_step s s' :=
  appends_no_mono is_loop_step_of_is_step h

theorem quiet_init_sdl (s : State) : appends_no Action.is_step s (init_sdl s).2 :=
  ⟨[_], rfl, by simp [Action.is_step, Action.is_frame_step, Action.is_loop_step]⟩

theorem quiet_pre_init (s : State) : appends_no Action.is_step s (pre_init s).2 :=
  ⟨[_], rfl, by simp [Action.is_step, Action.is_frame_step, Action.is_loop_step]⟩

theorem quiet_game_init (s : State) : appends_no Action.is_step s (game_init s).2 :=
  ⟨[_], rfl, by simp [Action.is_step, Action.is_frame_step, Action.is_loop_step]⟩

theorem final_state_throw (st : Int) (f : State) :
    final_state (throw (Halt.exit st f)) = some f := rfl

theorem final_state_pure (f : State) : final_state (pure f) = some f := rfl

theorem quiet_setup (p : Platform) (s : State) :
    ∀ s', final_state (setup p s) = some s' → appends_no Action.is_frame_step s s' := by
  unfold setup
  lift_lets
  intro s0
  have h0 : appends_no Action.is_frame_step s s0 :=
    appends_no_log s (by simp [Action.is_frame_step])
  have h1 := frame_of_step (quiet_init_sdl s0)
  rcases hi : init_sdl s0 with ⟨ok, s1⟩
  rw [hi] at h1
  dsimp -zeta only at h1 ⊢
  have h01 := appends_no_trans h0 h1
  clear h0 h1
  cases ok with
  | false =>
    simp only [Bool.not_false, if_true, final_state_throw, Option.some.injEq]
    intro s' h
    rw [← h]
    exact h01
  | true =>
    simp -zeta only [Bool.not_true, Bool.false_eq_true, if_false]
    have h2 := frame_of_step (quiet_pre_init s1)
    rcases hp : pre_init s1 with ⟨ok, s2⟩
    rw [hp] at h2
    dsimp -zeta only at h2 ⊢
    have h02 := appends_no_trans h01 h2
    clear h01 h2
    cases ok with
    | false =>
      simp only [Bool.not_false, if_true, final_state_throw, Option.some.injEq]
      intro s' h
      rw [← h]
      exact h02
    | true =>
      simp -zeta only [Bool.not_true, Bool.false_eq_true, if_false]
      lift_lets
      intro s3 s4 s5 s6
      have h3 : appends_no Action.is_frame_step s2 s3 :=
        quiet_ite (frame_of_step (quiet_setting_set_display _ _ _ _)) (appends_no_refl _ _)
      have h4 : appends_no Action.is_frame_step s3 s4 :=
        quiet_ite (frame_of_step (quiet_setting_set_display _ _ _ _)) (appends_no_refl _ _)
      have h5 : appends_no Action.is_frame_step s4 s5 :=
        quiet_ite (appends_no_log _ (by simp [Action.is_frame_step])) (appends_no_refl _ _)
      have h6 : appends_no Action.is_frame_step s5 s6 :=
        quiet_ite (appends_no_log _ (by simp [Action.is_frame_step])) (appends_no_refl _ _)
      have h06 := appends_no_trans h02 (appends_no_trans h3 (appends_no_trans h4
        (appends_no_trans h5 h6)))
      clear_value s3 s4 s5 s6
      clear h02 h3 h4 h5 h6
      have h7 : appends_no Action.is_frame_step s6 (s6.log Action.platform_screen_create) :=
        appends_no_log _ (by simp [Action.is_frame_step])
      cases hc : platform_screen_create p (s6.log Action.platform_screen_create)
          s6.config_display_scale s6.args.display_id with
      | none =>
        intro s' h
        simp [defined, final_state, bind, Except.bind] at h
      | some created =>
        obtain ⟨s7, ret⟩ := created
        have h07 := appends_no_trans h06 (appends_no_trans h7
          (frame_of_step (quiet_platform_screen_create hc)))
        simp -zeta only [defined, bind, Except.bind]
        by_cases hret : ret = 0
        · simp only [if_pos hret, final_state_throw, Option.some.injEq]
          intro s' h
          rw [← h]
          exact h07
        · simp -zeta only [if_neg hret]
          lift_lets
          intro s8 s9
          have h9 : appends_no Action.is_frame_step s7 s9 :=
            appends_no_trans (appends_no_log _ (by simp [Action.is_frame_step]))
              (appends_no_log _ (by simp [Action.is_frame_step]))
          have h10 := frame_of_step (quiet_game_init s9)
          clear_value s9
          rcases hg : game_init s9 with ⟨ok, s10⟩
          rw [hg] at h10
          dsimp -zeta only at h10 ⊢
          have h010 := appends_no_trans h07 (appends_no_trans h9 h10)
          cases ok with
          | false =>
            simp only [Bool.not_false, if_true, final_state_throw, Option.some.injEq]
            intro s' h
            rw [← h]
            exact h010
          | true =>
            simp only [Bool.not_true, Bool.false_eq_true, if_false, final_state_pure,
              Option.some.injEq]
            intro s' h
            rw [← h]
            exact appends_no_trans h010 (appends_no_of_trace_eq rfl)

theorem platform_screen_destroy_handles (s : State) :
    (platform_screen_destroy s).SDL = ⟨none, none, none⟩ := by
  obtain ⟨⟨w, r, t⟩, b⟩ := s
  cases w <;> cases r <;> cases t <;> rfl

/-- What `teardown` appends: `game_exit`, then `platform_screen_destroy`, then calls none of
which is a frame step. -/
theorem teardown_trace (p : Platform) (s : State) :
    ∀ s', final_state (teardown p s) = some s' →
      ∃ rest, s'.trace = s.trace ++ [Action.game_exit, Action.platform_screen_destroy] ++ rest ∧
        ∀ a ∈ rest, a.is_frame_step = false := by
  intro s' h
  have key : ∀ t : State, appends_no Action.is_frame_step
      (platform_screen_destroy ((s.log Action.game_exit).log Action.platform_screen_destroy)) t →
      ∃ rest, t.trace = s.trace ++ [Action.game_exit, Action.platform_screen_destroy] ++ rest ∧
        ∀ a ∈ rest, a.is_frame_step = false := by
    intro t ht
    obtain ⟨rest, e, hrest⟩ := appends_no_trans
      (frame_of_step (quiet_platform_screen_destroy
        ((s.log Action.game_exit).log Action.platform_screen_destroy))) ht
    refine ⟨rest, ?_, hrest⟩
    rw [e]
    simp [State.log]
  have h4 : appends_no Action.is_frame_step
      (platform_screen_destroy ((s.log Action.game_exit).log Action.platform_screen_destroy))
      (((platform_screen_destroy ((s.log Action.game_exit).log
        Action.platform_screen_destroy)).logSDL SDLCall.SDL_Quit).log Action.teardown_logging) :=
    appends_no_trans (appends_no_logSDL _ (by simp [Action.is_frame_step]))
      (appends_no_log _ (by simp [Action.is_frame_step]))
  unfold teardown at h
  by_cases hi : p.iphoneos = true
  · simp only [hi, if_true] at h
    exact key s' (appends_no_trans h4 (quiet_setup p _ s' h))
  · simp only [hi, Bool.false_eq_true, if_false, final_state_pure, Option.some.injEq] at h
    rw [← h]
    exact key _ h4

/-- Once the frame callback and the event loop have run, `main_loop` is its three-way
branch. -/
theorem main_loop_of_drained {p : Platform} {s s1 s2 : State}
    (hcb : after_frame_callback p s = some s1)
    (hq : process_event_queue p s1.queue s1 = some s2) :
    main_loop p s =
      if s2.data.quit ≠ 0 then
        (teardown p (if p.emscripten then s2.log Action.emscripten_cancel_main_loop else s2)).map
          fun s4 => if p.emscripten then s4.log Action.emscripten_quit_game else s4
      else if s2.data.active ≠ 0 then Except.ok (run_and_draw p s2)
      else Except.ok (s2.logSDL SDLCall.SDL_WaitEvent) := by
  unfold main_loop
  unfold after_frame_callback at hcb
  have h1 : (if p.windows = true then
      defined (platform_screen_recreate_texture (s.log Action.platform_screen_recreate_texture))
      else pure s) = Except.ok s1 := by
    by_cases hw : p.windows = true
    · rw [if_pos hw] at hcb ⊢
      rw [hcb]
      rfl
    · rw [if_neg hw] at hcb ⊢
      simp only [Option.some.injEq] at hcb
      rw [hcb]
      rfl
  rw [h1]
  simp only [bind, Except.bind, hq, defined]
  by_cases hquit : s2.data.quit ≠ 0
  · rw [if_pos hquit, if_pos hquit]
    cases teardown p (if p.emscripten = true then s2.log Action.emscripten_cancel_main_loop
      else s2) <;> rfl
  · rw [if_neg hquit, if_neg hquit]
    by_cases ha : s2.data.active ≠ 0
    · rw [if_pos ha, if_pos ha]
      rfl
    · rw [if_neg ha, if_neg ha]
      rfl

theorem final_state_map {r : Except Halt State} {f : State → State} {s' : State}
    (h : final_state (r.map f) = some s') :
    ∃ t, final_state r = some t ∧ (s' = t ∨ s' = f t) := by
  cases r with
  | error e =>
    cases e with
    | undefined => simp [Except.map, final_state] at h
    | exit st fin =>
      simp only [Except.map, final_state, Option.some.injEq] at h
      exact ⟨fin, rfl, Or.inl h.symm⟩
  | ok t =>
    simp only [Except.map, final_state, Option.some.injEq] at h
    exact ⟨t, rfl, Or.inr h.symm⟩

theorem log_SDL (s : State) (a : Action) : (s.log a).SDL = s.SDL := rfl

theorem logSDL_SDL (s : State) (c : SDLCall) : (s.logSDL c).SDL = s.SDL := rfl

theorem teardown_of_not_iphoneos {p : Platform} (hi : p.iphoneos = false) (s : State) :
    teardown p s = Except.ok (((platform_screen_destroy
      ((s.log Action.game_exit).log Action.platform_screen_destroy)).logSDL SDLCall.SDL_Quit).log
        Action.teardown_logging) := by
  unfold teardown
  rw [hi]
  rfl

/-- C7. In a `main_loop` iteration whose quit flag is set once the pending events are handled,
whatever the state (idle or active) and the queue: the calls made after the event loop start
with `game_exit` and `platform_screen_destroy`, and no frame step (no tick, draw, screen
update or present, no blocking wait) is made in the whole iteration.  Outside iOS, where
`teardown` runs `setup` again, the iteration always returns, with window, renderer and
texture released. -/
theorem quit_runs_teardown_without_frame (p : Platform) (s s1 s2 : State)
    (hcb : after_frame_callback p s = some s1)
    (hq : process_event_queue p s1.queue s1 = some s2)
    (hquit : s2.data.quit ≠ 0) :
    (∀ s', final_state (main_loop p s) = some s' →
      (∃ rest, s'.trace =
        (if p.emscripten then s2.log Action.emscripten_cancel_main_loop else s2).trace ++
          [Action.game_exit, Action.platform_screen_destroy] ++ rest) ∧
      s'.trace.filter Action.is_frame_step = s.trace.filter Action.is_frame_step) ∧
    (p.iphoneos = false →
      ∃ s', main_loop p s = Except.ok s' ∧ s'.SDL = ⟨none, none, none⟩) := by
  rw [main_loop_of_drained hcb hq, if_pos hquit]
  have h02 : appends_no Action.is_frame_step s s2 :=
    frame_of_step (appends_no_trans (quiet_after_frame_callback hcb)
      (quiet_process_event_queue _ hq))
  have h23 : appends_no Action.is_frame_step s2
      (if p.emscripten then s2.log Action.emscripten_cancel_main_loop else s2) :=
    quiet_ite (appends_no_log _ (by simp [Action.is_frame_step])) (appends_no_refl _ _)
  have h03 := appends_no_trans h02 h23
  clear h02 h23
  generalize (if p.emscripten then s2.log Action.emscripten_cancel_main_loop else s2) = s3
    at h03 ⊢
  constructor
  · intro s' h
    obtain ⟨t, ht, hs'⟩ := final_state_map h
    obtain ⟨rest, e, hrest⟩ := teardown_trace p s3 t ht
    have h3t : appends_no Action.is_frame_step s3 t :=
      ⟨[Action.game_exit, Action.platform_screen_destroy] ++ rest,
        by rw [e, List.append_assoc], by
          intro a ha
          rcases List.mem_append.1 ha with h | h
          · simp only [List.mem_cons, List.mem_singleton, List.not_mem_nil, or_false] at h
            rcases h with rfl | rfl <;> simp [Action.is_frame_step]
          · exact hrest a h⟩
    rcases hs' with rfl | rfl
    · exact ⟨⟨rest, e⟩, filter_of_appends_no (appends_no_trans h03 h3t)⟩
    · by_cases hem : p.emscripten = true
      · rw [if_pos hem]
        refine ⟨⟨rest ++ [Action.emscripten_quit_game], ?_⟩, filter_of_appends_no
          (appends_no_trans h03 (appends_no_trans h3t
            (appends_no_log _ (by simp [Action.is_frame_step]))))⟩
        simp only [State.log, e, List.append_assoc]
      · rw [if_neg hem]
        exact ⟨⟨rest, e⟩, filter_of_appends_no (appends_no_trans h03 h3t)⟩
  · intro hi
    rw [teardown_of_not_iphoneos hi]
    refine ⟨_, rfl, ?_⟩
    beta_reduce
    by_cases hem : p.emscripten = true
    · rw [if_pos hem, log_SDL, log_SDL, logSDL_SDL]
      exact platform_screen_destroy_handles _
    · rw [if_neg hem, log_SDL, logSDL_SDL]
      exact platform_screen_destroy_handles _

/-- The whole of `run_and_draw`: it sets the clock, runs a tick and a draw pass, and calls
`platform_screen_update` and `platform_screen_render`, whose own SDL calls follow each; it
makes no other call and changes nothing else. -/
theorem run_and_draw_eq (p : Platform) (s : State) :
    run_and_draw p s = { s with trace := s.trace ++
      ([Action.time_set_millis, Action.game_run, Action.game_draw,
          Action.platform_screen_update, Action.sdl SDLCall.SDL_RenderClear] ++
        (if p.vita then [] else [Action.sdl SDLCall.SDL_UpdateTexture]) ++
        [Action.sdl SDLCall.SDL_RenderCopy] ++
        (if p.software_cursor then [Action.draw_software_mouse_cursor] else []) ++
        [Action.platform_screen_render, Action.sdl SDLCall.SDL_RenderPresent]) } := by
  unfold run_and_draw platform_screen_render platform_screen_update
  by_cases hv : p.vita = true <;> by_cases hc : p.software_cursor = true <;>
    simp [hv, hc, State.log, State.logSDL]

/-- C8. In a `main_loop` iteration whose quit flag is clear once the pending events are
handled: when the program is active the iteration is `run_and_draw`, which appends to the
trace exactly set-clock, `game_run`, `game_draw`, `platform_screen_update` with its SDL calls
and `platform_screen_render` with its SDL call, in that order, and changes nothing else: no
other call is made and none of them is the blocking wait; the loop steps of the whole
iteration are these five.  When the program is not active the iteration only adds the blocking
wait `SDL_WaitEvent`, which is its only loop step and its only frame step. -/
theorem running_iteration_steps (p : Platform) (s s1 s2 : State)
    (hcb : after_frame_callback p s = some s1)
    (hq : process_event_queue p s1.queue s1 = some s2)
    (hquit : s2.data.quit = 0) :
    (s2.data.active ≠ 0 →
      main_loop p s = Except.ok (run_and_draw p s2) ∧
      run_and_draw p s2 = { s2 with trace := s2.trace ++
        ([Action.time_set_millis, Action.game_run, Action.game_draw,
            Action.platform_screen_update, Action.sdl SDLCall.SDL_RenderClear] ++
          (if p.vita then [] else [Action.sdl SDLCall.SDL_UpdateTexture]) ++
          [Action.sdl SDLCall.SDL_RenderCopy] ++
          (if p.software_cursor then [Action.draw_software_mouse_cursor] else []) ++
          [Action.platform_screen_render, Action.sdl SDLCall.SDL_RenderPresent]) } ∧
      (run_and_draw p s2).trace.filter Action.is_loop_step =
        s.trace.filter Action.is_loop_step ++
          [Action.time_set_millis, Action.game_run, Action.game_draw,
            Action.platform_screen_update, Action.platform_screen_render]) ∧
    (s2.data.active = 0 →
      main_loop p s = Except.ok (s2.logSDL SDLCall.SDL_WaitEvent) ∧
      s2.logSDL SDLCall.SDL_WaitEvent =
        { s2 with trace := s2.trace ++ [Action.sdl SDLCall.SDL_WaitEvent] } ∧
      (s2.logSDL SDLCall.SDL_WaitEvent).trace = s2.trace ++ [Action.sdl SDLCall.SDL_WaitEvent] ∧
      (s2.logSDL SDLCall.SDL_WaitEvent).trace.filter Action.is_loop_step =
        s.trace.filter Action.is_loop_step ++ [Action.sdl SDLCall.SDL_WaitEvent] ∧
      (s2.logSDL SDLCall.SDL_WaitEvent).trace.filter Action.is_frame_step =
        s.trace.filter Action.is_frame_step ++ [Action.sdl SDLCall.SDL_WaitEvent]) := by
  have h02 : appends_no Action.is_step s s2 :=
    appends_no_trans (quiet_after_frame_callback hcb) (quiet_process_event_queue _ hq)
  have hl := filter_of_appends_no (loop_of_step h02)
  have hf := filter_of_appends_no (frame_of_step h02)
  rw [main_loop_of_drained hcb hq, if_neg (by simp [hquit])]
  constructor
  · intro ha
    rw [if_pos ha]
    refine ⟨rfl, run_and_draw_eq p s2, ?_⟩
    rw [← hl]
    unfold run_and_draw platform_screen_render platform_screen_update
    by_cases hv : p.vita = true <;> by_cases hc : p.software_cursor = true <;>
      simp [hv, hc, State.log, State.logSDL, List.filter_append, List.filter_cons,
        Action.is_loop_step]
  · intro ha
    rw [if_neg (by simp [ha])]
    refine ⟨rfl, rfl, rfl, ?_, ?_⟩
    · rw [← hl]
      simp [State.log, State.logSDL, List.filter_append, Action.is_loop_step]
    · rw [← hf]
      simp [State.log, State.logSDL, List.filter_append, Action.is_frame_step]

/-! ## Routine steps of `screen.c` -/

/-! ### Routine steps of `screen.c` -/

theorem appends_only_refl (Q : Action → Bool) (s : State) : appends_only Q s s :=
  ⟨[], by simp, by simp⟩

theorem appends_only_trans {Q : Action → Bool} {s1 s2 s3 : State} (h1 : appends_only Q s1 s2)
    (h2 : appends_only Q s2 s3) : appends_only Q s1 s3 := by
  obtain ⟨a1, e1, p1⟩ := h1
  obtain ⟨a2, e2, p2⟩ := h2
  refine ⟨a1 ++ a2, by rw [e2, e1, List.append_assoc], ?_⟩
  intro a ha
  rcases List.mem_append.1 ha with h | h
  · exact p1 a h
  · exact p2 a h

theorem appends_only_log {Q : Action → Bool} (s : State) {a : Action} (h : Q a = true) :
    appends_only Q s (s.log a) :=
  ⟨[a], rfl, by simpa using h⟩

theorem appends_only_mono {P Q : Action → Bool} {s s' : State}
    (hPQ : ∀ a, Q a = true → P a = true) (h : appends_only Q s s') : appends_only P s s' := by
  obtain ⟨added, e, hq⟩ := h
  exact ⟨added, e, fun a ha => hPQ a (hq a ha)⟩

/-- Calls that all satisfy `Q` contribute nothing to a list of calls that do not. -/
theorem filter_of_appends_only {P Q : Action → Bool} {s s' : State}
    (hPQ : ∀ a, Q a = true → P a = false) (h : appends_only Q s s') :
    s'.trace.filter P = s.trace.filter P := by
  obtain ⟨added, e, hq⟩ := h
  rw [e, List.filter_append]
  have : added.filter P = [] := by
    rw [List.filter_eq_nil_iff]
    intro a ha
    simp [hPQ a (hq a ha)]
  rw [this, List.append_nil]

theorem routine_step_refl (s : State) : routine_step s s :=
  ⟨appends_only_refl _ s, rfl, rfl, rfl, rfl, rfl, rfl⟩

theorem routine_step_trans {s1 s2 s3 : State} (h1 : routine_step s1 s2)
    (h2 : routine_step s2 s3) : routine_step s1 s3 :=
  ⟨appends_only_trans h1.1 h2.1, h2.2.1.trans h1.2.1, h2.2.2.1.trans h1.2.2.1,
    h2.2.2.2.1.trans h1.2.2.2.1, h2.2.2.2.2.1.trans h1.2.2.2.2.1,
    h2.2.2.2.2.2.1.trans h1.2.2.2.2.2.1, h2.2.2.2.2.2.2.trans h1.2.2.2.2.2.2⟩

theorem routine_step_ite {c : Prop} [Decidable c] {s a b : State}
    (ha : routine_step s a) (hb : routine_step s b) : routine_step s (if c then a else b) := by
  split_ifs
  · exact ha
  · exact hb

theorem routine_step_log (s : State) {a : Action} (h : a.is_routine = true) :
    routine_step s (s.log a) :=
  ⟨appends_only_log s h, rfl, rfl, rfl, rfl, rfl, rfl⟩

theorem routine_step_logSDL (s : State) {c : SDLCall} (h : (Action.sdl c).is_routine = true) :
    routine_step s (s.logSDL c) :=
  routine_step_log s h

theorem routine_step_modifyWindow (s : State) (f : SDLWindow → SDLWindow) :
    routine_step s (s.modifyWindow f) := by
  refine ⟨⟨[], by simp [State.modifyWindow], by simp⟩, ?_, rfl, rfl, rfl, rfl, rfl⟩
  simp [State.modifyWindow]

theorem routine_setting_set_display (s : State) (f w h : Int) :
    routine_step s (setting_set_display s f w h) :=
  ⟨⟨[_], rfl, by simp [Action.is_routine]⟩, rfl, rfl, rfl, rfl, rfl, rfl⟩

theorem routine_screen_set_resolution (s : State) (w h : Int) :
    routine_step s (screen_set_resolution s w h) :=
  ⟨⟨[_], rfl, by simp [Action.is_routine]⟩, rfl, rfl, rfl, rfl, rfl, rfl⟩

theorem routine_SDL_SetWindowGrab (s : State) (g : Bool) :
    routine_step s (SDL_SetWindowGrab s g) :=
  routine_step_trans (routine_step_modifyWindow s _)
    (routine_step_logSDL _ (by simp [Action.is_routine]))

theorem routine_SDL_SetWindowSize (s : State) (w h : Int) :
    routine_step s (SDL_SetWindowSize s w h) :=
  routine_step_trans (routine_step_modifyWindow s _)
    (routine_step_logSDL _ (by simp [Action.is_routine]))

theorem routine_SDL_RestoreWindow (s : State) : routine_step s (SDL_RestoreWindow s) :=
  routine_step_trans (routine_step_modifyWindow s _)
    (routine_step_logSDL _ (by simp [Action.is_routine]))

theorem routine_platform_screen_center_window (s : State) :
    routine_step s (platform_screen_center_window s) := by
  refine ⟨⟨[_], rfl, by simp [Action.is_routine]⟩, ?_, rfl, rfl, rfl, rfl, rfl⟩
  simp [platform_screen_center_window, State.modifyWindow, State.logSDL, State.log]

theorem routine_SDL_GetWindowPosition (s : State) : routine_step s (SDL_GetWindowPosition s) := by
  unfold SDL_GetWindowPosition
  cases s.SDL.window with
  | none => exact routine_step_refl s
  | some win => exact ⟨⟨[], by simp, by simp⟩, rfl, rfl, rfl, rfl, rfl, rfl⟩

theorem routine_platform_screen_move (s : State) (x y : Int) :
    routine_step s (platform_screen_move s x y) := by
  unfold platform_screen_move
  split_ifs
  · exact ⟨⟨[], by simp, by simp⟩, rfl, rfl, rfl, rfl, rfl, rfl⟩
  · exact routine_step_refl s

theorem routine_ask (s : State) : routine_step s s.ask.2 :=
  ⟨⟨[], by simp [State.ask], by simp⟩, rfl, rfl, rfl, rfl, rfl, rfl⟩

theorem routine_SDL_SetWindowFullscreen (s : State) (f : Bool) :
    routine_step s (SDL_SetWindowFullscreen s f).2 := by
  unfold SDL_SetWindowFullscreen
  cases hw : s.SDL.window with
  | none => exact routine_step_logSDL _ (by simp [Action.is_routine])
  | some win =>
    dsimp only
    refine routine_step_trans (routine_step_trans (routine_ask s) ?_)
      (routine_step_logSDL _ (by simp [Action.is_routine]))
    exact routine_step_ite (routine_step_modifyWindow _ _) (routine_step_refl _)

theorem routine_SDL_RenderSetLogicalSize (s : State) (w h : Int) :
    routine_step s (SDL_RenderSetLogicalSize s w h) := by
  refine ⟨⟨[_], rfl, by simp [Action.is_routine]⟩, rfl, ?_, rfl, rfl, rfl, rfl⟩
  simp [SDL_RenderSetLogicalSize, State.logSDL, State.log]

theorem routine_SDL_CreateTexture (s : State) (w h : Int) :
    routine_step s (SDL_CreateTexture s w h) := by
  unfold SDL_CreateTexture
  cases hr : s.SDL.renderer with
  | none => exact ⟨⟨[_], rfl, by simp [Action.is_routine]⟩, rfl, by simp [State.logSDL, State.log, hr], rfl, rfl, rfl, rfl⟩
  | some r =>
    exact ⟨⟨[_], rfl, by simp [Action.is_routine]⟩, rfl, by simp [State.logSDL, State.log, State.ask, hr], rfl, rfl, rfl, rfl⟩

theorem routine_destroy_screen_texture (s : State) :
    routine_step s (destroy_screen_texture s) :=
  ⟨⟨[_], rfl, by simp [Action.is_routine]⟩, rfl, rfl, rfl, rfl, rfl, rfl⟩

theorem routine_set_scale_percentage {p : Platform} {s s' : State} {n w h : Int}
    (h1 : set_scale_percentage p s n w h = some s') : routine_step s s' := by
  unfold set_scale_percentage at h1
  simp only [Option.bind_eq_bind, bind, pure] at h1
  by_cases hz : w = 0 ∨ h = 0
  · rw [if_pos hz] at h1
    simp only [Option.some.injEq] at h1
    subst h1
    exact ⟨⟨[], by simp, by simp⟩, rfl, rfl, rfl, rfl, rfl, rfl⟩
  · rw [if_neg hz] at h1
    simp only [Option.bind_eq_some, Option.some.injEq] at h1
    obtain ⟨sc, -, mw, -, mh, -, rfl⟩ := h1
    have h0 : routine_step s ({ s with scale := sc } : State) :=
      ⟨⟨[], by simp, by simp⟩, rfl, rfl, rfl, rfl, rfl, rfl⟩
    exact routine_step_trans (routine_step_trans (routine_step_trans h0
      (routine_step_modifyWindow _ _)) (routine_step_logSDL _ (by simp [Action.is_routine])))
      (routine_step_logSDL _ (by simp [Action.is_routine]))

theorem routine_resize_presentation_texture (s : State) (lw lh : Int) :
    routine_step s (resize_presentation_texture s lw lh).1 := by
  unfold resize_presentation_texture
  by_cases h1 : s.SDL.texture.isSome ∧ lw = s.screen_width ∧ lh = s.screen_height
  · rw [if_pos h1]
    exact routine_step_refl s
  · rw [if_neg h1]
    dsimp only
    have hA : routine_step s (if s.SDL.texture.isSome then destroy_screen_texture s else s) :=
      routine_step_ite (routine_destroy_screen_texture s) (routine_step_refl s)
    generalize (if s.SDL.texture.isSome then destroy_screen_texture s else s) = s2 at hA
    have hB := routine_SDL_RenderSetLogicalSize s2 lw lh
    generalize SDL_RenderSetLogicalSize s2 lw lh = s3 at hB
    have hC := routine_setting_set_display s3 (setting_fullscreen s3) lw lh
    generalize setting_set_display s3 (setting_fullscreen s3) lw lh = s4 at hC
    have hD := routine_SDL_CreateTexture s4 lw lh
    generalize SDL_CreateTexture s4 lw lh = s5 at hD
    have h5 := routine_step_trans hA (routine_step_trans hB (routine_step_trans hC hD))
    by_cases h2 : s5.SDL.texture.isSome
    · rw [if_pos h2]
      exact routine_step_trans h5 (routine_screen_set_resolution s5 lw lh)
    · rw [if_neg h2]
      exact h5

theorem routine_platform_screen_resize {s s' : State} {w h ret : Int}
    (h1 : platform_screen_resize s w h = some (s', ret)) : routine_step s s' := by
  unfold platform_screen_resize at h1
  simp only [Option.bind_eq_bind, bind, Option.bind_eq_some, pure, Option.some.injEq] at h1
  obtain ⟨size, -, h2⟩ := h1
  have := routine_resize_presentation_texture { s with scale := size.1 } size.2.1 size.2.2
  rw [h2] at this
  have h0 : routine_step s ({ s with scale := size.1 } : State) :=
    ⟨⟨[], by simp, by simp⟩, rfl, rfl, rfl, rfl, rfl, rfl⟩
  exact routine_step_trans h0 this

theorem routine_platform_screen_recreate_texture {s s' : State}
    (h : platform_screen_recreate_texture s = some s') : routine_step s s' := by
  unfold platform_screen_recreate_texture at h
  split_ifs at h
  · simp only [Option.bind_eq_bind, bind, Option.bind_eq_some, pure, Option.some.injEq] at h
    obtain ⟨w, -, hh, -, rfl⟩ := h
    exact routine_step_trans (routine_screen_set_resolution s w hh) (routine_SDL_CreateTexture _ _ _)
  · simp only [pure, Option.some.injEq] at h
    subst h
    exact routine_step_refl s

theorem routine_platform_screen_set_fullscreen {s s' : State}
    (h : platform_screen_set_fullscreen s = some s') : routine_step s s' := by
  unfold platform_screen_set_fullscreen at h
  simp only [Option.bind_eq_bind, bind, Option.bind_eq_some] at h
  obtain ⟨win, -, h⟩ := h
  have h1 := routine_SDL_GetWindowPosition s
  generalize SDL_GetWindowPosition s = s1 at h h1
  have h2 := routine_SDL_SetWindowFullscreen s1 true
  rcases hfs : SDL_SetWindowFullscreen s1 true with ⟨ok, s2⟩
  rw [hfs] at h h2
  simp only at h h2
  cases ok with
  | false =>
    simp only [Bool.not_false, if_true, pure, Option.some.injEq] at h
    subst h
    exact routine_step_trans h1 h2
  | true =>
    simp only [Bool.not_true, Bool.false_eq_true, if_false, pure, Option.some.injEq] at h
    subst h
    refine routine_step_trans h1 (routine_step_trans h2 (routine_step_trans ?_
      (routine_step_trans (routine_SDL_SetWindowGrab _ true)
        (routine_setting_set_display _ _ _ _))))
    exact routine_step_logSDL _ (by simp [Action.is_routine])

theorem routine_grab_release (s : State) :
    routine_step s (if SDL_GetWindowGrab s then SDL_SetWindowGrab s false else s) :=
  routine_step_ite (routine_SDL_SetWindowGrab s false) (routine_step_refl s)

theorem routine_center_if (s : State) :
    routine_step s (if s.window_pos.centered ≠ 0 then platform_screen_center_window s else s) :=
  routine_step_ite (routine_platform_screen_center_window s) (routine_step_refl s)

theorem routine_platform_screen_set_windowed {p : Platform} {s s' : State}
    (h : platform_screen_set_windowed p s = some s') : routine_step s s' := by
  unfold platform_screen_set_windowed at h
  by_cases hfo : system_is_fullscreen_only p = true
  · rw [if_pos hfo] at h
    simp only [pure, Option.some.injEq] at h
    subst h
    exact routine_step_refl s
  · rw [if_neg hfo] at h
    simp only [Option.bind_eq_bind, bind, Option.bind_eq_some, pure, Option.some.injEq] at h
    obtain ⟨pw, -, ph, -, rfl⟩ := h
    refine routine_step_trans ?_ (routine_setting_set_display _ _ _ _)
    refine routine_step_trans ?_ (routine_grab_release _)
    refine routine_step_trans ?_ (routine_center_if _)
    refine routine_step_trans ?_ (routine_SDL_SetWindowSize _ _ _)
    exact routine_SDL_SetWindowFullscreen s false

theorem routine_platform_screen_set_window_size {p : Platform} {s s' : State} {w h : Int}
    (h1 : platform_screen_set_window_size p s w h = some s') : routine_step s s' := by
  unfold platform_screen_set_window_size at h1
  by_cases hfo : system_is_fullscreen_only p = true
  · rw [if_pos hfo] at h1
    simp only [pure, Option.some.injEq] at h1
    subst h1
    exact routine_step_refl s
  · rw [if_neg hfo] at h1
    simp only [Option.bind_eq_bind, bind, Option.bind_eq_some, pure, Option.some.injEq] at h1
    obtain ⟨pw, -, ph, -, rfl⟩ := h1
    refine routine_step_trans ?_ (routine_setting_set_display _ _ _ _)
    refine routine_step_trans ?_ (routine_grab_release _)
    refine routine_step_trans ?_ (routine_center_if _)
    refine routine_step_trans ?_ (routine_SDL_SetWindowSize _ _ _)
    refine routine_step_trans ?_ (routine_step_ite (routine_SDL_RestoreWindow _)
      (routine_step_refl _))
    exact routine_step_ite (routine_SDL_SetWindowFullscreen s false)
      (routine_SDL_GetWindowPosition s)

theorem routine_system_scale_display {p : Platform} {s s' : State} {r e : Int}
    (h : system_scale_display p s r = some (s', e)) : routine_step s s' := by
  unfold system_scale_display at h
  simp only [Option.bind_eq_bind, bind, Option.bind_eq_some, pure, Option.some.injEq,
    Prod.mk.injEq] at h
  obtain ⟨size, -, s1, h1, ⟨s2, ret⟩, h2, rfl, -⟩ := h
  exact routine_step_trans (routine_set_scale_percentage h1) (routine_platform_screen_resize h2)

/-! ## Commands posted to the event queue -/

/-- C15. `system_exit`, `system_resize`, `system_center` and `system_set_fullscreen` only
queue one command event each (quit; resize, pointing at the two slots that now hold the
size; centre; fullscreen for a non-zero argument, else windowed): handles, tracked window
position, scale, settings, logical resolution and the loop flags stay as they are, and the
only call made is the `SDL_PushEvent`.  The quit flag is set, and the function of `screen.c`
is called, by `handle_event` when it is given that event. -/
theorem commands_are_deferred (p : Platform) (s : State) (w h f : Int) :
    only_queues s (system_exit s) (Event.user USER_EVENT_QUIT none none) ∧
    (only_queues s (system_resize s w h) resize_command ∧
      (system_resize s w h).s_width = w ∧ (system_resize s w h).s_height = h) ∧
    only_queues s (system_center s) (Event.user USER_EVENT_CENTER_WINDOW none none) ∧
    only_queues s (system_set_fullscreen s f)
      (Event.user (if f ≠ 0 then USER_EVENT_FULLSCREEN else USER_EVENT_WINDOWED) none none) ∧
    handle_event p s (Event.user USER_EVENT_QUIT none none) =
      some { s with data := { s.data with quit := 1 } } ∧
    handle_event p s resize_command =
      platform_screen_set_window_size p
        (s.log (Action.platform_screen_set_window_size s.s_width s.s_height))
        s.s_width s.s_height ∧
    handle_event p s (Event.user USER_EVENT_CENTER_WINDOW none none) =
      some (platform_screen_center_window (s.log Action.platform_screen_center_window)) ∧
    handle_event p s (Event.user USER_EVENT_FULLSCREEN none none) =
      platform_screen_set_fullscreen (s.log Action.platform_screen_set_fullscreen) ∧
    handle_event p s (Event.user USER_EVENT_WINDOWED none none) =
      platform_screen_set_windowed p (s.log Action.platform_screen_set_windowed) := by
  refine ⟨⟨rfl, rfl, rfl, rfl, rfl, rfl, rfl, rfl, rfl⟩,
    ⟨⟨rfl, rfl, rfl, rfl, rfl, rfl, rfl, rfl, rfl⟩, rfl, rfl⟩,
    ⟨rfl, rfl, rfl, rfl, rfl, rfl, rfl, rfl, rfl⟩,
    ⟨rfl, rfl, rfl, rfl, rfl, rfl, rfl, rfl, rfl⟩, rfl, rfl, rfl, rfl, rfl⟩

/-! ## Event dispatch -/

/-! ### What `handle_event` leaves alone -/

theorem is_other_dispatch_of_routine (a : Action) (h : a.is_routine = true) :
    a.is_other_dispatch = true := by
  cases a <;> first | exact h | simp [Action.is_routine] at h

theorem dispatch_step_refl (s : State) : dispatch_step s s :=
  ⟨appends_only_refl _ s, rfl, rfl, rfl⟩

theorem dispatch_step_trans {s1 s2 s3 : State} (h1 : dispatch_step s1 s2)
    (h2 : dispatch_step s2 s3) : dispatch_step s1 s3 :=
  ⟨appends_only_trans h1.1 h2.1, h2.2.1.trans h1.2.1, h2.2.2.1.trans h1.2.2.1,
    h2.2.2.2.trans h1.2.2.2⟩

theorem dispatch_step_of_routine {s s' : State} (h : routine_step s s') : dispatch_step s s' :=
  ⟨appends_only_mono is_other_dispatch_of_routine h.1, h.2.2.2.2.1, h.2.2.2.2.2.1, h.2.2.2.1⟩

theorem dispatch_step_log (s : State) {a : Action} (ha : a.is_other_dispatch = true) :
    dispatch_step s (s.log a) :=
  ⟨appends_only_log s ha, rfl, rfl, rfl⟩

theorem dispatch_step_input (s : State) (c : InputCall) :
    dispatch_step s (s.log (Action.input c)) :=
  dispatch_step_log s (by simp [Action.is_other_dispatch])

theorem dispatch_step_ite {c : Prop} [Decidable c] {s a b : State}
    (ha : dispatch_step s a) (hb : dispatch_step s b) :
    dispatch_step s (if c then a else b) := by
  split_ifs
  · exact ha
  · exact hb

theorem dispatch_handle_mouse_button (s : State) (l r : Bool) (x y : Int) (d : Bool) :
    dispatch_step s (handle_mouse_button s l r x y d) := by
  unfold handle_mouse_button
  dsimp only
  have h1 : dispatch_step s
      (if (!s.env.relative_mouse_mode) = true then
        s.log (Action.input (InputCall.mouse_set_position x y)) else s) :=
    dispatch_step_ite (dispatch_step_input s _) (dispatch_step_refl s)
  generalize (if (!s.env.relative_mouse_mode) = true then
        s.log (Action.input (InputCall.mouse_set_position x y)) else s) = s1 at h1
  exact dispatch_step_trans h1 (dispatch_step_ite (dispatch_step_input _ _)
    (dispatch_step_ite (dispatch_step_input _ _) (dispatch_step_refl _)))

/-- The flags after `handle_window_event`, and what else it does. -/
theorem handle_window_event_effect {p : Platform} {s s' : State} {e : WindowEventID}
    {d1 d2 : Int} (h : handle_window_event p s e d1 d2 = some s') :
    appends_only Action.is_other_dispatch s s' ∧ s'.s_width = s.s_width ∧
      s'.s_height = s.s_height ∧ s'.data.quit = s.data.quit ∧
      s'.data.active =
        (if e = WindowEventID.shown then 1 else if e = WindowEventID.hidden then 0
          else s.data.active) := by
  have key : ∀ {t : State}, dispatch_step s t → e ≠ WindowEventID.shown →
      e ≠ WindowEventID.hidden → appends_only Action.is_other_dispatch s t ∧
      t.s_width = s.s_width ∧ t.s_height = s.s_height ∧ t.data.quit = s.data.quit ∧
      t.data.active = (if e = WindowEventID.shown then 1 else if e = WindowEventID.hidden then 0
          else s.data.active) := by
    intro t ht h1 h2
    rw [if_neg h1, if_neg h2]
    exact ⟨ht.1, ht.2.1, ht.2.2.1, by rw [ht.2.2.2], by rw [ht.2.2.2]⟩
  cases e <;> simp only [handle_window_event, Option.some.injEq] at h
  case enter => subst h; exact key (dispatch_step_input s _) (by decide) (by decide)
  case leave => subst h; exact key (dispatch_step_input s _) (by decide) (by decide)
  case focus_lost => subst h; exact key (dispatch_step_input s _) (by decide) (by decide)
  case focus_gained => subst h; exact key (dispatch_step_input s _) (by decide) (by decide)
  case size_changed =>
    cases h2 : platform_screen_resize (s.log (Action.platform_screen_resize d1 d2)) d1 d2 with
    | none => rw [h2] at h; simp at h
    | some r =>
    rw [h2] at h
    simp only [Option.map_some', Option.some.injEq] at h
    subst h
    obtain ⟨s2, ret⟩ := r
    exact key (dispatch_step_trans (dispatch_step_log s (by simp [Action.is_other_dispatch]))
      (dispatch_step_of_routine (routine_platform_screen_resize h2))) (by decide) (by decide)
  case resized => subst h; exact key (dispatch_step_refl s) (by decide) (by decide)
  case moved =>
    subst h
    exact key (dispatch_step_trans (dispatch_step_log s (by simp [Action.is_other_dispatch]))
      (dispatch_step_of_routine (routine_platform_screen_move _ _ _))) (by decide) (by decide)
  case shown =>
    subst h
    have h1 : dispatch_step s
        (if p.file_cache = true then
          s.log (Action.input InputCall.platform_file_manager_cache_invalidate) else s) :=
      dispatch_step_ite (dispatch_step_input s _) (dispatch_step_refl s)
    generalize (if p.file_cache = true then
          s.log (Action.input InputCall.platform_file_manager_cache_invalidate) else s) = s1
      at h1
    refine ⟨?_, h1.2.1, h1.2.2.1, ?_, by simp⟩
    · obtain ⟨added, e1, e2⟩ := h1.1
      exact ⟨added, e1, e2⟩
    · show s1.data.quit = s.data.quit
      rw [h1.2.2.2]
  case hidden =>
    subst h
    exact ⟨⟨[], by simp, by simp⟩, rfl, rfl, rfl, by simp⟩
  case other => subst h; exact key (dispatch_step_refl s) (by decide) (by decide)

/-- What `handle_event` does to the loop flags and to the slots of `system_resize`, and which
calls it makes for an event that is no resize command. -/
theorem handle_event_effect {p : Platform} {s s' : State} {e : Event}
    (h : handle_event p s e = some s') :
    s'.s_width = s.s_width ∧ s'.s_height = s.s_height ∧
      s'.data.active =
        (if e.is_window_shown then 1 else if e.is_window_hidden then 0 else s.data.active) ∧
      s'.data.quit = (if e.is_quit_request then 1 else s.data.quit) ∧
      (e.has_resize_code = false → appends_only Action.is_other_dispatch s s') := by
  have key : ∀ {t : State}, dispatch_step s t → e.is_window_shown = false →
      e.is_window_hidden = false → e.is_quit_request = false →
      t.s_width = s.s_width ∧ t.s_height = s.s_height ∧
      t.data.active =
        (if e.is_window_shown then 1 else if e.is_window_hidden then 0 else s.data.active) ∧
      t.data.quit = (if e.is_quit_request then 1 else s.data.quit) ∧
      (e.has_resize_code = false → appends_only Action.is_other_dispatch s t) := by
    intro t ht h1 h2 h3
    rw [h1, h2, h3]
    simp only [Bool.false_eq_true, if_false]
    exact ⟨ht.2.1, ht.2.2.1, by rw [ht.2.2.2], by rw [ht.2.2.2], fun _ => ht.1⟩
  cases e <;> simp only [handle_event, Option.some.injEq] at h
  case window e d1 d2 =>
    obtain ⟨h1, h2, h3, h4, h5⟩ := handle_window_event_effect h
    refine ⟨h2, h3, ?_, ?_, fun _ => h1⟩
    · rw [h5]
      cases e <;> simp [Event.is_window_shown, Event.is_window_hidden]
    · rw [h4]
      simp [Event.is_quit_request]
  case key_down => subst h; exact key (dispatch_step_input s _) rfl rfl rfl
  case key_up => subst h; exact key (dispatch_step_input s _) rfl rfl rfl
  case text_input => subst h; exact key (dispatch_step_input s _) rfl rfl rfl
  case mouse_motion t x y =>
    split_ifs at h <;> simp only [Option.some.injEq] at h <;> subst h
    · exact key (dispatch_step_input s _) rfl rfl rfl
    · exact key (dispatch_step_refl s) rfl rfl rfl
  case mouse_button_down t l r x y =>
    split_ifs at h <;> simp only [Option.some.injEq] at h <;> subst h
    · exact key (dispatch_handle_mouse_button s l r x y true) rfl rfl rfl
    · exact key (dispatch_step_refl s) rfl rfl rfl
  case mouse_button_up t l r x y =>
    split_ifs at h <;> simp only [Option.some.injEq] at h <;> subst h
    · exact key (dispatch_handle_mouse_button s l r x y false) rfl rfl rfl
    · exact key (dispatch_step_refl s) rfl rfl rfl
  case mouse_wheel t y =>
    by_cases ht : (!t) = true
    · rw [if_pos ht] at h
      simp only [Option.some.injEq] at h
      subst h
      exact key (dispatch_step_input s _) rfl rfl rfl
    · rw [if_neg ht] at h
      simp only [Option.some.injEq] at h
      subst h
      exact key (dispatch_step_refl s) rfl rfl rfl
  case finger_down => subst h; exact key (dispatch_step_input s _) rfl rfl rfl
  case finger_motion => subst h; exact key (dispatch_step_input s _) rfl rfl rfl
  case finger_up => subst h; exact key (dispatch_step_input s _) rfl rfl rfl
  case joy_axis_motion => subst h; exact key (dispatch_step_input s _) rfl rfl rfl
  case joy_ball_motion => subst h; exact key (dispatch_step_input s _) rfl rfl rfl
  case joy_hat_motion => subst h; exact key (dispatch_step_input s _) rfl rfl rfl
  case joy_button_down => subst h; exact key (dispatch_step_input s _) rfl rfl rfl
  case joy_button_up => subst h; exact key (dispatch_step_input s _) rfl rfl rfl
  case joy_device_added => subst h; exact key (dispatch_step_input s _) rfl rfl rfl
  case joy_device_removed => subst h; exact key (dispatch_step_input s _) rfl rfl rfl
  case quit =>
    subst h
    exact ⟨rfl, rfl, rfl, rfl, fun _ => ⟨[], by simp, by simp⟩⟩
  case user code d1 d2 =>
    by_cases h0 : code = USER_EVENT_QUIT
    · rw [if_pos h0] at h
      simp only [Option.some.injEq] at h
      subst h
      refine ⟨rfl, rfl, rfl, ?_, fun _ => ⟨[], by simp, by simp⟩⟩
      simp [Event.is_quit_request, h0]
    rw [if_neg h0] at h
    have hq : (Event.user code d1 d2).is_quit_request = false := by
      simp [Event.is_quit_request, h0]
    by_cases h1 : code = USER_EVENT_RESIZE
    · rw [if_pos h1] at h
      simp only [Option.bind_eq_bind, bind, Option.bind_eq_some] at h
      obtain ⟨w, -, hh, -, h⟩ := h
      have hr := routine_platform_screen_set_window_size h
      refine ⟨hr.2.2.2.2.1, hr.2.2.2.2.2.1, ?_, ?_, ?_⟩
      · rw [hr.2.2.2.1]; rfl
      · rw [hr.2.2.2.1, hq]; rfl
      · intro hc
        simp [Event.has_resize_code, h1] at hc
    rw [if_neg h1] at h
    by_cases h2 : code = USER_EVENT_FULLSCREEN
    · rw [if_pos h2] at h
      exact key (dispatch_step_trans
        (dispatch_step_log s (by simp [Action.is_other_dispatch]))
        (dispatch_step_of_routine (routine_platform_screen_set_fullscreen h))) rfl rfl hq
    rw [if_neg h2] at h
    by_cases h3 : code = USER_EVENT_WINDOWED
    · rw [if_pos h3] at h
      exact key (dispatch_step_trans
        (dispatch_step_log s (by simp [Action.is_other_dispatch]))
        (dispatch_step_of_routine (routine_platform_screen_set_windowed h))) rfl rfl hq
    rw [if_neg h3] at h
    by_cases h4 : code = USER_EVENT_CENTER_WINDOW
    · rw [if_pos h4] at h
      simp only [Option.some.injEq] at h
      subst h
      exact key (dispatch_step_trans
        (dispatch_step_log s (by simp [Action.is_other_dispatch]))
        (dispatch_step_of_routine (routine_platform_screen_center_window _))) rfl rfl hq
    rw [if_neg h4] at h
    simp only [Option.some.injEq] at h
    subst h
    exact key (dispatch_step_refl s) rfl rfl hq
  case other => subst h; exact key (dispatch_step_refl s) rfl rfl rfl

/-- C16. Whatever the event and the state, after `handle_event` the flag `active` is 1 for a
window-shown notification, 0 for a window-hidden notification and unchanged otherwise; the
flag `quit` is 1 for `SDL_QUIT` and for the internal quit command and unchanged otherwise, so
that a quit flag that is set stays set.  For these flag-changing events `handle_event` always
returns. -/
theorem handle_event_flags (p : Platform) (s : State) (e : Event) :
    (∀ s', handle_event p s e = some s' →
      s'.data.active =
        (if e.is_window_shown then 1 else if e.is_window_hidden then 0 else s.data.active) ∧
      s'.data.quit = (if e.is_quit_request then 1 else s.data.quit) ∧
      (s.data.quit ≠ 0 → s'.data.quit ≠ 0)) ∧
    (e.is_window_shown = true ∨ e.is_window_hidden = true ∨ e.is_quit_request = true →
      ∃ s', handle_event p s e = some s') := by
  constructor
  · intro s' h
    obtain ⟨-, -, h3, h4, -⟩ := handle_event_effect h
    refine ⟨h3, h4, ?_⟩
    intro hq
    rw [h4]
    split_ifs
    · decide
    · exact hq
  · intro h
    cases e <;> simp [Event.is_window_shown, Event.is_window_hidden, Event.is_quit_request] at h
    case window e d1 d2 =>
      cases e <;> simp [Event.is_window_shown, Event.is_window_hidden] at h
      · exact ⟨_, rfl⟩
      · exact ⟨_, rfl⟩
    case quit => exact ⟨_, rfl⟩
    case user code d1 d2 =>
      subst h
      exact ⟨_, rfl⟩

/-! ## Resize commands -/

theorem not_set_window_size_of_routine (a : Action) (h : a.is_routine = true) :
    a.is_set_window_size_call = false := by
  cases a <;> first | rfl | simp [Action.is_routine] at h

theorem not_set_window_size_of_other_dispatch (a : Action)
    (h : a.is_other_dispatch = true) : a.is_set_window_size_call = false := by
  cases a <;> first | rfl | simp [Action.is_other_dispatch, Action.is_routine] at h

/-- Dispatching the event queued by `system_resize` calls `platform_screen_set_window_size`
once, with what the two slots hold at that moment. -/
theorem handle_resize_command {p : Platform} {s s' : State}
    (h : handle_event p s resize_command = some s') :
    s'.trace.filter Action.is_set_window_size_call =
      s.trace.filter Action.is_set_window_size_call ++
        [Action.platform_screen_set_window_size s.s_width s.s_height] := by
  have h1 : platform_screen_set_window_size p
      (s.log (Action.platform_screen_set_window_size s.s_width s.s_height))
      s.s_width s.s_height = some s' := h
  have h2 := filter_of_appends_only not_set_window_size_of_routine
    (routine_platform_screen_set_window_size h1).1
  rw [h2]
  simp [State.log, List.filter_append, Action.is_set_window_size_call]

/-- Draining a queue whose resize events all come from `system_resize`: each of them calls
`platform_screen_set_window_size` with the content of the two slots, which no dispatch
changes. -/
theorem drain_resize_commands (p : Platform) (q : List Event) :
    ∀ {s s' : State}, (∀ e ∈ q, e.has_resize_code = true → e = resize_command) →
      process_event_queue p q s = some s' →
      s'.trace.filter Action.is_set_window_size_call =
        s.trace.filter Action.is_set_window_size_call ++
          List.replicate (q.countP Event.has_resize_code)
            (Action.platform_screen_set_window_size s.s_width s.s_height) ∧
      s'.s_width = s.s_width ∧ s'.s_height = s.s_height := by
  induction q with
  | nil =>
    intro s s' _ h
    simp only [process_event_queue, Option.some.injEq] at h
    subst h
    simp
  | cons e rest ih =>
    intro s s' hq h
    simp only [process_event_queue] at h
    cases h1 : handle_event p { s with queue := rest } e with
    | none => rw [h1] at h; simp at h
    | some s1 =>
      rw [h1] at h
      obtain ⟨e1, e2, e3⟩ := ih (fun e he => hq e (List.mem_cons_of_mem _ he)) h
      obtain ⟨w1, w2, -, -, w5⟩ := handle_event_effect h1
      have hw : s1.s_width = s.s_width := w1
      have hh : s1.s_height = s.s_height := w2
      refine ⟨?_, e2.trans hw, e3.trans hh⟩
      rw [e1, hw, hh]
      rw [List.countP_cons]
      cases hc : e.has_resize_code with
      | false =>
        have h3 := filter_of_appends_only not_set_window_size_of_other_dispatch (w5 hc)
        rw [h3]
        simp
      | true =>
        have he := hq e (List.mem_cons_self _ _) hc
        subst he
        have h3 := handle_resize_command h1
        rw [h3]
        simp only [if_true, List.replicate_succ, List.append_assoc, List.singleton_append]

/-- C19. `system_resize` stores the size in two shared slots and queues an event that points
at them, so after `system_resize(w1, h1)` and `system_resize(w2, h2)` the queue ends in two
resize events, and draining it calls `platform_screen_set_window_size` with `(w2, h2)` for
both of them, and for every resize event that was queued before as well: the calls made
while the queue is drained are as many as the queue has resize events, all with `(w2, h2)`. -/
theorem last_resize_request_wins (p : Platform) (s0 s' : State) (w1 h1 w2 h2 : Int)
    (hq : ∀ e ∈ s0.queue, e.has_resize_code = true → e = resize_command)
    (h : process_event_queue p (system_resize (system_resize s0 w1 h1) w2 h2).queue
      (system_resize (system_resize s0 w1 h1) w2 h2) = some s') :
    (system_resize (system_resize s0 w1 h1) w2 h2).queue =
        s0.queue ++ [resize_command, resize_command] ∧
      s'.trace.filter Action.is_set_window_size_call =
        s0.trace.filter Action.is_set_window_size_call ++
          List.replicate (s0.queue.countP Event.has_resize_code + 2)
            (Action.platform_screen_set_window_size w2 h2) := by
  have hqueue : (system_resize (system_resize s0 w1 h1) w2 h2).queue =
      s0.queue ++ [resize_command, resize_command] := by
    simp [system_resize, SDL_PushEvent, State.logSDL, State.log, resize_command]
  refine ⟨hqueue, ?_⟩
  rw [hqueue] at h
  have hq2 : ∀ e ∈ s0.queue ++ [resize_command, resize_command],
      e.has_resize_code = true → e = resize_command := by
    intro e he hc
    rcases List.mem_append.1 he with h1 | h1
    · exact hq e h1 hc
    · simp only [List.mem_cons, List.mem_singleton, List.not_mem_nil, or_false, or_self] at h1
      exact h1
  obtain ⟨e1, -, -⟩ := drain_resize_commands p _ hq2 h
  rw [e1]
  have ht : (system_resize (system_resize s0 w1 h1) w2 h2).trace.filter
      Action.is_set_window_size_call = s0.trace.filter Action.is_set_window_size_call := by
    simp [system_resize, SDL_PushEvent, State.logSDL, State.log, List.filter_append,
      Action.is_set_window_size_call]
  rw [ht]
  have hc : (s0.queue ++ [resize_command, resize_command]).countP Event.has_resize_code =
      s0.queue.countP Event.has_resize_code + 2 := by
    rw [List.countP_append]
    rfl
  rw [hc]
  rfl

/-! ## Windows and renderers alive -/

/-! ### Windows and renderers are created and destroyed in turn -/

theorem live_at_end_nil (c d : Action → Bool) : live_at_end c d [] false := by
  refine ⟨?_, by simp⟩
  intro pre hpre
  rw [List.prefix_nil] at hpre
  subst hpre
  simp

/-- One more call keeps the account, when it is of the right kind: any other call, a
creation while nothing is alive, or a destruction of what is alive. -/
theorem live_at_end_concat {c d : Action → Bool} {tr : List Action} {a : Action} {b b' : Bool}
    (h : live_at_end c d tr b)
    (hstep : (c a = false ∧ d a = false ∧ b' = b) ∨
      (c a = true ∧ d a = false ∧ b = false ∧ b' = true) ∨
      (c a = false ∧ d a = true ∧ b = true ∧ b' = false)) :
    live_at_end c d (tr ++ [a]) b' := by
  obtain ⟨h1, h2⟩ := h
  have hcount : (tr ++ [a]).countP c = (tr ++ [a]).countP d + (if b' then 1 else 0) := by
    rw [List.countP_append, List.countP_append, h2]
    rcases hstep with ⟨e1, e2, e3⟩ | ⟨e1, e2, e3, e4⟩ | ⟨e1, e2, e3, e4⟩
    · subst e3
      simp [List.countP_cons, e1, e2]
    · subst e3 e4
      simp [List.countP_cons, e1, e2]
    · subst e3 e4
      simp [List.countP_cons, e1, e2]
  refine ⟨?_, hcount⟩
  intro pre hpre
  rcases List.prefix_concat_iff.1 hpre with h3 | h3
  · subst h3
    rw [hcount]
    cases b' <;> simp
  · exact h1 pre h3

/-- Calls that neither create nor destroy keep the account. -/
theorem live_at_end_append {c d : Action → Bool} {b : Bool} (added : List Action) :
    ∀ {tr : List Action}, live_at_end c d tr b →
      (∀ a ∈ added, c a = false ∧ d a = false) → live_at_end c d (tr ++ added) b := by
  induction added with
  | nil => intro tr h _; simpa using h
  | cons a rest ih =>
    intro tr h hq
    have h1 := live_at_end_concat h (Or.inl ⟨(hq a (List.mem_cons_self _ _)).1,
      (hq a (List.mem_cons_self _ _)).2, rfl⟩)
    have h2 := ih h1 (fun x hx => hq x (List.mem_cons_of_mem _ hx))
    rw [List.append_assoc] at h2
    exact h2

theorem routine_not_lifecycle (a : Action) (h : a.is_routine = true) :
    (a.window_created = false ∧ a.window_destroyed = false) ∧
      (a.renderer_created = false ∧ a.renderer_destroyed = false) := by
  cases a
  case sdl call =>
    cases call <;> first
      | exact ⟨⟨rfl, rfl⟩, rfl, rfl⟩
      | simp [Action.is_routine] at h
  all_goals exact ⟨⟨rfl, rfl⟩, rfl, rfl⟩

/-- A routine step keeps the account of windows and renderers. -/
theorem surface_invariant_routine {s s' : State} (h : routine_step s s')
    (hinv : surface_invariant s) : surface_invariant s' := by
  obtain ⟨⟨added, e, hq⟩, hw, hr, -⟩ := h
  unfold surface_invariant
  rw [e, hw, hr]
  exact ⟨live_at_end_append added hinv.1 (fun a ha => (routine_not_lifecycle a (hq a ha)).1),
    live_at_end_append added hinv.2 (fun a ha => (routine_not_lifecycle a (hq a ha)).2)⟩

/-- One call that changes a handle the way the call says keeps the account. -/
theorem surface_invariant_step {s s' : State} {a : Action} (ht : s'.trace = s.trace ++ [a])
    (hinv : surface_invariant s)
    (hw : (a.window_created = false ∧ a.window_destroyed = false ∧
        s'.SDL.window.isSome = s.SDL.window.isSome) ∨
      (a.window_created = true ∧ a.window_destroyed = false ∧ s.SDL.window.isSome = false ∧
        s'.SDL.window.isSome = true) ∨
      (a.window_created = false ∧ a.window_destroyed = true ∧ s.SDL.window.isSome = true ∧
        s'.SDL.window.isSome = false))
    (hr : (a.renderer_created = false ∧ a.renderer_destroyed = false ∧
        s'.SDL.renderer.isSome = s.SDL.renderer.isSome) ∨
      (a.renderer_created = true ∧ a.renderer_destroyed = false ∧
        s.SDL.renderer.isSome = false ∧ s'.SDL.renderer.isSome = true) ∨
      (a.renderer_created = false ∧ a.renderer_destroyed = true ∧
        s.SDL.renderer.isSome = true ∧ s'.SDL.renderer.isSome = false)) :
    surface_invariant s' := by
  unfold surface_invariant
  rw [ht]
  exact ⟨live_at_end_concat hinv.1 hw, live_at_end_concat hinv.2 hr⟩

theorem surface_invariant_destroy (s : State) (hinv : surface_invariant s) :
    surface_invariant (platform_screen_destroy s) := by
  unfold platform_screen_destroy
  have h1 : surface_invariant (if s.SDL.texture.isSome then destroy_screen_texture s else s) :=
    surface_invariant_routine
      (routine_step_ite (routine_destroy_screen_texture s) (routine_step_refl s)) hinv
  generalize (if s.SDL.texture.isSome then destroy_screen_texture s else s) = s1 at h1
  dsimp only
  have h2 : surface_invariant (if s1.SDL.renderer.isSome then
        ({ s1 with SDL := { s1.SDL with renderer := none } }).logSDL SDLCall.SDL_DestroyRenderer
      else s1) := by
    by_cases hr : s1.SDL.renderer.isSome = true
    · rw [if_pos hr]
      exact @surface_invariant_step s1 _ _ rfl h1 (Or.inl ⟨rfl, rfl, rfl⟩)
        (Or.inr (Or.inr ⟨rfl, rfl, hr, rfl⟩))
    · rw [if_neg hr]
      exact h1
  generalize (if s1.SDL.renderer.isSome then
        ({ s1 with SDL := { s1.SDL with renderer := none } }).logSDL SDLCall.SDL_DestroyRenderer
      else s1) = s2 at h2
  by_cases hw : s2.SDL.window.isSome = true
  · rw [if_pos hw]
    exact @surface_invariant_step s2 _ _ rfl h2 (Or.inr (Or.inr ⟨rfl, rfl, hw, rfl⟩))
      (Or.inl ⟨rfl, rfl, rfl⟩)
  · rw [if_neg hw]
    exact h2

theorem surface_invariant_SDL_CreateWindow (s : State) (d w h : Int) (f : Bool)
    (hinv : surface_invariant s) (hnone : s.SDL.window = none) :
    surface_invariant (SDL_CreateWindow s d w h f) ∧
      (SDL_CreateWindow s d w h f).SDL.renderer = s.SDL.renderer := by
  refine ⟨?_, rfl⟩
  have hn : s.SDL.window.isSome = false := by rw [hnone]; rfl
  cases hok : s.env.answers s.asked with
  | false =>
    refine @surface_invariant_step s _ (Action.sdl (SDLCall.SDL_CreateWindow w h f false)) ?_ hinv
      (Or.inl ⟨rfl, rfl, ?_⟩) (Or.inl ⟨rfl, rfl, rfl⟩)
    · simp [SDL_CreateWindow, State.ask, State.logSDL, State.log, hok]
    · simp [SDL_CreateWindow, State.ask, State.logSDL, State.log, hok, hn]
  | true =>
    refine @surface_invariant_step s _ (Action.sdl (SDLCall.SDL_CreateWindow w h f true)) ?_ hinv
      (Or.inr (Or.inl ⟨rfl, rfl, hn, ?_⟩)) (Or.inl ⟨rfl, rfl, rfl⟩)
    · simp [SDL_CreateWindow, State.ask, State.logSDL, State.log, hok]
    · simp [SDL_CreateWindow, State.ask, State.logSDL, State.log, hok]

theorem surface_invariant_SDL_CreateRenderer (s : State) (sw : Bool)
    (hinv : surface_invariant s) (hnone : s.SDL.renderer.isNone = true) :
    surface_invariant (SDL_CreateRenderer s sw) := by
  have hn : s.SDL.renderer.isSome = false := by
    cases hr : s.SDL.renderer with
    | none => rfl
    | some r => rw [hr] at hnone; simp at hnone
  cases hok : s.env.answers s.asked with
  | false =>
    refine @surface_invariant_step s _ (Action.sdl (SDLCall.SDL_CreateRenderer sw false)) ?_ hinv
      (Or.inl ⟨rfl, rfl, rfl⟩) (Or.inl ⟨rfl, rfl, ?_⟩)
    · simp [SDL_CreateRenderer, State.ask, State.logSDL, State.log, hok]
    · simp [SDL_CreateRenderer, State.ask, State.logSDL, State.log, hok, hn]
  | true =>
    refine @surface_invariant_step s _ (Action.sdl (SDLCall.SDL_CreateRenderer sw true)) ?_ hinv
      (Or.inl ⟨rfl, rfl, rfl⟩) (Or.inr (Or.inl ⟨rfl, rfl, hn, ?_⟩))
    · simp [SDL_CreateRenderer, State.ask, State.logSDL, State.log, hok]
    · simp [SDL_CreateRenderer, State.ask, State.logSDL, State.log, hok]

theorem surface_invariant_create {p : Platform} {s s' : State} {d i ret : Int}
    (hinv : surface_invariant s) (h : platform_screen_create p s d i = some (s', ret)) :
    surface_invariant s' := by
  unfold platform_screen_create at h
  dsimp only at h
  obtain ⟨s1, hs1, h⟩ := Option.bind_eq_some.1 h
  obtain ⟨size, -, h⟩ := Option.bind_eq_some.1 h
  have h0 : routine_step s
      (if p.android = true then
        { s with scale := { s.scale with screen_density := s.env.android_screen_density } }
      else s) :=
    routine_step_ite ⟨⟨[], by simp, by simp⟩, rfl, rfl, rfl, rfl, rfl, rfl⟩ (routine_step_refl s)
  have h1 := surface_invariant_routine
    (routine_step_trans h0 (routine_set_scale_percentage hs1)) hinv
  clear hs1 h0
  have h2 := surface_invariant_destroy s1 h1
  have h2n := platform_screen_destroy_handles s1
  generalize platform_screen_destroy s1 = s2 at h h2 h2n
  have hwn : s2.SDL.window = none := by rw [h2n]
  have hrn : s2.SDL.renderer = none := by rw [h2n]
  obtain ⟨h3, h3r⟩ := surface_invariant_SDL_CreateWindow s2
    (if i < 0 ∨ i ≥ s2.env.num_displays then 0 else i) size.1 size.2
    (decide ((if system_is_fullscreen_only p = true then 1 else setting_fullscreen s1) ≠ 0))
    h2 hwn
  rw [hrn] at h3r
  generalize SDL_CreateWindow s2
    (if i < 0 ∨ i ≥ s2.env.num_displays then 0 else i) size.1 size.2
    (decide ((if system_is_fullscreen_only p = true then 1 else setting_fullscreen s1) ≠ 0)) = s3
    at h h3 h3r
  by_cases hw : s3.SDL.window.isNone = true
  · rw [if_pos hw] at h
    simp only [pure, Option.some.injEq, Prod.mk.injEq] at h
    rw [← h.1]
    exact h3
  rw [if_neg hw] at h
  obtain ⟨size2, -, h⟩ := Option.bind_eq_some.1 h
  have h4 := surface_invariant_SDL_CreateRenderer s3 false h3 (by rw [h3r]; rfl)
  have h5 : surface_invariant
      (if (SDL_CreateRenderer s3 false).SDL.renderer.isNone = true then
        SDL_CreateRenderer (SDL_CreateRenderer s3 false) true
      else SDL_CreateRenderer s3 false) := by
    by_cases hr : (SDL_CreateRenderer s3 false).SDL.renderer.isNone = true
    · rw [if_pos hr]
      exact surface_invariant_SDL_CreateRenderer _ true h4 hr
    · rw [if_neg hr]
      exact h4
  generalize (if (SDL_CreateRenderer s3 false).SDL.renderer.isNone = true then
        SDL_CreateRenderer (SDL_CreateRenderer s3 false) true
      else SDL_CreateRenderer s3 false) = s5 at h h5
  by_cases hr : s5.SDL.renderer.isNone = true
  · rw [if_pos hr] at h
    simp only [pure, Option.some.injEq, Prod.mk.injEq] at h
    rw [← h.1]
    exact h5
  rw [if_neg hr] at h
  obtain ⟨s7, hs7, h⟩ := Option.bind_eq_some.1 h
  have h6 : routine_step s5
      (if (if system_is_fullscreen_only p = true then 1 else setting_fullscreen s1) ≠ 0 then
        SDL_SetWindowGrab s5 true else s5) :=
    routine_step_ite (routine_SDL_SetWindowGrab _ _) (routine_step_refl _)
  exact surface_invariant_routine (routine_step_trans h6
    (routine_step_trans (routine_set_scale_percentage hs7) (routine_platform_screen_resize h))) h5

theorem surface_invariant_run {p : Platform} {s s' : State} (c : SurfaceCall)
    (hinv : surface_invariant s) (h : c.run p s = some s') : surface_invariant s' := by
  cases c <;> simp only [SurfaceCall.run, Option.map_eq_some', Option.some.injEq] at h
  case create d i =>
    obtain ⟨⟨t, ret⟩, h1, rfl⟩ := h
    exact surface_invariant_create hinv h1
  case resize w hh =>
    obtain ⟨⟨t, ret⟩, h1, rfl⟩ := h
    exact surface_invariant_routine (routine_platform_screen_resize h1) hinv
  case destroy => subst h; exact surface_invariant_destroy s hinv
  case scale_display r =>
    obtain ⟨⟨t, ret⟩, h1, rfl⟩ := h
    exact surface_invariant_routine (routine_system_scale_display h1) hinv
  case move x y => subst h; exact surface_invariant_routine (routine_platform_screen_move _ _ _) hinv
  case set_fullscreen =>
    exact surface_invariant_routine (routine_platform_screen_set_fullscreen h) hinv
  case set_windowed =>
    exact surface_invariant_routine (routine_platform_screen_set_windowed h) hinv
  case set_window_size w hh =>
    exact surface_invariant_routine (routine_platform_screen_set_window_size h) hinv
  case center_window =>
    subst h
    exact surface_invariant_routine (routine_platform_screen_center_window _) hinv
  case recreate_texture =>
    exact surface_invariant_routine (routine_platform_screen_recreate_texture h) hinv

theorem surface_invariant_run_calls {p : Platform} (calls : List SurfaceCall) :
    ∀ {s s' : State}, surface_invariant s → run_surface_calls p calls s = some s' →
      surface_invariant s' := by
  induction calls with
  | nil =>
    intro s s' hinv h
    simp only [run_surface_calls, Option.some.injEq] at h
    subst h
    exact hinv
  | cons c rest ih =>
    intro s s' hinv h
    simp only [run_surface_calls] at h
    cases h1 : c.run p s with
    | none => rw [h1] at h; simp at h
    | some s1 =>
      rw [h1] at h
      exact ih (surface_invariant_run c hinv h1) h

/-- C13. Starting without a surface and with an empty trace, after any sequence of calls of
`platform_screen_create`, `platform_screen_resize`, `platform_screen_destroy`,
`system_scale_display` and the mode functions, whatever the outcome of each creation attempt:
at every moment of the trace the windows created and not yet destroyed number zero or one,
and so do the renderers; in particular the windows created are at most one more than the
windows destroyed, one more exactly when `SDL.window` is not null, and likewise for the
renderers. -/
theorem at_most_one_window_and_renderer (p : Platform) (calls : List SurfaceCall)
    (s s' : State) (hempty : s.SDL = ⟨none, none, none⟩) (htrace : s.trace = [])
    (h : run_surface_calls p calls s = some s') :
    (at_most_one_live Action.window_created Action.window_destroyed s'.trace ∧
      s'.trace.countP Action.window_created =
        s'.trace.countP Action.window_destroyed + (if s'.SDL.window.isSome then 1 else 0)) ∧
    (at_most_one_live Action.renderer_created Action.renderer_destroyed s'.trace ∧
      s'.trace.countP Action.renderer_created =
        s'.trace.countP Action.renderer_destroyed +
          (if s'.SDL.renderer.isSome then 1 else 0)) := by
  have h0 : surface_invariant s := by
    unfold surface_invariant
    rw [htrace, hempty]
    exact ⟨live_at_end_nil _ _, live_at_end_nil _ _⟩
  exact surface_invariant_run_calls calls h0 h

/-! ## Creation attempts -/

/-! ### The creation attempts of `platform_screen_create` -/

theorem attempt_free_set_scale_percentage {p : Platform} {s s' : State} {n w h : Int}
    (h1 : set_scale_percentage p s n w h = some s') :
    appends_no Action.is_creation_attempt s s' ∧ s'.SDL.texture = s.SDL.texture ∧
      s'.asked = s.asked ∧ s'.env = s.env := by
  unfold set_scale_percentage at h1
  simp only [Option.bind_eq_bind, bind, pure] at h1
  by_cases hz : w = 0 ∨ h = 0
  · rw [if_pos hz] at h1
    simp only [Option.some.injEq] at h1
    subst h1
    exact ⟨appends_no_of_trace_eq rfl, rfl, rfl, rfl⟩
  · rw [if_neg hz] at h1
    simp only [Option.bind_eq_some, Option.some.injEq] at h1
    obtain ⟨sc, -, mw, -, mh, -, rfl⟩ := h1
    refine ⟨?_, rfl, rfl, rfl⟩
    refine appends_no_trans (appends_no_trans (?_ : appends_no Action.is_creation_attempt s
      (({ s with scale := sc } : State).modifyWindow
        fun win => { win with min_w := mw, min_h := mh })) (appends_no_logSDL _ ?_))
      (appends_no_logSDL _ ?_)
    · exact appends_no_of_trace_eq rfl
    · simp [Action.is_creation_attempt]
    · simp [Action.is_creation_attempt]

theorem attempt_free_destroy (s : State) :
    appends_no Action.is_creation_attempt s (platform_screen_destroy s) ∧
      (platform_screen_destroy s).asked = s.asked ∧ (platform_screen_destroy s).env = s.env := by
  unfold platform_screen_destroy
  have h1 : appends_no Action.is_creation_attempt s
      (if s.SDL.texture.isSome then destroy_screen_texture s else s) ∧
      (if s.SDL.texture.isSome then destroy_screen_texture s else s).asked = s.asked ∧
      (if s.SDL.texture.isSome then destroy_screen_texture s else s).env = s.env := by
    split_ifs
    · exact ⟨⟨[_], rfl, by simp [Action.is_creation_attempt]⟩, rfl, rfl⟩
    · exact ⟨appends_no_refl _ s, rfl, rfl⟩
  generalize (if s.SDL.texture.isSome then destroy_screen_texture s else s) = s1 at h1
  dsimp only
  have h2 : appends_no Action.is_creation_attempt s1
      (if s1.SDL.renderer.isSome then
        ({ s1 with SDL := { s1.SDL with renderer := none } }).logSDL SDLCall.SDL_DestroyRenderer
      else s1) ∧
      (if s1.SDL.renderer.isSome then
        ({ s1 with SDL := { s1.SDL with renderer := none } }).logSDL SDLCall.SDL_DestroyRenderer
      else s1).asked = s1.asked ∧
      (if s1.SDL.renderer.isSome then
        ({ s1 with SDL := { s1.SDL with renderer := none } }).logSDL SDLCall.SDL_DestroyRenderer
      else s1).env = s1.env := by
    split_ifs
    · exact ⟨⟨[_], rfl, by simp [Action.is_creation_attempt]⟩, rfl, rfl⟩
    · exact ⟨appends_no_refl _ s1, rfl, rfl⟩
  generalize (if s1.SDL.renderer.isSome then
        ({ s1 with SDL := { s1.SDL with renderer := none } }).logSDL SDLCall.SDL_DestroyRenderer
      else s1) = s2 at h2
  split_ifs
  · exact ⟨appends_no_trans h1.1 (appends_no_trans h2.1
      ⟨[_], rfl, by simp [Action.is_creation_attempt]⟩), h2.2.1.trans h1.2.1,
      h2.2.2.trans h1.2.2⟩
  · exact ⟨appends_no_trans h1.1 h2.1, h2.2.1.trans h1.2.1, h2.2.2.trans h1.2.2⟩

theorem attempt_free_grab (s : State) (g : Bool) :
    appends_no Action.is_creation_attempt s (SDL_SetWindowGrab s g) ∧
      (SDL_SetWindowGrab s g).SDL.texture = s.SDL.texture ∧
      (SDL_SetWindowGrab s g).SDL.renderer = s.SDL.renderer :=
  ⟨⟨[_], rfl, by simp [Action.is_creation_attempt]⟩, rfl, rfl⟩

/-- `SDL_CreateWindow` is one attempt, and the window is null afterwards exactly when the
attempt failed. -/
theorem SDL_CreateWindow_attempt (s : State) (d w h : Int) (f : Bool) :
    (SDL_CreateWindow s d w h f).trace =
        s.trace ++ [Action.sdl (SDLCall.SDL_CreateWindow w h f (s.env.answers s.asked))] ∧
      (SDL_CreateWindow s d w h f).SDL.window.isNone = !(s.env.answers s.asked) ∧
      (SDL_CreateWindow s d w h f).SDL.texture = s.SDL.texture ∧
      (SDL_CreateWindow s d w h f).asked = s.asked + 1 ∧
      (SDL_CreateWindow s d w h f).env = s.env := by
  refine ⟨rfl, ?_, rfl, rfl, rfl⟩
  cases hok : s.env.answers s.asked <;>
    simp [SDL_CreateWindow, State.ask, State.logSDL, State.log, hok]

/-- `SDL_CreateRenderer` is one attempt, and the renderer is null afterwards exactly when the
attempt failed. -/
theorem SDL_CreateRenderer_attempt (s : State) (sw : Bool) :
    (SDL_CreateRenderer s sw).trace =
        s.trace ++ [Action.sdl (SDLCall.SDL_CreateRenderer sw (s.env.answers s.asked))] ∧
      (SDL_CreateRenderer s sw).SDL.renderer.isNone = !(s.env.answers s.asked) ∧
      (SDL_CreateRenderer s sw).SDL.texture = s.SDL.texture ∧
      (SDL_CreateRenderer s sw).asked = s.asked + 1 ∧
      (SDL_CreateRenderer s sw).env = s.env := by
  refine ⟨rfl, ?_, rfl, rfl, rfl⟩
  cases hok : s.env.answers s.asked <;>
    simp [SDL_CreateRenderer, State.ask, State.logSDL, State.log, hok]

/-- Without a presentation texture, `platform_screen_resize` makes one attempt to create
one, and returns 1 exactly when it succeeded. -/
theorem resize_attempt {s s' : State} {w h ret : Int}
    (h1 : platform_screen_resize s w h = some (s', ret)) (hnone : s.SDL.texture = none) :
    ∃ lw lh ok, s'.trace.filter Action.is_creation_attempt =
        s.trace.filter Action.is_creation_attempt ++
          [Action.sdl (SDLCall.SDL_CreateTexture lw lh ok)] ∧
      ret = (if ok then 1 else 0) := by
  unfold platform_screen_resize at h1
  simp only [Option.bind_eq_bind, bind, Option.bind_eq_some, pure, Option.some.injEq] at h1
  obtain ⟨⟨sc, lw, lh⟩, -, h2⟩ := h1
  unfold resize_presentation_texture at h2
  simp only [hnone, Option.isSome_none, Bool.false_eq_true, false_and, if_false] at h2
  cases hr : s.SDL.renderer with
  | none =>
    refine ⟨lw, lh, false, ?_, ?_⟩
    · simp only [SDL_CreateTexture, SDL_RenderSetLogicalSize, setting_set_display, State.logSDL,
        State.log, hr, Option.map_none', Option.isSome_none, Bool.false_eq_true, if_false,
        Prod.mk.injEq] at h2
      rw [← h2.1]
      simp [List.filter_append, Action.is_creation_attempt]
    · simp only [SDL_CreateTexture, SDL_RenderSetLogicalSize, setting_set_display, State.logSDL,
        State.log, hr, Option.map_none', Option.isSome_none, Bool.false_eq_true, if_false,
        Prod.mk.injEq] at h2
      simp [← h2.2]
  | some r =>
    refine ⟨lw, lh, s.env.answers s.asked, ?_, ?_⟩
    · cases hok : s.env.answers s.asked <;>
        simp only [SDL_CreateTexture, SDL_RenderSetLogicalSize, setting_set_display,
          screen_set_resolution, State.logSDL, State.ask,
          State.log, hr, hok, Option.map_some', Option.isSome_none, Option.isSome_some,
          Bool.false_eq_true, if_false, if_true, Prod.mk.injEq] at h2 <;>
        rw [← h2.1] <;>
        simp [List.filter_append, Action.is_creation_attempt]
    · cases hok : s.env.answers s.asked <;>
        simp only [SDL_CreateTexture, SDL_RenderSetLogicalSize, setting_set_display,
          screen_set_resolution, State.logSDL, State.ask,
          State.log, hr, hok, Option.map_some', Option.isSome_none, Option.isSome_some,
          Bool.false_eq_true, if_false, if_true, Prod.mk.injEq] at h2 <;>
        simp [← h2.2]

theorem ite_texture_none {c : Prop} [Decidable c] {a b : State}
    (ha : a.SDL.texture = none) (hb : b.SDL.texture = none) :
    (if c then a else b).SDL.texture = none := by
  split_ifs
  · exact ha
  · exact hb

/-- C11. The creation attempts that `platform_screen_create` makes, in their order, and its
result: the window alone when the window fails (result 0, no renderer attempted); the window
and both renderers when both renderers fail (result 0, no texture attempted); otherwise the
window, the accelerated renderer, the software renderer only when the accelerated one failed
and then once, and the texture of the final `platform_screen_resize`, whose result is the
result.  So the result is 1 exactly when a window, a renderer and the texture were created. -/
theorem create_succeeds_iff (p : Platform) (s s' : State) (d i ret : Int)
    (h : platform_screen_create p s d i = some (s', ret)) :
    ∃ attempts : List Action,
      s'.trace.filter Action.is_creation_attempt =
        s.trace.filter Action.is_creation_attempt ++ attempts ∧
      (∃ w h f,
        (attempts = [Action.sdl (SDLCall.SDL_CreateWindow w h f false)] ∧ ret = 0) ∨
        (attempts = [Action.sdl (SDLCall.SDL_CreateWindow w h f true),
            Action.sdl (SDLCall.SDL_CreateRenderer false false),
            Action.sdl (SDLCall.SDL_CreateRenderer true false)] ∧ ret = 0) ∨
        (∃ lw lh ok s7 pw ph,
          attempts = [Action.sdl (SDLCall.SDL_CreateWindow w h f true),
            Action.sdl (SDLCall.SDL_CreateRenderer false true),
            Action.sdl (SDLCall.SDL_CreateTexture lw lh ok)] ∧
          ret = (if ok then 1 else 0) ∧ platform_screen_resize s7 pw ph = some (s', ret)) ∨
        (∃ lw lh ok s7 pw ph,
          attempts = [Action.sdl (SDLCall.SDL_CreateWindow w h f true),
            Action.sdl (SDLCall.SDL_CreateRenderer false false),
            Action.sdl (SDLCall.SDL_CreateRenderer true true),
            Action.sdl (SDLCall.SDL_CreateTexture lw lh ok)] ∧
          ret = (if ok then 1 else 0) ∧ platform_screen_resize s7 pw ph = some (s', ret))) ∧
      (ret = 1 ↔ (∃ a ∈ attempts, a.window_created = true) ∧
        (∃ a ∈ attempts, a.renderer_created = true) ∧
        (∃ a ∈ attempts, a.texture_created = true)) := by
  have main : ∃ attempts : List Action,
      s'.trace.filter Action.is_creation_attempt =
        s.trace.filter Action.is_creation_attempt ++ attempts ∧
      (∃ w h f,
        (attempts = [Action.sdl (SDLCall.SDL_CreateWindow w h f false)] ∧ ret = 0) ∨
        (attempts = [Action.sdl (SDLCall.SDL_CreateWindow w h f true),
            Action.sdl (SDLCall.SDL_CreateRenderer false false),
            Action.sdl (SDLCall.SDL_CreateRenderer true false)] ∧ ret = 0) ∨
        (∃ lw lh ok s7 pw ph,
          attempts = [Action.sdl (SDLCall.SDL_CreateWindow w h f true),
            Action.sdl (SDLCall.SDL_CreateRenderer false true),
            Action.sdl (SDLCall.SDL_CreateTexture lw lh ok)] ∧
          ret = (if ok then 1 else 0) ∧ platform_screen_resize s7 pw ph = some (s', ret)) ∨
        (∃ lw lh ok s7 pw ph,
          attempts = [Action.sdl (SDLCall.SDL_CreateWindow w h f true),
            Action.sdl (SDLCall.SDL_CreateRenderer false false),
            Action.sdl (SDLCall.SDL_CreateRenderer true true),
            Action.sdl (SDLCall.SDL_CreateTexture lw lh ok)] ∧
          ret = (if ok then 1 else 0) ∧ platform_screen_resize s7 pw ph = some (s', ret))) := by
    unfold platform_screen_create at h
    dsimp only at h
    obtain ⟨s1, hs1, h⟩ := Option.bind_eq_some.1 h
    obtain ⟨size, -, h⟩ := Option.bind_eq_some.1 h
    have h0 : appends_no Action.is_creation_attempt s
        (if p.android = true then
          { s with scale := { s.scale with screen_density := s.env.android_screen_density } }
        else s) := quiet_ite (appends_no_of_trace_eq rfl) (appends_no_refl _ s)
    have f1 := filter_of_appends_no
      (appends_no_trans h0 (attempt_free_set_scale_percentage hs1).1)
    clear hs1 h0
    have f2 := filter_of_appends_no (attempt_free_destroy s1).1
    have h2n := platform_screen_destroy_handles s1
    generalize platform_screen_destroy s1 = s2 at h f2 h2n
    have ht2 : s2.SDL.texture = none := by rw [h2n]
    obtain ⟨w3, n3, t3, -, -⟩ := SDL_CreateWindow_attempt s2
      (if i < 0 ∨ i ≥ s2.env.num_displays then 0 else i) size.1 size.2
      (decide ((if system_is_fullscreen_only p = true then 1 else setting_fullscreen s1) ≠ 0))
    rw [ht2] at t3
    generalize SDL_CreateWindow s2
      (if i < 0 ∨ i ≥ s2.env.num_displays then 0 else i) size.1 size.2
      (decide ((if system_is_fullscreen_only p = true then 1 else setting_fullscreen s1) ≠ 0))
      = s3 at h w3 n3 t3
    generalize s2.env.answers s2.asked = ok0 at w3 n3
    have f3 : s3.trace.filter Action.is_creation_attempt =
        s.trace.filter Action.is_creation_attempt ++
          [Action.sdl (SDLCall.SDL_CreateWindow size.1 size.2
            (decide ((if system_is_fullscreen_only p = true then 1
              else setting_fullscreen s1) ≠ 0)) ok0)] := by
      rw [w3, List.filter_append, f2, f1]
      simp [Action.is_creation_attempt]
    have key : ∀ attempts : List Action, ∀ rest,
        s'.trace.filter Action.is_creation_attempt =
          s3.trace.filter Action.is_creation_attempt ++ rest →
        attempts = Action.sdl (SDLCall.SDL_CreateWindow size.1 size.2
            (decide ((if system_is_fullscreen_only p = true then 1
              else setting_fullscreen s1) ≠ 0)) ok0) :: rest →
        s'.trace.filter Action.is_creation_attempt =
          s.trace.filter Action.is_creation_attempt ++ attempts := by
      intro attempts rest e1 e2
      rw [e1, f3, e2, List.append_assoc]
      rfl
    by_cases hw : s3.SDL.window.isNone = true
    · rw [if_pos hw] at h
      simp only [pure, Option.some.injEq, Prod.mk.injEq] at h
      have hok : ok0 = false := by
        rw [hw] at n3
        cases ok0 <;> simp at n3 ⊢
      subst hok
      refine ⟨_, key _ [] (by rw [← h.1]; simp) rfl, _, _, _, Or.inl ⟨rfl, h.2.symm⟩⟩
    rw [if_neg hw] at h
    have hok : ok0 = true := by
      cases ok0
      · rw [n3] at hw; simp at hw
      · rfl
    subst hok
    obtain ⟨size2, -, h⟩ := Option.bind_eq_some.1 h
    obtain ⟨w4, n4, t4, -, -⟩ := SDL_CreateRenderer_attempt s3 false
    rw [t3] at t4
    generalize s3.env.answers s3.asked = ok1 at w4 n4
    cases ok1 with
    | true =>
      have hn4 : ¬ ((SDL_CreateRenderer s3 false).SDL.renderer.isNone = true) := by
        rw [n4]; simp
      rw [if_neg hn4, if_neg hn4] at h
      obtain ⟨s7, hs7, h⟩ := Option.bind_eq_some.1 h
      have g1 := attempt_free_grab (SDL_CreateRenderer s3 false) true
      have h6 : appends_no Action.is_creation_attempt (SDL_CreateRenderer s3 false)
          (if (if system_is_fullscreen_only p = true then 1 else setting_fullscreen s1) ≠ 0 then
            SDL_SetWindowGrab (SDL_CreateRenderer s3 false) true
            else SDL_CreateRenderer s3 false) :=
        quiet_ite g1.1 (appends_no_refl _ _)
      have t6 : (if (if system_is_fullscreen_only p = true then 1
            else setting_fullscreen s1) ≠ 0 then
            SDL_SetWindowGrab (SDL_CreateRenderer s3 false) true
            else SDL_CreateRenderer s3 false).SDL.texture = none := by
        exact ite_texture_none (by rw [g1.2.1, t4]) t4
      generalize (if (if system_is_fullscreen_only p = true then 1
            else setting_fullscreen s1) ≠ 0 then
            SDL_SetWindowGrab (SDL_CreateRenderer s3 false) true
            else SDL_CreateRenderer s3 false) = s6 at hs7 h6 t6
      obtain ⟨a7, t7, -, -⟩ := attempt_free_set_scale_percentage hs7
      rw [t6] at t7
      obtain ⟨lw, lh, ok, e, hret⟩ := resize_attempt h t7
      refine ⟨_, key _ [Action.sdl (SDLCall.SDL_CreateRenderer false true),
        Action.sdl (SDLCall.SDL_CreateTexture lw lh ok)] ?_ rfl, _, _, _,
        Or.inr (Or.inr (Or.inl ⟨lw, lh, ok, s7, _, _, rfl, hret, h⟩))⟩
      rw [e, filter_of_appends_no a7, filter_of_appends_no h6, w4, List.filter_append]
      simp [Action.is_creation_attempt]
    | false =>
      have hn4 : (SDL_CreateRenderer s3 false).SDL.renderer.isNone = true := by
        rw [n4]; rfl
      rw [if_pos hn4] at h
      obtain ⟨w5, n5, t5, -, -⟩ := SDL_CreateRenderer_attempt (SDL_CreateRenderer s3 false) true
      rw [t4] at t5
      rw [w4] at w5
      generalize (SDL_CreateRenderer s3 false).env.answers (SDL_CreateRenderer s3 false).asked
        = ok2 at w5 n5
      generalize SDL_CreateRenderer (SDL_CreateRenderer s3 false) true = s5 at h w5 n5 t5
      cases ok2 with
      | false =>
        have hn5 : s5.SDL.renderer.isNone = true := by rw [n5]; rfl
        rw [if_pos hn5] at h
        simp only [pure, Option.some.injEq, Prod.mk.injEq] at h
        refine ⟨_, key _ [Action.sdl (SDLCall.SDL_CreateRenderer false false),
          Action.sdl (SDLCall.SDL_CreateRenderer true false)] ?_ rfl, _, _, _,
          Or.inr (Or.inl ⟨rfl, h.2.symm⟩)⟩
        rw [← h.1, w5]
        simp [List.filter_append, Action.is_creation_attempt]
      | true =>
        have hn5 : ¬ (s5.SDL.renderer.isNone = true) := by rw [n5]; simp
        rw [if_neg hn5] at h
        obtain ⟨s7, hs7, h⟩ := Option.bind_eq_some.1 h
        have g1 := attempt_free_grab s5 true
        have h6 : appends_no Action.is_creation_attempt s5
            (if (if system_is_fullscreen_only p = true then 1
              else setting_fullscreen s1) ≠ 0 then SDL_SetWindowGrab s5 true else s5) :=
          quiet_ite g1.1 (appends_no_refl _ _)
        have t6 : (if (if system_is_fullscreen_only p = true then 1
              else setting_fullscreen s1) ≠ 0 then SDL_SetWindowGrab s5 true
              else s5).SDL.texture = none := by
          exact ite_texture_none (by rw [g1.2.1, t5]) t5
        generalize (if (if system_is_fullscreen_only p = true then 1
              else setting_fullscreen s1) ≠ 0 then SDL_SetWindowGrab s5 true else s5) = s6
          at hs7 h6 t6
        obtain ⟨a7, t7, -, -⟩ := attempt_free_set_scale_percentage hs7
        rw [t6] at t7
        obtain ⟨lw, lh, ok, e, hret⟩ := resize_attempt h t7
        refine ⟨_, key _ [Action.sdl (SDLCall.SDL_CreateRenderer false false),
          Action.sdl (SDLCall.SDL_CreateRenderer true true),
          Action.sdl (SDLCall.SDL_CreateTexture lw lh ok)] ?_ rfl, _, _, _,
          Or.inr (Or.inr (Or.inr ⟨lw, lh, ok, s7, _, _, rfl, hret, h⟩))⟩
        rw [e, filter_of_appends_no a7, filter_of_appends_no h6, w5, List.filter_append,
          List.filter_append]
        simp [Action.is_creation_attempt]
  obtain ⟨attempts, e, w, hh, f, hcases⟩ := main
  refine ⟨attempts, e, ⟨w, hh, f, hcases⟩, ?_⟩
  rcases hcases with ⟨rfl, rfl⟩ | ⟨rfl, rfl⟩ | ⟨lw, lh, ok, s7, pw, ph, rfl, rfl, -⟩ |
    ⟨lw, lh, ok, s7, pw, ph, rfl, rfl, -⟩
  · simp [Action.window_created, Action.renderer_created, Action.texture_created]
  · simp [Action.window_created, Action.renderer_created, Action.texture_created]
  · cases ok <;> simp [Action.window_created, Action.renderer_created, Action.texture_created]
  · cases ok <;> simp [Action.window_created, Action.renderer_created, Action.texture_created]

/-! ## Stages of `setup` -/

/-! ### The stages of `setup` -/

theorem not_stage_of_routine (a : Action) (h : a.is_routine = true) :
    a.is_setup_stage = false := by
  cases a
  case sdl call => cases call <;> first | rfl | simp [Action.is_routine] at h
  all_goals first | rfl | simp [Action.is_routine] at h

theorem stage_free_of_routine {s s' : State} (h : routine_step s s') :
    appends_no Action.is_setup_stage s s' := by
  obtain ⟨added, e, hq⟩ := h.1
  exact ⟨added, e, fun a ha => not_stage_of_routine a (hq a ha)⟩

theorem stage_free_destroy (s : State) :
    appends_no Action.is_setup_stage s (platform_screen_destroy s) := by
  unfold platform_screen_destroy
  have h1 : appends_no Action.is_setup_stage s
      (if s.SDL.texture.isSome then destroy_screen_texture s else s) :=
    quiet_ite ⟨[_], rfl, by simp [Action.is_setup_stage]⟩ (appends_no_refl _ s)
  generalize (if s.SDL.texture.isSome then destroy_screen_texture s else s) = s1 at h1
  dsimp only
  have h2 : appends_no Action.is_setup_stage s1
      (if s1.SDL.renderer.isSome then
        ({ s1 with SDL := { s1.SDL with renderer := none } }).logSDL SDLCall.SDL_DestroyRenderer
      else s1) :=
    quiet_ite ⟨[_], rfl, by simp [Action.is_setup_stage]⟩ (appends_no_refl _ s1)
  generalize (if s1.SDL.renderer.isSome then
        ({ s1 with SDL := { s1.SDL with renderer := none } }).logSDL SDLCall.SDL_DestroyRenderer
      else s1) = s2 at h2
  exact appends_no_trans h1 (appends_no_trans h2
    (quiet_ite ⟨[_], rfl, by simp [Action.is_setup_stage]⟩ (appends_no_refl _ s2)))

/-- `platform_screen_create` is one stage of `setup`: it contains no other. -/
theorem stage_free_create {p : Platform} {s s' : State} {d i ret : Int}
    (h : platform_screen_create p s d i = some (s', ret)) :
    appends_no Action.is_setup_stage s s' := by
  unfold platform_screen_create at h
  dsimp only at h
  obtain ⟨s1, hs1, h⟩ := Option.bind_eq_some.1 h
  obtain ⟨size, -, h⟩ := Option.bind_eq_some.1 h
  have h0 : appends_no Action.is_setup_stage s
      (if p.android = true then
        { s with scale := { s.scale with screen_density := s.env.android_screen_density } }
      else s) := quiet_ite (appends_no_of_trace_eq rfl) (appends_no_refl _ s)
  have h1 := appends_no_trans h0 (stage_free_of_routine (routine_set_scale_percentage hs1))
  clear hs1 h0
  have h2 := stage_free_destroy s1
  generalize platform_screen_destroy s1 = s2 at h h2
  have h3 : appends_no Action.is_setup_stage s2 (SDL_CreateWindow s2
      (if i < 0 ∨ i ≥ s2.env.num_displays then 0 else i) size.1 size.2
      (decide ((if system_is_fullscreen_only p = true then 1 else setting_fullscreen s1) ≠ 0))) :=
    ⟨[_], rfl, by simp [Action.is_setup_stage]⟩
  generalize SDL_CreateWindow s2
    (if i < 0 ∨ i ≥ s2.env.num_displays then 0 else i) size.1 size.2
    (decide ((if system_is_fullscreen_only p = true then 1 else setting_fullscreen s1) ≠ 0)) = s3
    at h h3
  have h13 := appends_no_trans h1 (appends_no_trans h2 h3)
  clear h1 h2 h3
  by_cases hw : s3.SDL.window.isNone = true
  · rw [if_pos hw] at h
    simp only [pure, Option.some.injEq, Prod.mk.injEq] at h
    rw [← h.1]
    exact h13
  rw [if_neg hw] at h
  obtain ⟨size2, -, h⟩ := Option.bind_eq_some.1 h
  have hr : ∀ (t : State) (sw : Bool),
      appends_no Action.is_setup_stage t (SDL_CreateRenderer t sw) :=
    fun t sw => ⟨[_], rfl, by simp [Action.is_setup_stage]⟩
  have h4 : appends_no Action.is_setup_stage s3
      (if (SDL_CreateRenderer s3 false).SDL.renderer.isNone = true then
        SDL_CreateRenderer (SDL_CreateRenderer s3 false) true
      else SDL_CreateRenderer s3 false) :=
    quiet_ite (appends_no_trans (hr _ _) (hr _ _)) (hr _ _)
  generalize (if (SDL_CreateRenderer s3 false).SDL.renderer.isNone = true then
        SDL_CreateRenderer (SDL_CreateRenderer s3 false) true
      else SDL_CreateRenderer s3 false) = s5 at h h4
  by_cases hr5 : s5.SDL.renderer.isNone = true
  · rw [if_pos hr5] at h
    simp only [pure, Option.some.injEq, Prod.mk.injEq] at h
    rw [← h.1]
    exact appends_no_trans h13 h4
  rw [if_neg hr5] at h
  obtain ⟨s7, hs7, h⟩ := Option.bind_eq_some.1 h
  have h6 : appends_no Action.is_setup_stage s5
      (if (if system_is_fullscreen_only p = true then 1 else setting_fullscreen s1) ≠ 0 then
        SDL_SetWindowGrab s5 true else s5) :=
    quiet_ite (stage_free_of_routine (routine_SDL_SetWindowGrab _ _)) (appends_no_refl _ _)
  exact appends_no_trans h13 (appends_no_trans h4 (appends_no_trans h6
    (appends_no_trans (stage_free_of_routine (routine_set_scale_percentage hs7))
      (stage_free_of_routine (routine_platform_screen_resize h)))))

theorem stage_filter_log (s : State) {a : Action} (h : a.is_setup_stage = false) :
    (s.log a).trace.filter Action.is_setup_stage = s.trace.filter Action.is_setup_stage := by
  simp [State.log, List.filter_append, h]

theorem stage_filter_ite {c : Prop} [Decidable c] {s a b : State}
    (ha : a.trace.filter Action.is_setup_stage = s.trace.filter Action.is_setup_stage)
    (hb : b.trace.filter Action.is_setup_stage = s.trace.filter Action.is_setup_stage) :
    (if c then a else b).trace.filter Action.is_setup_stage =
      s.trace.filter Action.is_setup_stage := by
  split_ifs
  · exact ha
  · exact hb

theorem exit_eq {st st' : Int} {f f' : State}
    (h : (throw (Halt.exit st f) : Except Halt State) = Except.error (Halt.exit st' f')) :
    st' = st ∧ f' = f := by
  have h1 : (Except.error (Halt.exit st f) : Except Halt State) =
      Except.error (Halt.exit st' f') := h
  injection h1 with h2
  injection h2 with h3 h4
  exact ⟨h3.symm, h4.symm⟩

theorem not_ok_of_throw {e : Halt} {s' : State}
    (h : (throw e : Except Halt State) = Except.ok s') : False := by
  have h1 : (Except.error e : Except Halt State) = Except.ok s' := h
  cases h1

/-- C12. When `setup` ends in `exit_with_status(status)`, the status is -1, 1, -2 or 2, so
never 0, and it names the stage that failed: the stages recorded since `setup` began are a
failed `SDL_Init` for -1; `SDL_Init` and a failed pre-init for 1; both and the call of
`platform_screen_create`, which returned 0, for -2; and all three and a failed `game_init` for
2.  Every stage before the failing one succeeded and none after it was run.  The four
statuses stand for four different stages, and when `setup` returns instead, every one of the
four stages was run and succeeded. -/
theorem setup_exit_status (p : Platform) (s : State) :
    (∀ status final, setup p s = Except.error (Halt.exit status final) →
      (status = -1 ∨ status = 1 ∨ status = -2 ∨ status = 2) ∧
      final.trace.filter Action.is_setup_stage =
        s.trace.filter Action.is_setup_stage ++ setup_stages_before_exit status ∧
      (status = -2 → ∃ s6 scale display_id,
        platform_screen_create p s6 scale display_id = some (final, 0))) ∧
    (∀ s', setup p s = Except.ok s' →
      s'.trace.filter Action.is_setup_stage =
        s.trace.filter Action.is_setup_stage ++
          [Action.sdl (SDLCall.SDL_Init true), Action.game_pre_init true,
            Action.platform_screen_create, Action.game_init true]) ∧
    List.Pairwise (fun a b => setup_stages_before_exit a ≠ setup_stages_before_exit b)
      [-1, 1, -2, 2] := by
  have key : ∀ r : Except Halt State, setup p s = r →
      (∀ status final, r = Except.error (Halt.exit status final) →
        (status = -1 ∨ status = 1 ∨ status = -2 ∨ status = 2) ∧
        final.trace.filter Action.is_setup_stage =
          s.trace.filter Action.is_setup_stage ++ setup_stages_before_exit status ∧
        (status = -2 → ∃ s6 scale display_id,
          platform_screen_create p s6 scale display_id = some (final, 0))) ∧
      (∀ s', r = Except.ok s' →
        s'.trace.filter Action.is_setup_stage =
          s.trace.filter Action.is_setup_stage ++
            [Action.sdl (SDLCall.SDL_Init true), Action.game_pre_init true,
              Action.platform_screen_create, Action.game_init true]) := by
    unfold setup
    lift_lets
    intro s0
    have f0 : s0.trace.filter Action.is_setup_stage = s.trace.filter Action.is_setup_stage :=
      stage_filter_log s rfl
    have t1 : (init_sdl s0).2.trace = s0.trace ++ [Action.sdl (SDLCall.SDL_Init (init_sdl s0).1)] :=
      rfl
    rcases hi : init_sdl s0 with ⟨ok, s1⟩
    rw [hi] at t1
    dsimp -zeta only at t1 ⊢
    have f1 : s1.trace.filter Action.is_setup_stage =
        s.trace.filter Action.is_setup_stage ++ [Action.sdl (SDLCall.SDL_Init ok)] := by
      rw [t1, List.filter_append, f0]
      rfl
    clear t1 f0 hi
    clear_value s0
    cases ok with
    | false =>
      simp only [Bool.not_false, if_true]
      intro r hr
      subst hr
      refine ⟨fun status final h => ?_, fun s' h => (not_ok_of_throw h).elim⟩
      obtain ⟨rfl, rfl⟩ := exit_eq h
      exact ⟨Or.inl rfl, f1, fun h => absurd h (by decide)⟩
    | true =>
      simp -zeta only [Bool.not_true, Bool.false_eq_true, if_false]
      have t2 : (pre_init s1).2.trace = s1.trace ++ [Action.game_pre_init (pre_init s1).1] := rfl
      rcases hp : pre_init s1 with ⟨ok, s2⟩
      rw [hp] at t2
      dsimp -zeta only at t2 ⊢
      have f2 : s2.trace.filter Action.is_setup_stage =
          s.trace.filter Action.is_setup_stage ++
            [Action.sdl (SDLCall.SDL_Init true), Action.game_pre_init ok] := by
        rw [t2, List.filter_append, f1, List.append_assoc]
        rfl
      clear t2 f1 hp
      cases ok with
      | false =>
        simp only [Bool.not_false, if_true]
        intro r hr
        subst hr
        refine ⟨fun status final h => ?_, fun s' h => (not_ok_of_throw h).elim⟩
        obtain ⟨rfl, rfl⟩ := exit_eq h
        exact ⟨Or.inr (Or.inl rfl), f2, fun h => absurd h (by decide)⟩
      | true =>
        simp -zeta only [Bool.not_true, Bool.false_eq_true, if_false]
        lift_lets
        intro s3 s4 s5 s6
        have f3 : s3.trace.filter Action.is_setup_stage = s2.trace.filter Action.is_setup_stage :=
          stage_filter_ite (stage_filter_log _ rfl) rfl
        have f4 : s4.trace.filter Action.is_setup_stage = s3.trace.filter Action.is_setup_stage :=
          stage_filter_ite (stage_filter_log _ rfl) rfl
        have f5 : s5.trace.filter Action.is_setup_stage = s4.trace.filter Action.is_setup_stage :=
          stage_filter_ite (stage_filter_log _ rfl) rfl
        have f6 : s6.trace.filter Action.is_setup_stage = s5.trace.filter Action.is_setup_stage :=
          stage_filter_ite (stage_filter_log _ rfl) rfl
        have f06 : (s6.log Action.platform_screen_create).trace.filter Action.is_setup_stage =
            s.trace.filter Action.is_setup_stage ++
              [Action.sdl (SDLCall.SDL_Init true), Action.game_pre_init true,
                Action.platform_screen_create] := by
          simp only [State.log, List.filter_append]
          rw [f6, f5, f4, f3, f2, List.append_assoc]
          rfl
        clear_value s3 s4 s5 s6
        clear f2 f3 f4 f5 f6
        cases hc : platform_screen_create p (s6.log Action.platform_screen_create)
            s6.config_display_scale s6.args.display_id with
        | none =>
          intro r hr
          subst hr
          constructor
          · intro status final h
            simp [defined, bind, Except.bind] at h
          · intro s' h
            simp [defined, bind, Except.bind] at h
        | some created =>
          obtain ⟨s7, ret⟩ := created
          have f7 := (filter_of_appends_no (stage_free_create hc)).trans f06
          simp -zeta only [defined, bind, Except.bind]
          by_cases hret : ret = 0
          · simp only [if_pos hret]
            intro r hr
            subst hr
            refine ⟨fun status final h => ?_, fun s' h => (not_ok_of_throw h).elim⟩
            obtain ⟨rfl, rfl⟩ := exit_eq h
            subst hret
            exact ⟨Or.inr (Or.inr (Or.inl rfl)), f7, fun _ => ⟨_, _, _, hc⟩⟩
          · simp -zeta only [if_neg hret]
            lift_lets
            intro s8 s9
            have f9 : s9.trace.filter Action.is_setup_stage =
                s7.trace.filter Action.is_setup_stage :=
              (@stage_filter_log s8 Action.time_set_millis rfl).trans
                (@stage_filter_log s7 (Action.system_init_cursors s7.config_cursor_scale) rfl)
            have t10 : (game_init s9).2.trace = s9.trace ++ [Action.game_init (game_init s9).1] :=
              rfl
            clear_value s8 s9
            rcases hg : game_init s9 with ⟨ok, s10⟩
            rw [hg] at t10
            dsimp -zeta only at t10 ⊢
            cases ok with
            | false =>
              simp only [Bool.not_false, if_true]
              intro r hr
              subst hr
              refine ⟨fun status final h => ?_, fun s' h => (not_ok_of_throw h).elim⟩
              obtain ⟨rfl, rfl⟩ := exit_eq h
              refine ⟨Or.inr (Or.inr (Or.inr rfl)), ?_, fun h => absurd h (by decide)⟩
              rw [t10, List.filter_append, f9, f7, List.append_assoc]
              rfl
            | true =>
              simp only [Bool.not_true, Bool.false_eq_true, if_false]
              intro r hr
              subst hr
              constructor
              · intro status final h
                cases h
              · intro s' h
                have h1 : (Except.ok { s10 with data := { active := 1, quit := 0 } }
                    : Except Halt State) = Except.ok s' := h
                injection h1 with h2
                subst h2
                show s10.trace.filter Action.is_setup_stage = _
                rw [t10, List.filter_append, f9, f7, List.append_assoc]
                rfl
  exact ⟨(key _ rfl).1, (key _ rfl).2, by decide⟩

/-! ## The maximum scale of small windows -/

/-! ### A lower bound for the maximum scale -/

theorem ofMagnitude_false_some {mag : Nat} {f : F32} (h : F32.ofMagnitude false mag = some f) :
    f = ⟨(mag : Int)⟩ := by
  unfold F32.ofMagnitude at h
  by_cases hm : mag < 2 ^ 128 * F32.one
  · rw [if_pos hm] at h
    simp only [Bool.false_eq_true, if_false, Option.some.injEq] at h
    exact h.symm
  · rw [if_neg hm] at h
    simp at h

theorem imul_natCast_some {x : Nat} {p : Int} (h : imul (x : Int) 100 = some p) :
    p = ((x * 100 : Nat) : Int) := by
  unfold imul cint at h
  split_ifs at h
  simp only [Option.some.injEq] at h
  rw [← h]
  push_cast
  ring

/-- Whatever `max_scale_of` returns is at least `c` when the exact quotient is: rounding to
nearest never takes a quotient below a float that it reaches. -/
theorem max_scale_of_lower {scale : Scale} {a q : Nat}
    (hdiv : ∀ u : Nat, F32.div ⟨(u : Int)⟩ scale.screen_density =
      F32.ofMagnitude false (F32.roundUnits (a * u) q))
    (ha : 0 < a) (haq : a ≤ q) {x mn y0 k c : Nat} (hy0 : y0 < 2 ^ 24) (hy0x : y0 ≤ x * 100)
    (hk : k * q ≤ a * y0) (hmn0 : 0 < mn) (hmn : mn < 2 ^ 24) (hc : c * mn ≤ k) {t : Int}
    (h : max_scale_of scale (x : Int) (mn : Int) = some t) : (c : Int) ≤ t := by
  have hq0 : 0 < q := lt_of_lt_of_le ha haq
  have hky0 : k ≤ y0 := by
    have : k * q ≤ y0 * q := le_trans hk (by rw [mul_comm y0 q]; exact Nat.mul_le_mul_right _ haq)
    exact Nat.le_of_mul_le_mul_right this hq0
  have hck : c ≤ k := le_trans (Nat.le_mul_of_pos_right c hmn0) hc
  unfold max_scale_of at h
  simp only [Option.bind_eq_bind, bind, Option.bind_eq_some] at h
  obtain ⟨p, hp, f, hf, r, hr, m, hm, r2, hr2, ht⟩ := h
  have hp' := imul_natCast_some hp
  subst hp'
  rw [ofInt_natCast] at hf
  have hf' := ofMagnitude_false_some hf
  have e1 : x * 100 * F32.one = x * 100 * 2 ^ 149 := by unfold F32.one; rfl
  rw [e1] at hf'
  have b1 : y0 * 2 ^ 149 ≤ F32.roundUnits (x * 100 * 2 ^ 149) 1 := by
    apply roundUnits_ge (by norm_num) hy0
    rw [mul_one]
    exact Nat.mul_le_mul_right _ hy0x
  generalize F32.roundUnits (x * 100 * 2 ^ 149) 1 = R1 at hf' b1
  subst hf'
  rw [hdiv] at hr
  have hr' := ofMagnitude_false_some hr
  have b2 : k * 2 ^ 149 ≤ F32.roundUnits (a * R1) q := by
    apply roundUnits_ge hq0 (lt_of_le_of_lt hky0 hy0)
    calc k * 2 ^ 149 * q = k * q * 2 ^ 149 := by ring
      _ ≤ a * y0 * 2 ^ 149 := Nat.mul_le_mul_right _ hk
      _ = a * (y0 * 2 ^ 149) := by ring
      _ ≤ a * R1 := Nat.mul_le_mul_left _ b1
  generalize F32.roundUnits (a * R1) q = R2 at hr' b2
  subst hr'
  rw [ofInt_exact hmn] at hm
  simp only [Option.some.injEq] at hm
  subst hm
  have hd2 := div_scaled R2 1 mn (2 ^ 149) hmn0 (by positivity) (by unfold F32.one; ring)
  rw [one_mul] at hd2
  rw [hd2] at hr2
  have hr2' := ofMagnitude_false_some hr2
  have b3 : c * 2 ^ 149 ≤ F32.roundUnits R2 mn := by
    apply roundUnits_ge hmn0 (lt_of_le_of_lt (le_trans hck hky0) hy0)
    calc c * 2 ^ 149 * mn = c * mn * 2 ^ 149 := by ring
      _ ≤ k * 2 ^ 149 := Nat.mul_le_mul_right _ hc
      _ ≤ R2 := b2
  generalize F32.roundUnits R2 mn = R3 at hr2' b3
  subst hr2'
  rw [toInt_natCast] at ht
  unfold cint at ht
  split_ifs at ht
  simp only [Option.some.injEq] at ht
  subst ht
  have : c ≤ R3 / F32.one := by
    unfold F32.one
    exact (Nat.le_div_iff_mul_le (by positivity)).2 b3
  exact_mod_cast this

/-- For a size whose hundredfold still converts to `float` within the `int` range,
`max_scale_of` returns, and what it returns is at least `c` when the exact quotient is. -/
theorem max_scale_of_ge {scale : Scale} {a q : Nat}
    (hdiv : ∀ u : Nat, F32.div ⟨(u : Int)⟩ scale.screen_density =
      F32.ofMagnitude false (F32.roundUnits (a * u) q))
    (ha : 0 < a) (haq : a ≤ q) {x mn y0 k c : Nat} (hy0 : y0 < 2 ^ 24) (hy0x : y0 ≤ x * 100)
    (hk : k * q ≤ a * y0) (hmn0 : 0 < mn) (hmn : mn < 2 ^ 24) (hc : c * mn ≤ k)
    (hx : x * 100 ≤ 2147483520) :
    ∃ t : Nat, max_scale_of scale (x : Int) (mn : Int) = some (t : Int) ∧ c ≤ t ∧
      t ≤ 2147483520 := by
  have hq0 : 0 < q := lt_of_lt_of_le ha haq
  have hky0 : k ≤ y0 := by
    have : k * q ≤ y0 * q := le_trans hk (by rw [mul_comm y0 q]; exact Nat.mul_le_mul_right _ haq)
    exact Nat.le_of_mul_le_mul_right this hq0
  have hck : c ≤ k := le_trans (Nat.le_mul_of_pos_right c hmn0) hc
  have hB : (2147483520 : Nat) = (2 ^ 24 - 1) * 2 ^ 7 := by norm_num
  have hm : (2 ^ 24 - 1 : Nat) < 2 ^ 24 := by norm_num
  have hbig : (2 ^ 24 - 1) * 2 ^ 156 < 2 ^ 128 * F32.one := by
    unfold F32.one; norm_num
  have b1 : y0 * 2 ^ 149 ≤ F32.roundUnits (x * 100 * 2 ^ 149) 1 := by
    apply roundUnits_ge (by norm_num) hy0
    rw [mul_one]
    exact Nat.mul_le_mul_right _ hy0x
  have u1 : F32.roundUnits (x * 100 * 2 ^ 149) 1 ≤ (2 ^ 24 - 1) * 2 ^ 156 := by
    apply roundUnits_le (by norm_num) hm
    rw [mul_one]
    calc x * 100 * 2 ^ 149 ≤ (2 ^ 24 - 1) * 2 ^ 7 * 2 ^ 149 := Nat.mul_le_mul_right _ (hB ▸ hx)
      _ = (2 ^ 24 - 1) * 2 ^ 156 := by norm_num
  generalize hR1 : F32.roundUnits (x * 100 * 2 ^ 149) 1 = R1 at b1 u1
  have b2 : k * 2 ^ 149 ≤ F32.roundUnits (a * R1) q := by
    apply roundUnits_ge hq0 (lt_of_le_of_lt hky0 hy0)
    calc k * 2 ^ 149 * q = k * q * 2 ^ 149 := by ring
      _ ≤ a * y0 * 2 ^ 149 := Nat.mul_le_mul_right _ hk
      _ = a * (y0 * 2 ^ 149) := by ring
      _ ≤ a * R1 := Nat.mul_le_mul_left _ b1
  have u2 : F32.roundUnits (a * R1) q ≤ (2 ^ 24 - 1) * 2 ^ 156 := by
    apply roundUnits_le hq0 hm
    calc a * R1 ≤ q * R1 := Nat.mul_le_mul_right _ haq
      _ ≤ q * ((2 ^ 24 - 1) * 2 ^ 156) := Nat.mul_le_mul_left _ u1
      _ = (2 ^ 24 - 1) * 2 ^ 156 * q := by ring
  generalize hR2 : F32.roundUnits (a * R1) q = R2 at b2 u2
  have b3 : c * 2 ^ 149 ≤ F32.roundUnits R2 mn := by
    apply roundUnits_ge hmn0 (lt_of_le_of_lt (le_trans hck hky0) hy0)
    calc c * 2 ^ 149 * mn = c * mn * 2 ^ 149 := by ring
      _ ≤ k * 2 ^ 149 := Nat.mul_le_mul_right _ hc
      _ ≤ R2 := b2
  have u3 : F32.roundUnits R2 mn ≤ (2 ^ 24 - 1) * 2 ^ 156 := by
    apply roundUnits_le hmn0 hm
    calc R2 ≤ (2 ^ 24 - 1) * 2 ^ 156 := u2
      _ ≤ (2 ^ 24 - 1) * 2 ^ 156 * mn := Nat.le_mul_of_pos_right _ hmn0
  generalize hR3 : F32.roundUnits R2 mn = R3 at b3 u3
  have hle : R3 / 2 ^ 149 ≤ 2147483520 := by
    have : R3 / 2 ^ 149 ≤ (2 ^ 24 - 1) * 2 ^ 156 / 2 ^ 149 := Nat.div_le_div_right u3
    have e3 : (2 ^ 24 - 1) * 2 ^ 156 / 2 ^ 149 = 2147483520 := by norm_num
    omega
  refine ⟨R3 / 2 ^ 149, ?_, (Nat.le_div_iff_mul_le (by positivity)).2 b3, hle⟩
  unfold max_scale_of imul
  have e0 : ((x : Int) * 100) = ((x * 100 : Nat) : Int) := by push_cast; ring
  rw [e0, cint_natCast (by omega)]
  simp only [Option.bind_eq_bind, Option.some_bind, bind]
  rw [ofInt_natCast]
  have e1 : x * 100 * F32.one = x * 100 * 2 ^ 149 := by unfold F32.one; rfl
  rw [e1, hR1, ofMagnitude_false (lt_of_le_of_lt u1 hbig)]
  simp only [Option.some_bind, Option.bind]
  rw [hdiv, hR2, ofMagnitude_false (lt_of_le_of_lt u2 hbig)]
  simp only [Option.some_bind, Option.bind]
  rw [ofInt_exact hmn]
  simp only [Option.some_bind, Option.bind]
  have hd2 := div_scaled R2 1 mn (2 ^ 149) hmn0 (by positivity) (by unfold F32.one; ring)
  rw [one_mul] at hd2
  rw [hd2, hR3, ofMagnitude_false (lt_of_le_of_lt u3 hbig)]
  simp only [Option.some_bind, Option.bind]
  rw [toInt_natCast]
  have e2 : F32.one = 2 ^ 149 := rfl
  rw [e2]
  apply cint_natCast
  omega

/-- The effective percentage when the maximum scale is known. -/
theorem apply_max_scale_of_max {scale : Scale} {w h mw mh : Int}
    (hw : max_scale_of scale w MINIMUM_WIDTH = some mw)
    (hh : max_scale_of scale h MINIMUM_HEIGHT = some mh) :
    apply_max_scale scale w h =
      some { scale with percentage := min scale.requested_percentage (min mw mh) } := by
  rw [apply_max_scale_eq]
  unfold get_max_scale_percentage
  rw [hw, hh]
  simp only [Option.bind_eq_bind, Option.some_bind, bind, pure, Option.map_some',
    SDL_min_eq_min]

/-- With an effective percentage of zero the first lines of `platform_screen_resize` divide
by zero. -/
theorem resize_logical_size_zero {scale sc : Scale} {w h : Int}
    (h1 : apply_max_scale scale w h = some sc) (h0 : sc.percentage = 0)
    (hw : -21474836 ≤ w ∧ w ≤ 21474836) : resize_logical_size scale w h = none := by
  unfold resize_logical_size
  rw [h1]
  simp only [Option.bind_eq_bind, Option.some_bind, bind]
  have : scale_pixels_to_logical sc w = none := by
    unfold scale_pixels_to_logical imul
    rw [cint_eq_some (by omega) (by omega), h0]
    simp [idiv]
  rw [this]
  rfl

/-- C18. With density 1.0 and a request in [50, 500]: for a width of at least 7 and a height
of at least 5, whatever effective percentage `apply_max_scale` sets is at least 1, and for
sizes up to 21474835 it does set one and the first lines of `platform_screen_resize`, with
their division by `scale.percentage`, return a logical size.  The bound is tight: for a
width from 0 to 6, or a height from 0 to 4, the effective percentage is 0, and that division
is a division by zero. -/
theorem effective_percentage_positive (sc : Scale) (w h : Int)
    (hd : sc.screen_density = density_1_0)
    (hr : 50 ≤ sc.requested_percentage ∧ sc.requested_percentage ≤ 500) :
    (7 ≤ w → 5 ≤ h →
      (∀ sc', apply_max_scale sc w h = some sc' → 1 ≤ sc'.percentage) ∧
      (w ≤ 21474835 → h ≤ 21474835 →
        ∃ sc' lw lh, resize_logical_size sc w h = some (sc', lw, lh) ∧
          1 ≤ sc'.percentage)) ∧
    (0 ≤ w → 0 ≤ h → w ≤ 21474835 → h ≤ 21474835 → w < 7 ∨ h < 5 →
      ∃ sc', apply_max_scale sc w h = some sc' ∧ sc'.percentage = 0 ∧
        resize_logical_size sc w h = none) := by
  have hdiv : ∀ u : Nat, F32.div ⟨(u : Int)⟩ sc.screen_density =
      F32.ofMagnitude false (F32.roundUnits (1 * u) 1) := by
    intro u
    rw [hd]
    exact div_density_1_0 u
  have hrep : representative_density sc.screen_density := Or.inl hd
  have e640 : MINIMUM_WIDTH = ((640 : Nat) : Int) := rfl
  have e480 : MINIMUM_HEIGHT = ((480 : Nat) : Int) := rfl
  constructor
  · intro hw hh
    obtain ⟨x, rfl⟩ := Int.eq_ofNat_of_zero_le (show 0 ≤ w by omega)
    obtain ⟨y, rfl⟩ := Int.eq_ofNat_of_zero_le (show 0 ≤ h by omega)
    have hx : 700 ≤ x * 100 := by omega
    have hy : 500 ≤ y * 100 := by omega
    have key : ∀ sc', apply_max_scale sc (x : Int) (y : Int) = some sc' →
        1 ≤ sc'.percentage := by
      intro sc' h1
      obtain ⟨mw, mh, hmw, hmh, hsceq⟩ := apply_max_scale_some h1
      rw [e640] at hmw
      rw [e480] at hmh
      have b1 := @max_scale_of_lower sc 1 1 hdiv (by norm_num) (by norm_num) x 640 700 700 1
        (by norm_num) hx (by norm_num) (by norm_num) (by norm_num) (by norm_num) mw hmw
      have b2 := @max_scale_of_lower sc 1 1 hdiv (by norm_num) (by norm_num) y 480 500 500 1
        (by norm_num) hy (by norm_num) (by norm_num) (by norm_num) (by norm_num) mh hmh
      rw [hsceq]
      show 1 ≤ min sc.requested_percentage (min mw mh)
      have b1' : (1 : Int) ≤ mw := by exact_mod_cast b1
      have b2' : (1 : Int) ≤ mh := by exact_mod_cast b2
      exact le_min (by omega) (le_min b1' b2')
    refine ⟨key, ?_⟩
    intro hwb hhb
    obtain ⟨mw, hmw, -, -⟩ := @max_scale_of_ge sc 1 1 hdiv (by norm_num) (by norm_num)
      x 640 700 700 1 (by norm_num) hx (by norm_num) (by norm_num) (by norm_num) (by norm_num)
      (by omega)
    obtain ⟨mh, hmh, -, -⟩ := @max_scale_of_ge sc 1 1 hdiv (by norm_num) (by norm_num)
      y 480 500 500 1 (by norm_num) hy (by norm_num) (by norm_num) (by norm_num) (by norm_num)
      (by omega)
    rw [← e640] at hmw
    rw [← e480] at hmh
    have hsc := apply_max_scale_of_max hmw hmh
    have hpos := key _ hsc
    generalize ({ sc with percentage := min sc.requested_percentage (min (mw : Int) (mh : Int)) }
      : Scale) = sc' at hsc hpos
    have hd' : representative_density sc'.screen_density := by
      obtain ⟨_, _, _, _, hsceq⟩ := apply_max_scale_some hsc
      rw [hsceq]
      exact hrep
    obtain ⟨lw, hlw⟩ := @logical_dimension_defined sc' hd' hpos (x : Int) (by omega) (by omega)
    obtain ⟨lh, hlh⟩ := @logical_dimension_defined sc' hd' hpos (y : Int) (by omega) (by omega)
    refine ⟨sc', lw, lh, ?_, hpos⟩
    unfold resize_logical_size
    rw [hsc]
    simp only [Option.bind_eq_bind, Option.some_bind, bind, pure]
    rw [hlw, hlh]
    rfl
  · intro hw0 hh0 hwb hhb hsmall
    obtain ⟨x, rfl⟩ := Int.eq_ofNat_of_zero_le hw0
    obtain ⟨y, rfl⟩ := Int.eq_ofNat_of_zero_le hh0
    obtain ⟨mw, hmw, -, -⟩ := @max_scale_of_ge sc 1 1 hdiv (by norm_num) (by norm_num)
      x 640 0 0 0 (by norm_num) (by omega) (by norm_num) (by norm_num) (by norm_num)
      (by norm_num) (by omega)
    obtain ⟨mh, hmh, -, -⟩ := @max_scale_of_ge sc 1 1 hdiv (by norm_num) (by norm_num)
      y 480 0 0 0 (by norm_num) (by omega) (by norm_num) (by norm_num) (by norm_num)
      (by norm_num) (by omega)
    have hzero : min (mw : Int) (mh : Int) = 0 := by
      rcases hsmall with h1 | h1
      · have hx : x * 100 < 2 ^ 21 := by omega
        have := @max_scale_of_exact sc 1 1 hdiv (by norm_num) (by norm_num) (by norm_num)
          x 640 hx (by norm_num) (by norm_num)
        rw [hmw] at this
        simp only [Option.some.injEq, one_mul, mul_one] at this
        have h2 : x * 100 / 640 = 0 := by omega
        rw [h2] at this
        have hmw0 : mw = 0 := by exact_mod_cast this
        subst hmw0
        simp
      · have hy : y * 100 < 2 ^ 21 := by omega
        have := @max_scale_of_exact sc 1 1 hdiv (by norm_num) (by norm_num) (by norm_num)
          y 480 hy (by norm_num) (by norm_num)
        rw [hmh] at this
        simp only [Option.some.injEq, one_mul, mul_one] at this
        have h2 : y * 100 / 480 = 0 := by omega
        rw [h2] at this
        have hmh0 : mh = 0 := by exact_mod_cast this
        subst hmh0
        simp
    rw [← e640] at hmw
    rw [← e480] at hmh
    have hsc := apply_max_scale_of_max hmw hmh
    rw [hzero] at hsc
    have hmin : min sc.requested_percentage 0 = 0 := min_eq_right (by omega)
    rw [hmin] at hsc
    exact ⟨_, hsc, rfl, resize_logical_size_zero hsc rfl (by omega)⟩

/-! ## The request stored by `set_scale_percentage` -/

/-- The percentage `set_scale_percentage` stores as the request. -/
theorem requested_in_range (p : Platform) (r : Int) :
    50 ≤ (if p.vita then 100 else calc_bound r 50 500) ∧
      (if p.vita then 100 else calc_bound r 50 500) ≤ 500 := by
  unfold calc_bound
  split_ifs <;> omega

/-- What `apply_max_scale` leaves in `scale`. -/
theorem apply_max_scale_fields {scale sc : Scale} {w h : Int}
    (h1 : apply_max_scale scale w h = some sc) :
    sc.requested_percentage = scale.requested_percentage ∧
      sc.screen_density = scale.screen_density ∧
      ∃ m, get_max_scale_percentage scale w h = some m ∧
        sc.percentage = min scale.requested_percentage m := by
  rw [apply_max_scale_eq] at h1
  cases hm : get_max_scale_percentage scale w h with
  | none => rw [hm] at h1; simp at h1
  | some m =>
    rw [hm] at h1
    simp only [Option.map_some', Option.some.injEq] at h1
    subst h1
    exact ⟨rfl, rfl, m, rfl, rfl⟩

/-- For a non-empty size `set_scale_percentage` stores the clamped request (100 on Vita) and
applies the maximum. -/
theorem set_scale_percentage_some {p : Platform} {s s1 : State} {r w h : Int}
    (hw : w ≠ 0) (hh : h ≠ 0) (h1 : set_scale_percentage p s r w h = some s1) :
    apply_max_scale
      { s.scale with requested_percentage := if p.vita then 100 else calc_bound r 50 500 } w h
      = some s1.scale := by
  unfold set_scale_percentage at h1
  simp only [hw, hh, or_self, if_false,
    Option.bind_eq_bind, bind, Option.bind_eq_some, pure, Option.some.injEq] at h1
  obtain ⟨sc, hsc, a, -, b, -, rfl⟩ := h1
  rw [hsc]
  rfl

/-- For an empty size `set_scale_percentage` only stores the clamped request. -/
theorem set_scale_percentage_empty {p : Platform} {s s1 : State} {r w h : Int}
    (hwh : w = 0 ∨ h = 0) (h1 : set_scale_percentage p s r w h = some s1) :
    s1.scale.requested_percentage = if p.vita then 100 else calc_bound r 50 500 := by
  unfold set_scale_percentage at h1
  simp only [hwh, if_true, pure, Option.some.injEq, Option.bind_eq_bind, bind] at h1
  subst h1
  rfl

/-- The request stored by `set_scale_percentage`, for every size. -/
theorem set_scale_percentage_requested {p : Platform} {s s1 : State} {r w h : Int}
    (h1 : set_scale_percentage p s r w h = some s1) :
    s1.scale.requested_percentage = if p.vita then 100 else calc_bound r 50 500 := by
  by_cases hwh : w = 0 ∨ h = 0
  · exact set_scale_percentage_empty hwh h1
  · have hw : w ≠ 0 := fun e => hwh (Or.inl e)
    have hh : h ≠ 0 := fun e => hwh (Or.inr e)
    exact (apply_max_scale_fields (set_scale_percentage_some hw hh h1)).1

/-- The function `set_scale_percentage` returns once the effective scale and the minimum
window size are defined. -/
theorem set_scale_percentage_total {p : Platform} {s : State} {r w h : Int} {sc : Scale}
    {a b : Int} (hw : w ≠ 0) (hh : h ≠ 0)
    (hsc : apply_max_scale
      { s.scale with requested_percentage := if p.vita then 100 else calc_bound r 50 500 } w h
      = some sc)
    (ha : scale_logical_to_pixels sc MINIMUM_WIDTH = some a)
    (hb : scale_logical_to_pixels sc MINIMUM_HEIGHT = some b) :
    ∃ s1, set_scale_percentage p s r w h = some s1 ∧ s1.scale = sc := by
  unfold set_scale_percentage
  simp only [hw, hh, or_self, if_false,
    Option.bind_eq_bind, bind, pure, hsc, Option.some_bind, ha, hb]
  exact ⟨_, rfl, rfl⟩

/-- The scale after `platform_screen_resize` is the one `apply_max_scale` computes. -/
theorem platform_screen_resize_scale {s : State} {w h : Int} {r : State × Int}
    (h1 : platform_screen_resize s w h = some r) :
    apply_max_scale s.scale w h = some r.1.scale := by
  unfold platform_screen_resize at h1
  obtain ⟨size, hsize, heq⟩ := Option.bind_eq_some.1 h1
  simp only [pure, Option.some.injEq] at heq
  subst heq
  rw [resize_presentation_texture_scale]
  unfold resize_logical_size at hsize
  obtain ⟨sc, hsc, hrest⟩ := Option.bind_eq_some.1 hsize
  obtain ⟨lw, -, hrest⟩ := Option.bind_eq_some.1 hrest
  obtain ⟨lh, -, hrest⟩ := Option.bind_eq_some.1 hrest
  simp only [pure, Option.some.injEq] at hrest
  subst hrest
  exact hsc

/-! ## Sizes written to the settings -/

/-- C14. At 150 percent and density 1.0, with a window of 1200 x 900 pixels and the logical
size 800 x 600 in the settings: `platform_screen_resize(1200, 900)` persists the logical size
800 x 600, while `platform_screen_set_windowed` and `platform_screen_set_window_size(800, 600)`
each pass the pixel size 1200 x 900 to `setting_set_display`, so that the persisted window
size changes from 800 x 600 to 1200 x 900, and a second `platform_screen_set_windowed` makes it
1800 x 1350. -/
theorem windowed_mode_persists_pixel_size :
    setting_window (example_state 1200 900 150 density_1_0) = (800, 600) ∧
      (platform_screen_resize (example_state 1200 900 150 density_1_0) 1200 900).map
        (fun r => (r.1.trace.filter Action.is_setting_write, setting_window r.1))
        = some ([Action.setting_set_display 0 800 600], (800, 600)) ∧
      (platform_screen_set_windowed desktop (example_state 1200 900 150 density_1_0)).map
        (fun s => (s.trace.filter Action.is_setting_write, setting_window s))
        = some ([Action.setting_set_display 0 1200 900], (1200, 900)) ∧
      (platform_screen_set_window_size desktop (example_state 1200 900 150 density_1_0)
        800 600).map (fun s => (s.trace.filter Action.is_setting_write, setting_window s))
        = some ([Action.setting_set_display 0 1200 900], (1200, 900)) ∧
      ((platform_screen_set_windowed desktop (example_state 1200 900 150 density_1_0)).bind
        (platform_screen_set_windowed desktop)).map setting_window = some (1800, 1350) :=
  ⟨rfl, by decide, by decide, by decide, by decide⟩

/-! ## Densities in general -/

/-- Division of a non-negative float by a positive density, in units of `2^-149`. -/
theorem div_of_pos_units {d : F32} (hd : 0 < d.units) (u : Nat) :
    F32.div ⟨(u : Int)⟩ d =
      F32.ofMagnitude false (F32.roundUnits (2 ^ 149 * u) d.units.toNat) := by
  obtain ⟨q, hq⟩ := Int.eq_ofNat_of_zero_le hd.le
  have hq0 : 0 < q := by omega
  have hd' : d = ⟨((q * 1 : Nat) : Int)⟩ := by
    cases d
    simp only [F32.mk.injEq]
    simpa using hq
  have h := div_scaled u (2 ^ 149) q 1 hq0 (by norm_num) (by norm_num [F32.one])
  rw [← hd'] at h
  rw [h, hq]
  simp

theorem pow_split {k : Nat} (hk : k ≤ 7) : (2 : Nat) ^ k * 2 ^ (156 - k) = 2 ^ 156 := by
  rw [← pow_add]
  congr 1
  omega

theorem pow_split_149 {k : Nat} (hk : k ≤ 7) : (2 : Nat) ^ k * 2 ^ (149 - k) = 2 ^ 149 := by
  rw [← pow_add]
  congr 1
  omega

/-- The conversion of `y` to `float` stays below the largest float under `2^31 / 2^k`. -/
theorem roundUnits_int_le {y k : Nat} (hk : k ≤ 7) (hy : y * 2 ^ k ≤ 2147483520) :
    F32.roundUnits (y * 2 ^ 149) 1 ≤ (2 ^ 24 - 1) * 2 ^ (156 - k) := by
  apply roundUnits_le (by norm_num) (by norm_num)
  rw [mul_one]
  have h1 : y * 2 ^ k * 2 ^ (149 - k) ≤ (2 ^ 24 - 1) * 2 ^ 7 * 2 ^ (149 - k) :=
    Nat.mul_le_mul_right _ (by
      have : (2147483520 : Nat) = (2 ^ 24 - 1) * 2 ^ 7 := by norm_num
      omega)
  have e1 : y * 2 ^ k * 2 ^ (149 - k) = y * 2 ^ 149 := by
    rw [mul_assoc, pow_split_149 hk]
  have e2 : (2 ^ 24 - 1) * 2 ^ 7 * 2 ^ (149 - k) = (2 ^ 24 - 1) * 2 ^ (156 - k) := by
    rw [mul_assoc, ← pow_add]
    congr 2
    omega
  rw [e1, e2] at h1
  exact h1

/-- A quotient by a density of at least `2^-k` stays below `2^31` when the dividend stays
below `2^31 / 2^k`. -/
theorem roundUnits_div_le {a q R k : Nat} (hq : 0 < q) (hk : k ≤ 7) (haq : a ≤ q * 2 ^ k)
    (hR : R ≤ (2 ^ 24 - 1) * 2 ^ (156 - k)) :
    F32.roundUnits (a * R) q ≤ (2 ^ 24 - 1) * 2 ^ 156 := by
  apply roundUnits_le hq (by norm_num)
  calc a * R ≤ q * 2 ^ k * ((2 ^ 24 - 1) * 2 ^ (156 - k)) := Nat.mul_le_mul haq hR
    _ = (2 ^ 24 - 1) * (2 ^ k * 2 ^ (156 - k)) * q := by ring
    _ = (2 ^ 24 - 1) * 2 ^ 156 * q := by rw [pow_split hk]

/-- The float tail `(int) (y / d)` is defined for a density of at least `2^-k` and a value
of at most `(2^31 - 128) / 2^k`. -/
theorem int_div_float_defined {d : F32} {a q : Nat}
    (hdiv : ∀ u : Nat, F32.div ⟨(u : Int)⟩ d = F32.ofMagnitude false (F32.roundUnits (a * u) q))
    (hq : 0 < q) {k : Nat} (hk : k ≤ 7) (haq : a ≤ q * 2 ^ k) {y : Nat}
    (hy : y * 2 ^ k ≤ 2147483520) :
    ∃ t : Nat, int_div_float d (y : Int) = some (t : Int) := by
  have hbig : (2 ^ 24 - 1) * 2 ^ 156 < 2 ^ 128 * F32.one := by
    unfold F32.one; norm_num
  have hle : (2 ^ 24 - 1) * 2 ^ (156 - k) ≤ (2 ^ 24 - 1) * 2 ^ 156 :=
    Nat.mul_le_mul_left _ (Nat.pow_le_pow_right (by norm_num) (by omega))
  have u1 := roundUnits_int_le hk hy
  generalize hR1 : F32.roundUnits (y * 2 ^ 149) 1 = R1 at u1
  have u2 := @roundUnits_div_le a q R1 k hq hk haq u1
  generalize hR2 : F32.roundUnits (a * R1) q = R2 at u2
  refine ⟨R2 / 2 ^ 149, ?_⟩
  unfold int_div_float
  rw [ofInt_natCast]
  have e1 : y * F32.one = y * 2 ^ 149 := by unfold F32.one; rfl
  rw [e1, hR1, ofMagnitude_false (lt_of_le_of_lt (le_trans u1 hle) hbig)]
  simp only [Option.bind_eq_bind, Option.some_bind, bind]
  rw [hdiv, hR2, ofMagnitude_false (lt_of_le_of_lt u2 hbig)]
  simp only [Option.some_bind, Option.bind]
  rw [toInt_natCast]
  have e2 : F32.one = 2 ^ 149 := rfl
  rw [e2]
  apply cint_natCast
  have : R2 / 2 ^ 149 ≤ (2 ^ 24 - 1) * 2 ^ 156 / 2 ^ 149 := Nat.div_le_div_right u2
  have e3 : (2 ^ 24 - 1) * 2 ^ 156 / 2 ^ 149 = 2147483520 := by norm_num
  omega

/-- One line of `get_max_scale_percentage` is defined for a density of at least `2^-k` and
a size of at most `21474835 / 2^k`. -/
theorem max_scale_of_defined {scale : Scale} {a q : Nat}
    (hdiv : ∀ u : Nat, F32.div ⟨(u : Int)⟩ scale.screen_density =
      F32.ofMagnitude false (F32.roundUnits (a * u) q))
    (hq : 0 < q) {k : Nat} (hk : k ≤ 7) (haq : a ≤ q * 2 ^ k) {x mn : Nat}
    (hmn0 : 0 < mn) (hmn : mn < 2 ^ 24) (hx : x * 100 * 2 ^ k ≤ 2147483520) :
    ∃ t : Nat, max_scale_of scale (x : Int) (mn : Int) = some (t : Int) := by
  have hbig : (2 ^ 24 - 1) * 2 ^ 156 < 2 ^ 128 * F32.one := by
    unfold F32.one; norm_num
  have hle : (2 ^ 24 - 1) * 2 ^ (156 - k) ≤ (2 ^ 24 - 1) * 2 ^ 156 :=
    Nat.mul_le_mul_left _ (Nat.pow_le_pow_right (by norm_num) (by omega))
  have hx' : x * 100 ≤ 2147483520 :=
    le_trans (Nat.le_mul_of_pos_right _ (by positivity)) hx
  have u1 := roundUnits_int_le hk hx
  generalize hR1 : F32.roundUnits (x * 100 * 2 ^ 149) 1 = R1 at u1
  have u2 := @roundUnits_div_le a q R1 k hq hk haq u1
  generalize hR2 : F32.roundUnits (a * R1) q = R2 at u2
  have u3 : F32.roundUnits R2 mn ≤ (2 ^ 24 - 1) * 2 ^ 156 := by
    apply roundUnits_le hmn0 (by norm_num)
    calc R2 ≤ (2 ^ 24 - 1) * 2 ^ 156 := u2
      _ ≤ (2 ^ 24 - 1) * 2 ^ 156 * mn := Nat.le_mul_of_pos_right _ hmn0
  generalize hR3 : F32.roundUnits R2 mn = R3 at u3
  refine ⟨R3 / 2 ^ 149, ?_⟩
  unfold max_scale_of imul
  have e0 : ((x : Int) * 100) = ((x * 100 : Nat) : Int) := by push_cast; ring
  rw [e0, cint_natCast (by omega)]
  simp only [Option.bind_eq_bind, Option.some_bind, bind]
  rw [ofInt_natCast]
  have e1 : x * 100 * F32.one = x * 100 * 2 ^ 149 := by unfold F32.one; rfl
  rw [e1, hR1, ofMagnitude_false (lt_of_le_of_lt (le_trans u1 hle) hbig)]
  simp only [Option.some_bind, Option.bind]
  rw [hdiv, hR2, ofMagnitude_false (lt_of_le_of_lt u2 hbig)]
  simp only [Option.some_bind, Option.bind]
  rw [ofInt_exact hmn]
  simp only [Option.some_bind, Option.bind]
  have hd2 := div_scaled R2 1 mn (2 ^ 149) hmn0 (by positivity) (by unfold F32.one; ring)
  rw [one_mul] at hd2
  rw [hd2, hR3, ofMagnitude_false (lt_of_le_of_lt u3 hbig)]
  simp only [Option.some_bind, Option.bind]
  rw [toInt_natCast]
  have e2 : F32.one = 2 ^ 149 := rfl
  rw [e2]
  apply cint_natCast
  have : R3 / 2 ^ 149 ≤ (2 ^ 24 - 1) * 2 ^ 156 / 2 ^ 149 := Nat.div_le_div_right u3
  have e3 : (2 ^ 24 - 1) * 2 ^ 156 / 2 ^ 149 = 2147483520 := by norm_num
  omega

/-! ### `system_scale_display` for every density -/

/-- The density is untouched by `set_scale_percentage`. -/
theorem set_scale_percentage_density {p : Platform} {s s1 : State} {r w h : Int}
    (h1 : set_scale_percentage p s r w h = some s1) :
    s1.scale.screen_density = s.scale.screen_density := by
  by_cases hwh : w = 0 ∨ h = 0
  · unfold set_scale_percentage at h1
    simp only [hwh, if_true, pure, Option.some.injEq, Option.bind_eq_bind, bind] at h1
    subst h1
    rfl
  · have hw : w ≠ 0 := fun e => hwh (Or.inl e)
    have hh : h ≠ 0 := fun e => hwh (Or.inr e)
    exact (apply_max_scale_fields (set_scale_percentage_some hw hh h1)).2.1

/-- What `system_scale_display` returns, whenever it returns: the smaller of the stored
request and the maximum scale of the window, which is also `scale.percentage` afterwards. -/
theorem scale_display_result {p : Platform} {s s' : State} {r e : Int}
    (h : system_scale_display p s r = some (s', e)) :
    ∃ win m, s.SDL.window = some win ∧
      get_max_scale_percentage s.scale win.w win.h = some m ∧
      s'.scale.requested_percentage = (if p.vita then 100 else calc_bound r 50 500) ∧
      e = min (if p.vita then 100 else calc_bound r 50 500) m ∧
      s'.scale.percentage = e := by
  unfold system_scale_display at h
  obtain ⟨size, hsize, h⟩ := Option.bind_eq_some.1 h
  obtain ⟨s1, hs1, h⟩ := Option.bind_eq_some.1 h
  obtain ⟨res, hres, h⟩ := Option.bind_eq_some.1 h
  simp only [pure, Option.some.injEq, Prod.mk.injEq] at h
  obtain ⟨rfl, rfl⟩ := h
  unfold SDL_GetWindowSize at hsize
  obtain ⟨win, hwin, hsz⟩ := Option.map_eq_some'.1 hsize
  subst hsz
  have hreq := set_scale_percentage_requested hs1
  have hden := set_scale_percentage_density hs1
  obtain ⟨f1, -, m, hm, hp⟩ := apply_max_scale_fields (platform_screen_resize_scale hres)
  refine ⟨win, m, hwin, ?_, by rw [f1, hreq], by rw [hp, hreq], rfl⟩
  rw [← hm]
  exact get_max_scale_percentage_density hden.symm _ _

/-- The call `system_scale_display(r)` returns for a density of at least `2^-k` and a window
of positive size up to `21474835 / 2^k` whose maximum scale is at least 1. -/
theorem scale_display_returns (p : Platform) (s : State) (win : SDLWindow) (r : Int) (k : Nat)
    (hwin : s.SDL.window = some win) (hk : k ≤ 7)
    (hd : (F32.one : Int) ≤ s.scale.screen_density.units * 2 ^ k)
    (hw : 0 < win.w ∧ win.w * 100 * 2 ^ k ≤ 2147483520)
    (hh : 0 < win.h ∧ win.h * 100 * 2 ^ k ≤ 2147483520) :
    ∃ m, get_max_scale_percentage s.scale win.w win.h = some m ∧
      (1 ≤ m → ∃ s', system_scale_display p s r =
        some (s', min (if p.vita then 100 else calc_bound r 50 500) m)) := by
  have hone : (0 : Int) < (F32.one : Int) := by
    have : 0 < F32.one := by unfold F32.one; positivity
    exact_mod_cast this
  have hpos : 0 < s.scale.screen_density.units := by
    by_contra hneg
    push_neg at hneg
    have : s.scale.screen_density.units * 2 ^ k ≤ 0 :=
      mul_nonpos_of_nonpos_of_nonneg hneg (by positivity)
    omega
  obtain ⟨q, hq⟩ := Int.eq_ofNat_of_zero_le hpos.le
  have hq0 : 0 < q := by omega
  have haq : 2 ^ 149 ≤ q * 2 ^ k := by
    rw [hq] at hd
    have h1 : F32.one ≤ q * 2 ^ k := by exact_mod_cast hd
    exact h1
  have hdiv0 := div_of_pos_units hpos
  rw [hq] at hdiv0
  simp only [Int.toNat_ofNat] at hdiv0
  obtain ⟨x, hx⟩ := Int.eq_ofNat_of_zero_le hw.1.le
  obtain ⟨y, hy⟩ := Int.eq_ofNat_of_zero_le hh.1.le
  have hxb : x * 100 * 2 ^ k ≤ 2147483520 := by
    have := hw.2
    rw [hx] at this
    exact_mod_cast this
  have hyb : y * 100 * 2 ^ k ≤ 2147483520 := by
    have := hh.2
    rw [hy] at this
    exact_mod_cast this
  have hk1 : 1 ≤ 2 ^ k := Nat.one_le_two_pow
  have hx100 : x * 100 ≤ 2147483520 := le_trans (Nat.le_mul_of_pos_right _ (by positivity)) hxb
  have hy100 : y * 100 ≤ 2147483520 := le_trans (Nat.le_mul_of_pos_right _ (by positivity)) hyb
  have e640 : MINIMUM_WIDTH = ((640 : Nat) : Int) := rfl
  have e480 : MINIMUM_HEIGHT = ((480 : Nat) : Int) := rfl
  obtain ⟨tw, htw⟩ := @max_scale_of_defined s.scale (2 ^ 149) q hdiv0 hq0 k hk haq x 640
    (by norm_num) (by norm_num) hxb
  obtain ⟨th, hth⟩ := @max_scale_of_defined s.scale (2 ^ 149) q hdiv0 hq0 k hk haq y 480
    (by norm_num) (by norm_num) hyb
  have hgm : get_max_scale_percentage s.scale win.w win.h =
      some (min (tw : Int) (th : Int)) := by
    unfold get_max_scale_percentage
    rw [hx, hy, e640, e480, htw, hth]
    simp only [Option.bind_eq_bind, Option.some_bind, bind, pure, SDL_min_eq_min]
  refine ⟨_, hgm, ?_⟩
  generalize min (tw : Int) (th : Int) = m at hgm
  intro hm1
  obtain ⟨rq, hrq⟩ : ∃ rq : Int, rq = if p.vita then 100 else calc_bound r 50 500 := ⟨_, rfl⟩
  have hr := requested_in_range p r
  rw [← hrq] at hr ⊢
  have hgm' : get_max_scale_percentage { s.scale with requested_percentage := rq } win.w win.h
      = some m := by
    rw [← hgm]; exact get_max_scale_percentage_density rfl _ _
  have hsc := apply_max_scale_eq { s.scale with requested_percentage := rq } win.w win.h
  rw [hgm'] at hsc
  simp only [Option.map_some'] at hsc
  obtain ⟨sc, hscdef⟩ : ∃ sc : Scale, sc = ⟨rq, min rq m, s.scale.screen_density⟩ := ⟨_, rfl⟩
  rw [← hscdef] at hsc
  have hscd : sc.screen_density = s.scale.screen_density := by rw [hscdef]
  have hscp : sc.percentage = min rq m := by rw [hscdef]
  have hpct : 1 ≤ sc.percentage ∧ sc.percentage ≤ 500 := by
    rw [hscp]
    exact ⟨le_min (by omega) hm1, le_trans (min_le_left _ _) hr.2⟩
  obtain ⟨pct, hpctn⟩ := Int.eq_ofNat_of_zero_le (show 0 ≤ sc.percentage by omega)
  have hpct1 : 1 ≤ pct ∧ pct ≤ 500 := by omega
  have hdiv : ∀ u : Nat, F32.div ⟨(u : Int)⟩ sc.screen_density =
      F32.ofMagnitude false (F32.roundUnits (2 ^ 149 * u) q) := by
    rw [hscd]; exact hdiv0
  -- the minimum window size
  have hmin : ∀ v : Nat, v ≤ 640 → ∃ t : Nat, scale_logical_to_pixels sc (v : Int) = some (t : Int) := by
    intro v hv
    have hvp : v * pct ≤ 640 * 500 := Nat.mul_le_mul hv hpct1.2
    rw [scale_logical_to_pixels_nat hpctn (by omega)]
    apply int_div_float_defined hdiv hq0 hk haq
    have h1 : v * pct / 100 ≤ 3200 := by omega
    have h2 : (2 : Nat) ^ k ≤ 2 ^ 7 := Nat.pow_le_pow_right (by norm_num) hk
    calc v * pct / 100 * 2 ^ k ≤ 3200 * 2 ^ 7 := Nat.mul_le_mul h1 h2
      _ ≤ 2147483520 := by norm_num
  obtain ⟨a, ha⟩ := hmin 640 (by norm_num)
  obtain ⟨b, hb⟩ := hmin 480 (by norm_num)
  rw [hrq] at hsc
  obtain ⟨s1, hs1, hs1sc⟩ := @set_scale_percentage_total p s r win.w win.h sc a b
    (by omega) (by omega) hsc ha hb
  -- the logical size
  have hlog : ∀ v : Nat, v * 100 * 2 ^ k ≤ 2147483520 →
      ∃ t : Nat, scale_pixels_to_logical sc (v : Int) = some (t : Int) := by
    intro v hv
    have hv100 : v * 100 ≤ 2147483520 := le_trans (Nat.le_mul_of_pos_right _ (by positivity)) hv
    rw [scale_pixels_to_logical_nat hpctn (by omega) (by omega)]
    apply int_div_float_defined hdiv hq0 hk haq
    exact le_trans (Nat.mul_le_mul_right _ (Nat.div_le_self _ _)) hv
  obtain ⟨lw, hlw⟩ := hlog x hxb
  obtain ⟨lh, hlh⟩ := hlog y hyb
  rw [← hx] at hlw
  rw [← hy] at hlh
  have hidem := apply_max_scale_idem hsc
  have hsize : resize_logical_size s1.scale win.w win.h = some (sc, (lw : Int), (lh : Int)) := by
    unfold resize_logical_size
    rw [hs1sc, hidem]
    simp only [Option.bind_eq_bind, Option.some_bind, bind, pure]
    rw [hlw, hlh]
    rfl
  refine ⟨(resize_presentation_texture { s1 with scale := sc } lw lh).1, ?_⟩
  unfold system_scale_display SDL_GetWindowSize platform_screen_resize
  rw [hwin]
  simp only [Option.map_some', Option.bind_eq_bind, Option.some_bind, bind, pure, hs1, hsize,
    resize_presentation_texture_scale, hscp]

/-! ## The maximum scale for every density -/

/-! ### Two roundings that stay clear of the next integer -/

/-- The binary exponent of a quotient: `n / q < 2^e`, and `2^e ≤ 2 n / q` unless `n < q`. -/
theorem exponent_of_quotient {n q : Nat} (hq : 0 < q) :
    n < 2 ^ Nat.size (n / q) * q ∧
      (q * 2 ^ Nat.size (n / q) ≤ 2 * n ∨ (n < q ∧ Nat.size (n / q) = 0)) := by
  constructor
  · exact (Nat.div_lt_iff_lt_mul hq).1 (Nat.lt_size_self _)
  · by_cases h0 : n / q = 0
    · right
      rw [h0]
      exact ⟨(Nat.div_eq_zero_iff hq).1 h0, Nat.size_zero⟩
    · left
      have hpos : 0 < Nat.size (n / q) := Nat.size_pos.2 (Nat.pos_of_ne_zero h0)
      obtain ⟨e, he⟩ : ∃ e, Nat.size (n / q) = e + 1 := ⟨Nat.size (n / q) - 1, by omega⟩
      have h1 : 2 ^ e ≤ n / q := Nat.lt_size.1 (by omega)
      have h2 : 2 ^ e * q ≤ n := (Nat.le_div_iff_mul_le hq).1 h1
      rw [he, pow_succ]
      calc q * (2 ^ e * 2) = 2 * (2 ^ e * q) := by ring
        _ ≤ 2 * n := Nat.mul_le_mul_left _ h2

/-- The arithmetic behind `roundUnits_floor2_general`. -/
theorem floor2_general_gap {T Y Z W V mn : Nat} (hmn : mn ≤ 640)
    (h1 : 2 * W ≤ 2 ^ 33 * Y + 256 * T) (h2 : 2 * V ≤ 2 * W + mn * T)
    (h3 : 2 ^ 33 * Z ≤ 2 * V) (key : 7 * T + 2 ^ 26 * Y < 2 ^ 26 * Z) : False := by
  have h4 : mn * T ≤ 640 * T := Nat.mul_le_mul_right _ hmn
  omega

/-- Two divisions in a row, the second by `mn` (257 to 640): when the exact quotient
`n / (mn * q)` lies below the next integer by more than its `2^22`-th part, the result
converted to `int` is the floor of the exact quotient. -/
theorem roundUnits_floor2_general {n q mn c i : Nat} (hq : 0 < q) (hmn : mn = c * 2 ^ i)
    (hmn0 : 256 < mn) (hmn1 : mn ≤ 640) (hcM : c * (n / (mn * q)) < 2 ^ 24)
    (hgap : n * (2 ^ 22 + 1) < (n / (mn * q) + 1) * (mn * q) * 2 ^ 22) :
    n / (mn * q) * 2 ^ 149 ≤ F32.roundUnits (F32.roundUnits (n * 2 ^ 149) q) mn ∧
      F32.roundUnits (F32.roundUnits (n * 2 ^ 149) q) mn < (n / (mn * q) + 1) * 2 ^ 149 := by
  have hmnpos : 0 < mn := by omega
  have hc : 0 < c := by
    rcases Nat.eq_zero_or_pos c with h | h
    · rw [h, zero_mul] at hmn; omega
    · exact h
  have hMle : n / (mn * q) * (mn * q) ≤ n := Nat.div_mul_le_self n (mn * q)
  generalize hM : n / (mn * q) = M at hcM hgap hMle ⊢
  have hM24 : M < 2 ^ 24 := lt_of_le_of_lt (Nat.le_mul_of_pos_left _ hc) hcM
  obtain ⟨he1, he2⟩ := @exponent_of_quotient n q hq
  have he3 : q * 2 ^ Nat.size (n / q) ≤ 2 * n ∨ (n < q ∧ 2 ^ Nat.size (n / q) = 1) := by
    rcases he2 with h | ⟨h, h0⟩
    · exact Or.inl h
    · exact Or.inr ⟨h, by rw [h0]; rfl⟩
  clear he2
  generalize Nat.size (n / q) = e at he1 he3
  -- the first rounding, from below and from above
  have hr1 : c * M * 2 ^ (i + 149) ≤ F32.roundUnits (n * 2 ^ 149) q := by
    apply roundUnits_ge hq hcM
    calc c * M * 2 ^ (i + 149) * q = M * (c * 2 ^ i * q) * 2 ^ 149 := by rw [pow_add]; ring
      _ = M * (mn * q) * 2 ^ 149 := by rw [hmn]
      _ ≤ n * 2 ^ 149 := Nat.mul_le_mul_right _ hMle
  have hr1le : F32.roundUnits (n * 2 ^ 149) q ≤ 1 * 2 ^ (e + 149) := by
    apply roundUnits_le hq (by norm_num)
    calc n * 2 ^ 149 ≤ 2 ^ e * q * 2 ^ 149 := Nat.mul_le_mul_right _ he1.le
      _ = 1 * 2 ^ (e + 149) * q := by rw [pow_add]; ring
  have herr1 := @roundUnits_err (n * 2 ^ 149) q (e + 125) hq (by
    calc n * 2 ^ 149 < 2 ^ e * q * 2 ^ 149 := Nat.mul_lt_mul_of_pos_right he1 (by positivity)
      _ = 2 ^ (e + 125 + 24) * q := by
        rw [show e + 125 + 24 = e + 149 by omega, pow_add]; ring)
  generalize F32.roundUnits (n * 2 ^ 149) q = R1 at hr1 hr1le herr1 ⊢
  constructor
  · apply roundUnits_ge hmnpos hM24
    calc M * 2 ^ 149 * mn = c * M * 2 ^ (i + 149) := by rw [hmn, pow_add]; ring
      _ ≤ R1 := hr1
  · have herr2 := @roundUnits_err R1 mn (e + 117) hmnpos (by
      calc R1 ≤ 1 * 2 ^ (e + 149) := hr1le
        _ = 2 ^ (e + 117 + 24) * 256 := by
          rw [show e + 149 = e + 117 + 24 + 8 by omega, pow_add _ _ 8]; norm_num
        _ < 2 ^ (e + 117 + 24) * mn := Nat.mul_lt_mul_of_pos_left hmn0 (by positivity))
    generalize F32.roundUnits R1 mn = R2 at herr2 ⊢
    by_contra hge
    push_neg at hge
    have hA : 0 < (2 : Nat) ^ 117 := by positivity
    have e149 : (2 : Nat) ^ 149 = 2 ^ 32 * 2 ^ 117 := by norm_num
    have e125 : (2 : Nat) ^ (e + 125) = 2 ^ e * 2 ^ 8 * 2 ^ 117 := by
      rw [show e + 125 = e + 8 + 117 by omega, pow_add, pow_add]
    have e117 : (2 : Nat) ^ (e + 117) = 2 ^ e * 2 ^ 117 := by rw [pow_add]
    rw [e149, e125] at herr1
    rw [e117] at herr2
    rw [e149] at hge
    generalize (2 : Nat) ^ 117 = A at hA herr1 herr2 hge
    generalize (2 : Nat) ^ e = E at he3 herr1 herr2
    -- the gap, in the form the roundings need
    have key : 7 * (q * E) + 2 ^ 26 * n < 2 ^ 26 * ((M + 1) * (mn * q)) := by
      rcases he3 with h | ⟨h, h0⟩
      · have : 16 * (n * (2 ^ 22 + 1)) < 16 * ((M + 1) * (mn * q) * 2 ^ 22) :=
          Nat.mul_lt_mul_of_pos_left hgap (by norm_num)
        have e1 : 16 * (n * (2 ^ 22 + 1)) = 2 ^ 26 * n + 16 * n := by ring
        have e2 : 16 * ((M + 1) * (mn * q) * 2 ^ 22) = 2 ^ 26 * ((M + 1) * (mn * q)) := by ring
        omega
      · have h257 : 257 * q ≤ mn * q := Nat.mul_le_mul_right _ hmn0
        have hX : mn * q ≤ (M + 1) * (mn * q) := Nat.le_mul_of_pos_left _ (by omega)
        rw [h0, mul_one]
        omega
    have k1 : 7 * (q * E * A) + 2 ^ 26 * (n * A) < 2 ^ 26 * ((M + 1) * (mn * q) * A) := by
      have := Nat.mul_lt_mul_of_pos_right key hA
      calc 7 * (q * E * A) + 2 ^ 26 * (n * A) = (7 * (q * E) + 2 ^ 26 * n) * A := by ring
        _ < 2 ^ 26 * ((M + 1) * (mn * q)) * A := this
        _ = 2 ^ 26 * ((M + 1) * (mn * q) * A) := by ring
    have k2 : 2 * (R1 * q) ≤ 2 ^ 33 * (n * A) + 256 * (q * E * A) := by
      calc 2 * (R1 * q) ≤ 2 * (n * (2 ^ 32 * A)) + q * (E * 2 ^ 8 * A) := herr1
        _ = 2 ^ 33 * (n * A) + 256 * (q * E * A) := by ring
    have k3 : 2 * (R2 * mn * q) ≤ 2 * (R1 * q) + mn * (q * E * A) := by
      calc 2 * (R2 * mn * q) = 2 * (R2 * mn) * q := by ring
        _ ≤ (2 * R1 + mn * (E * A)) * q := Nat.mul_le_mul_right _ herr2
        _ = 2 * (R1 * q) + mn * (q * E * A) := by ring
    have k4 : 2 ^ 33 * ((M + 1) * (mn * q) * A) ≤ 2 * (R2 * mn * q) := by
      calc 2 ^ 33 * ((M + 1) * (mn * q) * A) = 2 * ((M + 1) * (2 ^ 32 * A) * (mn * q)) := by ring
        _ ≤ 2 * (R2 * (mn * q)) := Nat.mul_le_mul_left _ (Nat.mul_le_mul_right _ hge)
        _ = 2 * (R2 * mn * q) := by ring
    exact floor2_general_gap hmn1 k2 k3 k4 k1

/-! ### The maximum scale as a floor -/

/-- The hundredfold of a size up to 671088 converts to `float` exactly. -/
theorem ofInt_hundredfold {w : Nat} (hw : 25 * w < 2 ^ 24) :
    F32.ofInt ((w * 100 : Nat) : Int) = some ⟨((w * 100 * 2 ^ 149 : Nat) : Int)⟩ := by
  rw [ofInt_natCast]
  have e : w * 100 * F32.one = 25 * w * 2 ^ 151 * 1 := by unfold F32.one; ring
  rw [e, roundUnits_exact (by norm_num) hw]
  have e2 : 25 * w * 2 ^ 151 = w * 100 * 2 ^ 149 := by ring
  rw [e2]
  apply ofMagnitude_false
  unfold F32.one
  have h1 : w * 100 < 2 ^ 128 := by
    have : (2 : Nat) ^ 24 * 4 < 2 ^ 128 := by norm_num
    omega
  exact Nat.mul_lt_mul_of_pos_right h1 (by positivity)

/-- For a density of at least 1/8 the exact quotient is at most `8 x / mn`. -/
theorem quotient_le {a q x mn : Nat} (hq : 0 < q) (h8 : a ≤ 8 * q) :
    a * x / (mn * q) ≤ 8 * x / mn := by
  calc a * x / (mn * q) ≤ 8 * q * x / (mn * q) :=
        Nat.div_le_div_right (Nat.mul_le_mul_right _ h8)
    _ = 8 * x * q / (mn * q) := by rw [show 8 * q * x = 8 * x * q by ring]
    _ = 8 * x / mn := Nat.mul_div_mul_right _ _ hq

/-- One line of `get_max_scale_percentage` yields the floor of the exact quotient when that
quotient is clear of the next integer. -/
theorem max_scale_of_floor {scale : Scale} {a q : Nat}
    (hdiv : ∀ u : Nat, F32.div ⟨(u : Int)⟩ scale.screen_density =
      F32.ofMagnitude false (F32.roundUnits (a * u) q))
    (hq : 0 < q) {w mn c i : Nat} (hw : 25 * w < 2 ^ 24) (hmn : mn = c * 2 ^ i)
    (hmn0 : 256 < mn) (hmn1 : mn ≤ 640)
    (hcM : c * (a * (w * 100) / (mn * q)) < 2 ^ 24)
    (hgap : a * (w * 100) * (2 ^ 22 + 1) <
      (a * (w * 100) / (mn * q) + 1) * (mn * q) * 2 ^ 22) :
    max_scale_of scale (w : Int) (mn : Int) =
      some ((a * (w * 100) / (mn * q) : Nat) : Int) := by
  have hmnpos : 0 < mn := by omega
  have hmq : 0 < mn * q := Nat.mul_pos hmnpos hq
  have hc : 0 < c := by
    rcases Nat.eq_zero_or_pos c with h | h
    · rw [h, zero_mul] at hmn; omega
    · exact h
  obtain ⟨h1, h2⟩ := roundUnits_floor2_general hq hmn hmn0 hmn1 hcM hgap
  have hlt : a * (w * 100) < (a * (w * 100) / (mn * q) + 1) * (mn * q) :=
    (Nat.div_lt_iff_lt_mul hmq).1 (Nat.lt_succ_iff.2 (le_refl _))
  generalize a * (w * 100) / (mn * q) = M at hcM h1 h2 hlt
  have hM24 : M < 2 ^ 24 := lt_of_le_of_lt (Nat.le_mul_of_pos_left _ hc) hcM
  have hM : M ≤ 2147483647 := by omega
  have hn34 : a * (w * 100) ≤ 2 ^ 34 * q := by
    have h3 : (M + 1) * mn ≤ 2 ^ 24 * 640 := Nat.mul_le_mul (by omega) hmn1
    calc a * (w * 100) ≤ (M + 1) * (mn * q) := hlt.le
      _ = (M + 1) * mn * q := by ring
      _ ≤ 2 ^ 24 * 640 * q := Nat.mul_le_mul_right _ h3
      _ ≤ 2 ^ 34 * q := Nat.mul_le_mul_right _ (by norm_num)
  have hr1le : F32.roundUnits (a * (w * 100) * 2 ^ 149) q ≤ 1 * 2 ^ (34 + 149) := by
    apply roundUnits_le hq (by norm_num)
    calc a * (w * 100) * 2 ^ 149 ≤ 2 ^ 34 * q * 2 ^ 149 := Nat.mul_le_mul_right _ hn34
      _ = 1 * 2 ^ (34 + 149) * q := by rw [pow_add]; ring
  have hbig : 1 * (2 : Nat) ^ (34 + 149) < 2 ^ 128 * F32.one := by
    unfold F32.one; norm_num
  unfold max_scale_of imul
  have e0 : ((w : Int) * 100) = ((w * 100 : Nat) : Int) := by push_cast; ring
  rw [e0, cint_natCast (by omega)]
  simp only [Option.bind_eq_bind, Option.some_bind, bind]
  rw [ofInt_hundredfold hw]
  simp only [Option.some_bind, Option.bind]
  rw [hdiv]
  have e : a * (w * 100 * 2 ^ 149) = a * (w * 100) * 2 ^ 149 := by ring
  rw [e, ofMagnitude_false (lt_of_le_of_lt hr1le hbig)]
  simp only [Option.some_bind, Option.bind]
  rw [ofInt_exact (lt_of_le_of_lt hmn1 (by norm_num))]
  simp only [Option.some_bind, Option.bind]
  have hd2 := div_scaled (F32.roundUnits (a * (w * 100) * 2 ^ 149) q) 1 mn (2 ^ 149)
    hmnpos (by positivity) (by unfold F32.one; ring)
  rw [one_mul] at hd2
  rw [hd2, ofMagnitude_of_lt hM h2]
  simp only [Option.some_bind, Option.bind]
  exact toInt_of_bounds hM h1 h2

/-- The exact quotient of `floor_max_scale` as a fraction of natural numbers. -/
theorem max_scale_quotient (x a q mn : Nat) (ha : 0 < a) (hq : 0 < q) (hmn : 0 < mn) :
    ((x : Int) : ℚ) * 100 / ((q : ℚ) / (a : ℚ)) / ((mn : Int) : ℚ)
      = ((a * (x * 100) : Nat) : ℚ) / ((mn * q : Nat) : ℚ) := by
  have haq' : (a : ℚ) ≠ 0 := by exact_mod_cast ha.ne'
  have hqq : (q : ℚ) ≠ 0 := by exact_mod_cast hq.ne'
  have hmq : (mn : ℚ) ≠ 0 := by exact_mod_cast hmn.ne'
  push_cast
  field_simp
  ring

/-- The condition `clear_of_next_integer` on the exact quotient, in natural numbers. -/
theorem gap_of_clear {n D : Nat} (hD : 0 < D)
    (h : clear_of_next_integer ((n : ℚ) / (D : ℚ))) :
    n * (2 ^ 22 + 1) < (n / D + 1) * D * 2 ^ 22 := by
  unfold clear_of_next_integer at h
  rw [floor_natCast_div] at h
  have hDq : (0 : ℚ) < (D : ℚ) := by exact_mod_cast hD
  have h1 : (n : ℚ) / (D : ℚ) * (1 / 2 ^ 22 + 1) < ((n / D : Nat) : ℚ) + 1 := by
    have : (((n / D : Nat) : Int) : ℚ) = ((n / D : Nat) : ℚ) := by push_cast; rfl
    rw [this] at h
    linarith
  have h2 : (n : ℚ) * (2 ^ 22 + 1) < (((n / D : Nat) : ℚ) + 1) * (D : ℚ) * 2 ^ 22 := by
    have h3 : (n : ℚ) / (D : ℚ) * (1 / 2 ^ 22 + 1) * ((D : ℚ) * 2 ^ 22) <
        (((n / D : Nat) : ℚ) + 1) * ((D : ℚ) * 2 ^ 22) :=
      mul_lt_mul_of_pos_right h1 (by positivity)
    have e : (n : ℚ) / (D : ℚ) * (1 / 2 ^ 22 + 1) * ((D : ℚ) * 2 ^ 22) =
        (n : ℚ) * (2 ^ 22 + 1) := by
      field_simp
      left
      ring
    rw [e] at h3
    linarith
  exact_mod_cast h2

/-- The converse of `gap_of_clear`. -/
theorem clear_of_gap {n D : Nat} (hD : 0 < D)
    (h : n * (2 ^ 22 + 1) < (n / D + 1) * D * 2 ^ 22) :
    clear_of_next_integer ((n : ℚ) / (D : ℚ)) := by
  unfold clear_of_next_integer
  rw [floor_natCast_div]
  have hDq : (0 : ℚ) < (D : ℚ) := by exact_mod_cast hD
  have hc : (((n / D : Nat) : Int) : ℚ) = ((n / D : Nat) : ℚ) := by push_cast; rfl
  rw [hc]
  have h2 : (n : ℚ) * (2 ^ 22 + 1) < (((n / D : Nat) : ℚ) + 1) * (D : ℚ) * 2 ^ 22 := by
    exact_mod_cast h
  have e : (n : ℚ) / (D : ℚ) / 2 ^ 22 + (n : ℚ) / (D : ℚ) =
      (n : ℚ) * (2 ^ 22 + 1) / ((D : ℚ) * 2 ^ 22) := by
    field_simp
    ring
  have h3 : (n : ℚ) * (2 ^ 22 + 1) / ((D : ℚ) * 2 ^ 22) < ((n / D : Nat) : ℚ) + 1 := by
    rw [div_lt_iff₀ (by positivity)]
    linarith
  linarith

/-- For a density that is a multiple of 1/8, written `q / 8`, the exact quotient by 640 or by
480 is clear of the next integer: it misses it by at least `160 / (mn * q)`. -/
theorem gap_of_eighth {w q mn : Nat} (hq : 0 < q) (hw : w ≤ 671088) (hmn0 : 0 < mn)
    (hdvd : 160 ∣ mn) :
    8 * (w * 100) * (2 ^ 22 + 1) < (8 * (w * 100) / (mn * q) + 1) * (mn * q) * 2 ^ 22 := by
  have hmq : 0 < mn * q := Nat.mul_pos hmn0 hq
  have hlt : 8 * (w * 100) < (8 * (w * 100) / (mn * q) + 1) * (mn * q) :=
    (Nat.div_lt_iff_lt_mul hmq).1 (Nat.lt_succ_iff.2 (le_refl _))
  have hd1 : 160 ∣ (8 * (w * 100) / (mn * q) + 1) * (mn * q) :=
    Dvd.dvd.mul_left (Dvd.dvd.mul_right hdvd q) _
  obtain ⟨u, hu⟩ := hd1
  rw [hu] at hlt ⊢
  omega

/-- A density of at least 1/8 is positive. -/
theorem units_pos_of_eighth {d : F32} (hd : (F32.one : Int) ≤ d.units * 8) : 0 < d.units := by
  have h1 : (0 : Int) < (F32.one : Int) := by
    have : 0 < F32.one := by unfold F32.one; positivity
    exact_mod_cast this
  by_contra hneg
  push_neg at hneg
  have : d.units * 8 ≤ 0 := mul_nonpos_of_nonpos_of_nonneg hneg (by norm_num)
  omega

/-- One line of `get_max_scale_percentage` for a density of at least 1/8 and a size up to
671088: the floor of the exact quotient, when that quotient is clear of the next integer. -/
theorem max_scale_of_formula {scale : Scale} (hd : (F32.one : Int) ≤ scale.screen_density.units * 8)
    {w mn c i : Nat} (hw : w ≤ 671088) (hmn : mn = c * 2 ^ i) (hmn0 : 256 < mn)
    (hmn1 : mn ≤ 640) (hc : c * (8 * (671088 * 100) / mn) < 2 ^ 24)
    (hclear : clear_of_next_integer
      (((w : Int) : ℚ) * 100 / scale.screen_density.toRat / ((mn : Int) : ℚ))) :
    max_scale_of scale (w : Int) (mn : Int) =
      some ⌊((w : Int) : ℚ) * 100 / scale.screen_density.toRat / ((mn : Int) : ℚ)⌋ := by
  have hpos : 0 < scale.screen_density.units := units_pos_of_eighth hd
  obtain ⟨q, hq⟩ := Int.eq_ofNat_of_zero_le hpos.le
  have hq0 : 0 < q := by omega
  have h8 : 2 ^ 149 ≤ 8 * q := by
    rw [hq] at hd
    have h1 : F32.one ≤ q * 8 := by exact_mod_cast hd
    have h2 : F32.one = 2 ^ 149 := rfl
    rw [h2] at h1
    rw [mul_comm]
    exact h1
  have hdiv := div_of_pos_units hpos
  rw [hq] at hdiv
  simp only [Int.toNat_ofNat] at hdiv
  have hrat : scale.screen_density.toRat = (q : ℚ) / ((2 ^ 149 : Nat) : ℚ) := by
    unfold F32.toRat
    rw [hq, Nat.cast_pow, Int.cast_natCast]
    norm_num
  have hmnpos : 0 < mn := by omega
  rw [hrat] at hclear ⊢
  rw [max_scale_quotient w (2 ^ 149) q mn (by positivity) hq0 hmnpos] at hclear
  have hgap := gap_of_clear (Nat.mul_pos hmnpos hq0) hclear
  have hM : 2 ^ 149 * (w * 100) / (mn * q) ≤ 8 * (671088 * 100) / mn :=
    le_trans (quotient_le hq0 h8) (Nat.div_le_div_right (by omega))
  have hcM : c * (2 ^ 149 * (w * 100) / (mn * q)) < 2 ^ 24 :=
    lt_of_le_of_lt (Nat.mul_le_mul_left _ hM) hc
  rw [max_scale_of_floor hdiv hq0 (by omega) hmn hmn0 hmn1 hcM hgap,
    floor_max_scale w (2 ^ 149) q mn (by positivity) hq0 hmnpos]

/-- For a density that is a multiple of 1/8 the exact quotients by 640 and by 480 are clear of
the next integer, for every size up to 671088. -/
theorem clear_of_eighth {scale : Scale} (hpos : 0 < scale.screen_density.units)
    (h8 : scale.screen_density.units % 2 ^ 146 = 0) {w mn : Nat} (hw : w ≤ 671088)
    (hmn0 : 0 < mn) (hdvd : 160 ∣ mn) :
    clear_of_next_integer
      (((w : Int) : ℚ) * 100 / scale.screen_density.toRat / ((mn : Int) : ℚ)) := by
  obtain ⟨v, hv⟩ := Int.dvd_of_emod_eq_zero h8
  have hv0 : 0 < v := by
    by_contra hneg
    push_neg at hneg
    have : (2 : Int) ^ 146 * v ≤ 0 := mul_nonpos_of_nonneg_of_nonpos (by positivity) hneg
    omega
  obtain ⟨q, hq⟩ := Int.eq_ofNat_of_zero_le hv0.le
  have hq0 : 0 < q := by omega
  have hrat : scale.screen_density.toRat = (q : ℚ) / ((8 : Nat) : ℚ) := by
    unfold F32.toRat
    rw [hv, hq]
    push_cast
    rw [show (2 : ℚ) ^ 149 = 2 ^ 146 * 8 by norm_num]
    field_simp
    ring
  rw [hrat, max_scale_quotient w 8 q mn (by norm_num) hq0 hmn0]
  exact clear_of_gap (Nat.mul_pos hmn0 hq0) (gap_of_eighth hq0 hw hmn0 hdvd)

/-- C5, amended. For every density of at least 1/8 and every pixel size `(w, h)` with
`0 ≤ w, h ≤ 671088`, `get_max_scale_percentage(w, h)` equals
`min(floor(w*100/d/640), floor(h*100/d/480))` whenever each of the two exact quotients lies
below the next integer by more than its `2^22`-th part; that is so for every density that is
a multiple of 1/8, such as 1.0, 1.5, 2.0, 2.625, 2.75, 3.0 and 3.5.  For 1920 x 1080, density
1.0 and a request of 150 the maximum is 225, the effective percentage is 150 and the logical
size is 1280 x 720. -/
theorem max_scale_percentage_formula (sc : Scale) (w h : Int)
    (hd : (F32.one : Int) ≤ sc.screen_density.units * 8)
    (hw : 0 ≤ w ∧ w ≤ 671088) (hh : 0 ≤ h ∧ h ≤ 671088) :
    (clear_of_next_integer ((w : ℚ) * 100 / sc.screen_density.toRat / (640 : Int)) →
      clear_of_next_integer ((h : ℚ) * 100 / sc.screen_density.toRat / (480 : Int)) →
      get_max_scale_percentage sc w h =
        some (min ⌊(w : ℚ) * 100 / sc.screen_density.toRat / (640 : Int)⌋
          ⌊(h : ℚ) * 100 / sc.screen_density.toRat / (480 : Int)⌋)) ∧
    (sc.screen_density.units % 2 ^ 146 = 0 →
      get_max_scale_percentage sc w h =
        some (min ⌊(w : ℚ) * 100 / sc.screen_density.toRat / (640 : Int)⌋
          ⌊(h : ℚ) * 100 / sc.screen_density.toRat / (480 : Int)⌋)) ∧
    get_max_scale_percentage ⟨150, 100, density_1_0⟩ 1920 1080 = some 225 ∧
    apply_max_scale ⟨150, 100, density_1_0⟩ 1920 1080 = some ⟨150, 150, density_1_0⟩ ∧
    resize_logical_size ⟨150, 100, density_1_0⟩ 1920 1080
      = some (⟨150, 150, density_1_0⟩, 1280, 720) := by
  obtain ⟨n, rfl⟩ := Int.eq_ofNat_of_zero_le hw.1
  obtain ⟨m, rfl⟩ := Int.eq_ofNat_of_zero_le hh.1
  have hn : n ≤ 671088 := by exact_mod_cast hw.2
  have hm : m ≤ 671088 := by exact_mod_cast hh.2
  have e640 : MINIMUM_WIDTH = ((640 : Nat) : Int) := rfl
  have e480 : MINIMUM_HEIGHT = ((480 : Nat) : Int) := rfl
  have main : clear_of_next_integer
        (((n : Int) : ℚ) * 100 / sc.screen_density.toRat / ((640 : Nat) : Int)) →
      clear_of_next_integer
        (((m : Int) : ℚ) * 100 / sc.screen_density.toRat / ((480 : Nat) : Int)) →
      get_max_scale_percentage sc n m =
        some (min ⌊((n : Int) : ℚ) * 100 / sc.screen_density.toRat / ((640 : Nat) : Int)⌋
          ⌊((m : Int) : ℚ) * 100 / sc.screen_density.toRat / ((480 : Nat) : Int)⌋) := by
    intro c1 c2
    unfold get_max_scale_percentage
    rw [e640, e480,
      @max_scale_of_formula sc hd n 640 5 7 hn (by norm_num) (by norm_num) (by norm_num)
        (by norm_num) c1,
      @max_scale_of_formula sc hd m 480 15 5 hm (by norm_num) (by norm_num) (by norm_num)
        (by norm_num) c2]
    simp only [Option.bind_eq_bind, Option.some_bind, bind, pure, SDL_min_eq_min]
  refine ⟨main, ?_, by decide, by decide, by decide⟩
  intro h8
  have hpos : 0 < sc.screen_density.units := units_pos_of_eighth hd
  exact main (clear_of_eighth hpos h8 hn (by norm_num) (by norm_num))
    (clear_of_eighth hpos h8 hm (by norm_num) (by norm_num))

/-! ## The effective scale for every density -/

/-- With an effective percentage of zero `scale_pixels_to_logical` divides by zero. -/
theorem scale_pixels_to_logical_zero {sc : Scale} (h0 : sc.percentage = 0) (v : Int) :
    scale_pixels_to_logical sc v = none := by
  rw [scale_pixels_to_logical_eq, h0]
  cases imul v 100 with
  | none => rfl
  | some product => simp [idiv]

/-- When the maximum scale of the window is 0, `system_scale_display` does not return: the
effective percentage becomes 0 and `platform_screen_resize` divides by it. -/
theorem scale_display_undefined {p : Platform} {s : State} {win : SDLWindow} (r : Int)
    (hwin : s.SDL.window = some win)
    (hm : get_max_scale_percentage s.scale win.w win.h = some 0) :
    system_scale_display p s r = none := by
  cases hres : system_scale_display p s r with
  | none => rfl
  | some res =>
    exfalso
    obtain ⟨s', e⟩ := res
    obtain ⟨win', m, hwin', hm', -, he, hp⟩ := scale_display_result hres
    rw [hwin] at hwin'
    simp only [Option.some.injEq] at hwin'
    subst hwin'
    rw [hm] at hm'
    simp only [Option.some.injEq] at hm'
    subst hm'
    have hreq := requested_in_range p r
    have he0 : e = 0 := by rw [he]; exact min_eq_right (by omega)
    -- the last step is `platform_screen_resize`, with that percentage
    unfold system_scale_display at hres
    obtain ⟨size, -, h⟩ := Option.bind_eq_some.1 hres
    obtain ⟨s1, -, h⟩ := Option.bind_eq_some.1 h
    obtain ⟨res, hrs, h⟩ := Option.bind_eq_some.1 h
    simp only [pure, Option.some.injEq, Prod.mk.injEq] at h
    obtain ⟨h1, -⟩ := h
    subst h1
    unfold platform_screen_resize at hrs
    obtain ⟨sz, hsz, h⟩ := Option.bind_eq_some.1 hrs
    simp only [pure, Option.some.injEq] at h
    subst h
    rw [resize_presentation_texture_scale] at hp
    unfold resize_logical_size at hsz
    obtain ⟨sc, -, h⟩ := Option.bind_eq_some.1 hsz
    obtain ⟨lw, hlw, h⟩ := Option.bind_eq_some.1 h
    obtain ⟨lh, -, h⟩ := Option.bind_eq_some.1 h
    simp only [pure, Option.some.injEq] at h
    subst h
    rw [scale_pixels_to_logical_zero (by rw [hp, he0])] at hlw
    simp at hlw

/-- C1, amended. Off Vita and for a request `r` in [50, 500], whatever the density and the
window size: whenever `system_scale_display(r)` returns, the value `e` it returns is
`min(r, m)` for the maximum scale `m` of the window, so that `e ≤ r`, `e ≤ 500` and `e ≤ m`;
`scale.percentage` equals `e` afterwards; and `50 ≤ e` holds exactly when `50 ≤ m`.  The
call does return for every density of at least `2^-k` (`k` from 0 to 7) and every window of
positive size up to `21474835 / 2^k` in each direction whose maximum scale is at least 1; it
does not return when the maximum scale is 0, as `platform_screen_resize` then divides by
zero. -/
theorem scale_display_effective (p : Platform) (s : State) (r : Int)
    (hvita : p.vita = false) (hr : 50 ≤ r ∧ r ≤ 500) :
    (∀ s' e, system_scale_display p s r = some (s', e) →
      ∃ win m, s.SDL.window = some win ∧
        get_max_scale_percentage s.scale win.w win.h = some m ∧
        e = min r m ∧ s'.scale.percentage = e ∧ s'.scale.requested_percentage = r ∧
        e ≤ r ∧ e ≤ 500 ∧ e ≤ m ∧ (50 ≤ e ↔ 50 ≤ m)) ∧
    (∀ win k, s.SDL.window = some win → k ≤ 7 →
      (F32.one : Int) ≤ s.scale.screen_density.units * 2 ^ k →
      0 < win.w → win.w * 100 * 2 ^ k ≤ 2147483520 →
      0 < win.h → win.h * 100 * 2 ^ k ≤ 2147483520 →
      ∃ m, get_max_scale_percentage s.scale win.w win.h = some m ∧
        (1 ≤ m → ∃ s', system_scale_display p s r = some (s', min r m))) ∧
    (∀ win, s.SDL.window = some win →
      get_max_scale_percentage s.scale win.w win.h = some 0 →
      system_scale_display p s r = none) := by
  have hreq : (if p.vita then 100 else calc_bound r 50 500) = r := by
    rw [hvita]
    simp only [Bool.false_eq_true, if_false]
    exact calc_bound_of_mem hr
  refine ⟨?_, ?_, fun win hwin hm => scale_display_undefined r hwin hm⟩
  · intro s' e h
    obtain ⟨win, m, hwin, hm, h1, h2, h3⟩ := scale_display_result h
    rw [hreq] at h1 h2
    refine ⟨win, m, hwin, hm, h2, h3, h1, ?_, ?_, ?_, ?_⟩
    · rw [h2]; exact min_le_left _ _
    · rw [h2]; exact le_trans (min_le_left _ _) hr.2
    · rw [h2]; exact min_le_right _ _
    · rw [h2]
      constructor
      · intro h; exact le_trans h (min_le_right _ _)
      · intro h; exact le_min hr.1 h
  · intro win k hwin hk hd hw0 hw hh0 hh
    have h := scale_display_returns p s win r k hwin hk hd ⟨hw0, hw⟩ ⟨hh0, hh⟩
    rw [hreq] at h
    exact h

/-- C17, amended. Whenever `system_scale_display(r)` returns, whatever `r`, the density and
the window size: the requested percentage afterwards is `calc_bound(r, 50, 500)`, that is `r`
clamped to [50, 500], off Vita and 100 on Vita, and the returned value, which is
`scale.percentage`, is the smaller of that request and `get_max_scale_percentage(w, h)`.  The
call returns for every density of at least `2^-k` (`k` from 0 to 7) and every window of
positive size up to `21474835 / 2^k` in each direction whose maximum scale is at least 1; it
does not return when the maximum scale is 0, as `platform_screen_resize` then divides by
zero. -/
theorem scale_display_clamps_request (p : Platform) (s : State) (r : Int) :
    calc_bound r 50 500 = max 50 (min r 500) ∧
    (∀ s' e, system_scale_display p s r = some (s', e) →
      ∃ win m, s.SDL.window = some win ∧
        get_max_scale_percentage s.scale win.w win.h = some m ∧
        s'.scale.requested_percentage = (if p.vita then 100 else calc_bound r 50 500) ∧
        e = min (if p.vita then 100 else calc_bound r 50 500) m ∧
        s'.scale.percentage = e) ∧
    (∀ win k, s.SDL.window = some win → k ≤ 7 →
      (F32.one : Int) ≤ s.scale.screen_density.units * 2 ^ k →
      0 < win.w → win.w * 100 * 2 ^ k ≤ 2147483520 →
      0 < win.h → win.h * 100 * 2 ^ k ≤ 2147483520 →
      ∃ m, get_max_scale_percentage s.scale win.w win.h = some m ∧
        (1 ≤ m → ∃ s', system_scale_display p s r =
          some (s', min (if p.vita then 100 else calc_bound r 50 500) m))) ∧
    (∀ win, s.SDL.window = some win →
      get_max_scale_percentage s.scale win.w win.h = some 0 →
      system_scale_display p s r = none) := by
  refine ⟨?_, ?_, ?_, ?_⟩
  · unfold calc_bound
    split_ifs <;> omega
  · intro s' e h
    exact scale_display_result h
  · intro win k hwin hk hd hw0 hw hh0 hh
    exact scale_display_returns p s win r k hwin hk hd ⟨hw0, hw⟩ ⟨hh0, hh⟩
  · intro win hwin hm
    exact scale_display_undefined r hwin hm

/-! ## Concrete inputs -/

/-- C1, counterexample. On a desktop build with density 1.0 and a window of 100 x 100 pixels,
`system_scale_display(100)` returns 15; on an Android build with density 1.5 and a window of
480 x 320 pixels it returns 44.  Both are below 50.  For a window of 6 x 400 pixels at density
1.0 the maximum scale is 0 and the call returns nothing: it divides by zero. -/
theorem scale_display_below_fifty :
    (system_scale_display desktop (example_state 100 100 100 density_1_0) 100).map Prod.snd
        = some 15 ∧
      (system_scale_display android_build (example_state 480 320 100 density_1_5) 100).map
        Prod.snd = some 44 ∧
      (system_scale_display desktop (example_state 6 400 100 density_1_0) 100).map Prod.snd
        = none :=
  ⟨by decide, by decide, by decide⟩

/-- C1, instances of the amended claim: 1920 x 1080 at density 1.0, and 1440 x 2560 at
density 2.625, both with a request of 150. -/
theorem scale_display_effective_witness :
    (get_max_scale_percentage (example_state 1920 1080 100 density_1_0).scale 1920 1080
        = some 225 ∧
      ∃ s', system_scale_display desktop (example_state 1920 1080 100 density_1_0) 150
          = some (s', 150) ∧ s'.scale.percentage = 150) ∧
    (get_max_scale_percentage (example_state 1440 2560 100 density_2_625).scale 1440 2560
        = some 85 ∧
      ∃ s', system_scale_display desktop (example_state 1440 2560 100 density_2_625) 150
          = some (s', 85) ∧ s'.scale.percentage = 85) := by
  constructor
  · have T := scale_display_effective desktop (example_state 1920 1080 100 density_1_0) 150
      rfl (by decide)
    obtain ⟨m, hm, hB⟩ := T.2.1
      { w := 1920, h := 1080, x := 0, y := 0, fullscreen := false, grab := false,
        maximized := false, display := 0, min_w := 0, min_h := 0 } 0
      rfl (by decide) (by decide) (by decide) (by decide) (by decide) (by decide)
    have h225 : get_max_scale_percentage (example_state 1920 1080 100 density_1_0).scale
        1920 1080 = some 225 := by decide
    have hm' : m = 225 := by
      have := hm.symm.trans h225
      simpa using this
    subst hm'
    obtain ⟨s', hs'⟩ := hB (by decide)
    obtain ⟨-, -, -, -, -, hp, -⟩ := T.1 s' _ hs'
    exact ⟨h225, s', hs', hp⟩
  · have T := scale_display_effective desktop (example_state 1440 2560 100 density_2_625) 150
      rfl (by decide)
    obtain ⟨m, hm, hB⟩ := T.2.1
      { w := 1440, h := 2560, x := 0, y := 0, fullscreen := false, grab := false,
        maximized := false, display := 0, min_w := 0, min_h := 0 } 0
      rfl (by decide) (by decide) (by decide) (by decide) (by decide) (by decide)
    have h85 : get_max_scale_percentage (example_state 1440 2560 100 density_2_625).scale
        1440 2560 = some 85 := by decide
    have hm' : m = 85 := by
      have := hm.symm.trans h85
      simpa using this
    subst hm'
    obtain ⟨s', hs'⟩ := hB (by decide)
    obtain ⟨-, -, -, -, -, hp, -⟩ := T.1 s' _ hs'
    exact ⟨h85, s', hs', hp⟩

/-- C2, counterexample. At density 1.0 and 500 percent, 1004 pixels are 200 logical units,
which are 1000 pixels; at 51 percent, 103 logical units are 52 pixels, which are 101 logical
units.  Both round trips miss the value by more than 1. -/
theorem round_trip_off_by_more_than_one :
    (scale_pixels_to_logical ⟨500, 500, density_1_0⟩ 1004).bind
        (scale_logical_to_pixels ⟨500, 500, density_1_0⟩) = some 1000 ∧
      (scale_logical_to_pixels ⟨51, 51, density_1_0⟩ 103).bind
        (scale_pixels_to_logical ⟨51, 51, density_1_0⟩) = some 101 :=
  ⟨by decide, by decide⟩

/-- C2, instance of the amended claim: 150 percent, density 1.0, value 1000. -/
theorem scale_round_trip_witness :
    ∃ a b : Int,
      (scale_pixels_to_logical ⟨150, 150, density_1_0⟩ 1000).bind
        (scale_logical_to_pixels ⟨150, 150, density_1_0⟩) = some a ∧
      (scale_logical_to_pixels ⟨150, 150, density_1_0⟩ 1000).bind
        (scale_pixels_to_logical ⟨150, 150, density_1_0⟩) = some b ∧
      a ≤ 1000 ∧ b ≤ 1000 ∧ 1000 - b ≤ 1 :=
  (scale_round_trip ⟨150, 150, density_1_0⟩ 1000 rfl (by decide) (by decide)).imp
    fun _ h => h.imp fun _ h => ⟨h.1, h.2.1, h.2.2.1, h.2.2.2.1, h.2.2.2.2.2.2.2 (by decide)⟩

/-- C3, instance: a window of 1920 x 1080 at density 1.0 with a request of 150. -/
theorem resize_keeps_minimum_resolution_witness :
    apply_max_scale (example_state 1920 1080 150 density_1_0).scale 1920 1080
        = some ⟨150, 150, density_1_0⟩ ∧
      ∃ lw lh, resize_logical_size (example_state 1920 1080 150 density_1_0).scale 1920 1080
          = some (⟨150, 150, density_1_0⟩, lw, lh) ∧ 640 ≤ lw ∧ 480 ≤ lh := by
  have h := resize_keeps_minimum_resolution (example_state 1920 1080 150 density_1_0) 1920 1080
    ⟨150, 150, density_1_0⟩ (Or.inl rfl) (by decide) (by decide) (by decide)
  obtain ⟨lw, lh, h1, -⟩ := h.2 (by decide) (by decide)
  exact ⟨by decide, lw, lh, h1, (h.1 _ h1).2⟩

/-- C4, instance: the example program resized twice to 1920 x 1080. -/
theorem resize_twice_is_noop_witness :
    platform_screen_resize (example_state 1920 1080 150 density_1_0) 1920 1080
        = some (example_state_resized, 1) ∧
      platform_screen_resize example_state_resized 1920 1080 = some (example_state_resized, 1) :=
  ⟨rfl, resize_twice_is_noop (example_state 1920 1080 150 density_1_0) example_state_resized
    1920 1080 rfl⟩

/-- C5, counterexample. For a size of 16000019 x 16000019 at density 1.0 the function returns
2500003, while `min(floor(w*100/d/640), floor(h*100/d/480))` is 2500002: the conversion of
1600001900 to `float` rounds it to 1600001920.  For a window of 1408 x 1080 at the density
nearest to 1.1 the function returns 200, while the formula gives 199: the quotient
`140800 / d = 127999.998...` is rounded to the float 128000.  For a size of 900000 x 671265
at density 2.625 the function returns 53274, while the formula gives 53275: 67126500 is not a
float and is converted to 67126496. -/
theorem max_scale_percentage_float_rounding :
    (get_max_scale_percentage ⟨100, 100, density_1_0⟩ 16000019 16000019 = some 2500003 ∧
      min ⌊((16000019 : Int) : ℚ) * 100 / density_1_0.toRat / (640 : Int)⌋
        ⌊((16000019 : Int) : ℚ) * 100 / density_1_0.toRat / (480 : Int)⌋ = 2500002) ∧
    (get_max_scale_percentage ⟨100, 100, density_1_1⟩ 1408 1080 = some 200 ∧
      min ⌊((1408 : Int) : ℚ) * 100 / density_1_1.toRat / (640 : Int)⌋
        ⌊((1080 : Int) : ℚ) * 100 / density_1_1.toRat / (480 : Int)⌋ = 199) ∧
    (get_max_scale_percentage ⟨100, 100, density_2_625⟩ 900000 671265 = some 53274 ∧
      min ⌊((900000 : Int) : ℚ) * 100 / density_2_625.toRat / (640 : Int)⌋
        ⌊((671265 : Int) : ℚ) * 100 / density_2_625.toRat / (480 : Int)⌋ = 53275) := by
  refine ⟨⟨by decide, ?_⟩, ⟨by decide, ?_⟩, ⟨by decide, ?_⟩⟩
  · have h1 : density_1_0.toRat = 1 := by
      simp only [F32.toRat, density_1_0, F32.dyadic]
      norm_num
    rw [h1]
    have e1 : ⌊((16000019 : Int) : ℚ) * 100 / 1 / (640 : Int)⌋ = 2500002 := by
      rw [Int.floor_eq_iff]
      constructor <;> norm_num
    have e2 : ⌊((16000019 : Int) : ℚ) * 100 / 1 / (480 : Int)⌋ = 3333337 := by
      rw [Int.floor_eq_iff]
      constructor <;> norm_num
    rw [e1, e2]
    decide
  · have h1 : density_1_1.toRat = 9227469 / 8388608 := by
      simp only [F32.toRat, density_1_1, F32.dyadic]
      norm_num
    rw [h1]
    have e1 : ⌊((1408 : Int) : ℚ) * 100 / (9227469 / 8388608) / (640 : Int)⌋ = 199 := by
      rw [Int.floor_eq_iff]
      constructor <;> norm_num
    have e2 : ⌊((1080 : Int) : ℚ) * 100 / (9227469 / 8388608) / (480 : Int)⌋ = 204 := by
      rw [Int.floor_eq_iff]
      constructor <;> norm_num
    rw [e1, e2]
    decide
  · have h1 : density_2_625.toRat = 21 / 8 := by
      simp only [F32.toRat, density_2_625, F32.dyadic]
      norm_num
    rw [h1]
    have e1 : ⌊((900000 : Int) : ℚ) * 100 / (21 / 8) / (640 : Int)⌋ = 53571 := by
      rw [Int.floor_eq_iff]
      constructor <;> norm_num
    have e2 : ⌊((671265 : Int) : ℚ) * 100 / (21 / 8) / (480 : Int)⌋ = 53275 := by
      rw [Int.floor_eq_iff]
      constructor <;> norm_num
    rw [e1, e2]
    decide

/-- C5, instances of the amended claim: 1920 x 1080 at density 1.0 and 1440 x 2560 at density
2.625, both multiples of 1/8. -/
theorem max_scale_percentage_formula_witness :
    get_max_scale_percentage ⟨150, 100, density_1_0⟩ 1920 1080 =
      some (min ⌊((1920 : Int) : ℚ) * 100 / density_1_0.toRat / (640 : Int)⌋
        ⌊((1080 : Int) : ℚ) * 100 / density_1_0.toRat / (480 : Int)⌋) ∧
    get_max_scale_percentage ⟨150, 100, density_2_625⟩ 1440 2560 =
      some (min ⌊((1440 : Int) : ℚ) * 100 / density_2_625.toRat / (640 : Int)⌋
        ⌊((2560 : Int) : ℚ) * 100 / density_2_625.toRat / (480 : Int)⌋) :=
  ⟨(max_scale_percentage_formula ⟨150, 100, density_1_0⟩ 1920 1080 (by decide) (by decide)
      (by decide)).2.1 (by simp [density_1_0, F32.dyadic]),
    (max_scale_percentage_formula ⟨150, 100, density_2_625⟩ 1440 2560 (by decide) (by decide)
      (by decide)).2.1 (by simp [density_2_625, F32.dyadic])⟩

/-- C6, counterexample. For a window of 2001 x 1500 pixels at density 1.5 with a request of
200, the effective percentage is 200 and `platform_screen_resize` computes the logical size
666 x 500 (2001 * 100 / 200 is truncated to 1000, and 1000 / 1.5 to 666), while
2001 / (200/100 * 1.5) = 667 exactly. -/
theorem logical_dimension_truncates_twice :
    (platform_screen_resize (example_state 2001 1500 200 density_1_5) 2001 1500).map
        (fun r => (r.1.scale.percentage, r.1.screen_width, r.1.screen_height))
        = some (200, 666, 500) ∧
      scale_pixels_to_logical ⟨200, 200, density_1_5⟩ 2001 = some 666 ∧
      ⌊((2001 : Int) : ℚ) / (((200 : Int) : ℚ) / 100 * density_1_5.toRat)⌋ = 667 := by
  refine ⟨by decide, by decide, ?_⟩
  have h1 : density_1_5.toRat = 3 / 2 := by
    simp only [F32.toRat, density_1_5, F32.dyadic]
    norm_num
  rw [h1, Int.floor_eq_iff]
  constructor <;> norm_num

/-- C6, instance of the amended claim: 1920 pixels at 150 percent and density 2.0. -/
theorem logical_dimension_truncations_witness :
    scale_pixels_to_logical ⟨150, 150, density_2_0⟩ 1920 =
      some ⌊((1920 : Int) : ℚ) / (((150 : Int) : ℚ) / 100 * density_2_0.toRat)⌋ :=
  (logical_dimension_truncations ⟨150, 150, density_2_0⟩ 1920 (Or.inr (Or.inr (Or.inl rfl)))
    (by decide) (by decide)).2 (by decide)

/-- C7, instance: the hidden program with a pending `SDL_QUIT` on a desktop build. -/
theorem quit_runs_teardown_without_frame_witness :
    process_event_queue desktop idle_state_with_quit.queue idle_state_with_quit
        = some idle_state_drained ∧
      idle_state_drained.data.quit ≠ 0 ∧
      ∃ s', main_loop desktop idle_state_with_quit = Except.ok s' ∧
        s'.SDL = ⟨none, none, none⟩ ∧
        s'.trace.filter Action.is_frame_step = [] := by
  have h := quit_runs_teardown_without_frame desktop idle_state_with_quit idle_state_with_quit
    idle_state_drained rfl rfl (by decide)
  obtain ⟨s', h1, h2⟩ := h.2 rfl
  refine ⟨rfl, by decide, s', h1, h2, ?_⟩
  have h3 := (h.1 s' (by rw [h1]; rfl)).2
  rw [h3]
  rfl

/-- C8, instance: the active example program with no pending event on a desktop build. -/
theorem running_iteration_steps_witness :
    process_event_queue desktop (example_state 1920 1080 100 density_1_0).queue
        (example_state 1920 1080 100 density_1_0)
        = some (example_state 1920 1080 100 density_1_0) ∧
      main_loop desktop (example_state 1920 1080 100 density_1_0) =
        Except.ok (run_and_draw desktop (example_state 1920 1080 100 density_1_0)) ∧
      (run_and_draw desktop (example_state 1920 1080 100 density_1_0)).trace =
        [Action.time_set_millis, Action.game_run, Action.game_draw,
          Action.platform_screen_update, Action.sdl SDLCall.SDL_RenderClear,
          Action.sdl SDLCall.SDL_UpdateTexture, Action.sdl SDLCall.SDL_RenderCopy,
          Action.platform_screen_render, Action.sdl SDLCall.SDL_RenderPresent] ∧
      (run_and_draw desktop (example_state 1920 1080 100 density_1_0)).trace.filter
          Action.is_loop_step =
        [Action.time_set_millis, Action.game_run, Action.game_draw,
          Action.platform_screen_update, Action.platform_screen_render] := by
  have h := (running_iteration_steps desktop (example_state 1920 1080 100 density_1_0)
    (example_state 1920 1080 100 density_1_0) (example_state 1920 1080 100 density_1_0)
    rfl rfl rfl).1 (by decide)
  exact ⟨rfl, h.1, by rw [h.2.1]; rfl, h.2.2⟩

/-- C9, instance: the example program on an Android build. -/
theorem fullscreen_only_mode_calls_are_noops_witness :
    system_is_fullscreen_only android_build = true ∧
      platform_screen_set_windowed android_build (example_state 1920 1080 100 density_1_0)
        = some (example_state 1920 1080 100 density_1_0) ∧
      platform_screen_set_window_size android_build (example_state 1920 1080 100 density_1_0)
        800 600 = some (example_state 1920 1080 100 density_1_0) :=
  ⟨rfl, fullscreen_only_mode_calls_are_noops android_build
    (example_state 1920 1080 100 density_1_0) 800 600 rfl⟩

/-- C10, counterexample. Android is a fullscreen-only platform, and on an Android build with
a window of 1920 x 1080 at density 1.0 `system_can_scale_display` returns true, with
`min = 50` and `max = 225`. -/
theorem android_build_may_scale :
    system_is_fullscreen_only android_build = true ∧
      system_can_scale_display android_build (example_state 1920 1080 100 density_1_0)
        true true = some (1, some 50, some 225) :=
  ⟨rfl, by decide⟩

/-- C11, instance: on a desktop build, from the state without a surface and with every call
succeeding, `platform_screen_create(100, 0)` returns 1 after creating a window, the
accelerated renderer and the texture.  The other outcomes, by the answers of the
surroundings: the window fails; both renderers fail; the accelerated renderer fails and the
software renderer succeeds; the texture fails. -/
theorem create_succeeds_iff_witness :
    (∃ s', platform_screen_create desktop initial_state 100 0 = some (s', 1) ∧
      ∃ attempts : List Action,
        s'.trace.filter Action.is_creation_attempt =
          initial_state.trace.filter Action.is_creation_attempt ++ attempts ∧
        (∃ a ∈ attempts, a.window_created = true) ∧
        (∃ a ∈ attempts, a.renderer_created = true) ∧
        (∃ a ∈ attempts, a.texture_created = true)) ∧
    (platform_screen_create desktop (initial_state_answering fun _ => false) 100 0).map
        (fun r => (r.2, r.1.trace.filter Action.is_creation_attempt)) =
      some (0, [Action.sdl (SDLCall.SDL_CreateWindow 800 600 false false)]) ∧
    (platform_screen_create desktop (initial_state_answering fun n => decide (n = 0)) 100 0).map
        (fun r => (r.2, r.1.trace.filter Action.is_creation_attempt)) =
      some (0, [Action.sdl (SDLCall.SDL_CreateWindow 800 600 false true),
        Action.sdl (SDLCall.SDL_CreateRenderer false false),
        Action.sdl (SDLCall.SDL_CreateRenderer true false)]) ∧
    (platform_screen_create desktop (initial_state_answering fun n => decide (n ≠ 1)) 100 0).map
        (fun r => (r.2, r.1.trace.filter Action.is_creation_attempt)) =
      some (1, [Action.sdl (SDLCall.SDL_CreateWindow 800 600 false true),
        Action.sdl (SDLCall.SDL_CreateRenderer false false),
        Action.sdl (SDLCall.SDL_CreateRenderer true true),
        Action.sdl (SDLCall.SDL_CreateTexture 800 600 true)]) ∧
    (platform_screen_create desktop (initial_state_answering fun n => decide (n < 2)) 100 0).map
        (fun r => (r.2, r.1.trace.filter Action.is_creation_attempt)) =
      some (0, [Action.sdl (SDLCall.SDL_CreateWindow 800 600 false true),
        Action.sdl (SDLCall.SDL_CreateRenderer false true),
        Action.sdl (SDLCall.SDL_CreateTexture 800 600 false)]) := by
  refine ⟨?_, by decide, by decide, by decide, by decide⟩
  have h0 : (platform_screen_create desktop initial_state 100 0).map Prod.snd = some 1 := by
    decide
  obtain ⟨⟨s', ret⟩, h1, h2⟩ := Option.map_eq_some'.1 h0
  have h3 : ret = 1 := h2
  subst h3
  obtain ⟨attempts, hf, -, hiff⟩ := create_succeeds_iff desktop initial_state s' 100 0 1 h1
  exact ⟨s', h1, attempts, hf, hiff.1 rfl⟩

/-- C12, instance: on a desktop build where `SDL_Init` succeeds and the pre-init fails,
`setup` exits with status 1 after these two stages.  The other outcomes, by the answers of
the surroundings: status -1 when `SDL_Init` fails, -2 when the window cannot be created, 2 when
`game_init` fails, and a return when every call succeeds. -/
theorem setup_exit_status_witness :
    (∃ final, setup desktop (initial_state_answering fun n => decide (n = 0))
        = Except.error (Halt.exit 1 final) ∧
      final.trace.filter Action.is_setup_stage =
        [Action.sdl (SDLCall.SDL_Init true), Action.game_pre_init false]) ∧
    (∃ final, setup desktop (initial_state_answering fun _ => false)
        = Except.error (Halt.exit (-1) final)) ∧
    (∃ final, setup desktop (initial_state_answering fun n => decide (n < 2))
        = Except.error (Halt.exit (-2) final)) ∧
    (∃ final, setup desktop (initial_state_answering fun n => decide (n < 5))
        = Except.error (Halt.exit 2 final)) ∧
    ∃ s', setup desktop initial_state = Except.ok s' :=
  ⟨⟨_, rfl, ((setup_exit_status desktop (initial_state_answering fun n => decide (n = 0))).1
    1 _ rfl).2.1⟩, ⟨_, rfl⟩, ⟨_, rfl⟩, ⟨_, rfl⟩, ⟨_, rfl⟩⟩

/-- C13, instance: on a desktop build with every call succeeding, a create, a change to
fullscreen, a second create, a resize and a destroy. -/
theorem at_most_one_window_and_renderer_witness :
    ∃ s', run_surface_calls desktop
        [SurfaceCall.create 100 0, SurfaceCall.set_fullscreen, SurfaceCall.create 150 0,
          SurfaceCall.resize 1024 768, SurfaceCall.destroy] initial_state = some s' ∧
      at_most_one_live Action.window_created Action.window_destroyed s'.trace ∧
      at_most_one_live Action.renderer_created Action.renderer_destroyed s'.trace := by
  have h0 : (run_surface_calls desktop
      [SurfaceCall.create 100 0, SurfaceCall.set_fullscreen, SurfaceCall.create 150 0,
        SurfaceCall.resize 1024 768, SurfaceCall.destroy] initial_state).isSome = true := by
    decide
  obtain ⟨s', h1⟩ := Option.isSome_iff_exists.1 h0
  have h2 := at_most_one_window_and_renderer desktop _ initial_state s' rfl rfl h1
  exact ⟨s', h1, h2.1.1, h2.2.1⟩

/-- C17, counterexample. On a desktop build with density 1.0 and a window of 3 x 3 pixels,
whose width and height are not zero, the maximum scale is 0 and `system_scale_display(150)`
returns nothing: `platform_screen_resize` divides by the effective percentage 0. -/
theorem scale_display_tiny_window :
    get_max_scale_percentage (example_state 3 3 100 density_1_0).scale 3 3 = some 0 ∧
      (system_scale_display desktop (example_state 3 3 100 density_1_0) 150).map Prod.snd
        = none :=
  ⟨by decide, by decide⟩

/-- C17, instances of the amended claim: on a desktop build at 1920 x 1080 and density 1.0 a
request of 1000 is stored as 500 and the call returns 225; a request of 7 is stored as 50 and
the call returns 50. -/
theorem scale_display_clamps_request_witness :
    (∃ s', system_scale_display desktop (example_state 1920 1080 100 density_1_0) 1000
        = some (s', 225) ∧ s'.scale.requested_percentage = 500 ∧ s'.scale.percentage = 225) ∧
    (∃ s', system_scale_display desktop (example_state 1920 1080 100 density_1_0) 7
        = some (s', 50) ∧ s'.scale.requested_percentage = 50 ∧ s'.scale.percentage = 50) := by
  have h225 : get_max_scale_percentage (example_state 1920 1080 100 density_1_0).scale
      1920 1080 = some 225 := by decide
  constructor
  · have T := scale_display_clamps_request desktop (example_state 1920 1080 100 density_1_0)
      1000
    obtain ⟨m, hm, hB⟩ := T.2.2.1
      { w := 1920, h := 1080, x := 0, y := 0, fullscreen := false, grab := false,
        maximized := false, display := 0, min_w := 0, min_h := 0 } 0
      rfl (by decide) (by decide) (by decide) (by decide) (by decide) (by decide)
    have hm' : m = 225 := by
      have := hm.symm.trans h225
      simpa using this
    subst hm'
    obtain ⟨s', hs'⟩ := hB (by decide)
    obtain ⟨-, -, -, -, hq, -, hp⟩ := T.2.1 s' _ hs'
    exact ⟨s', hs', hq, hp⟩
  · have T := scale_display_clamps_request desktop (example_state 1920 1080 100 density_1_0) 7
    obtain ⟨m, hm, hB⟩ := T.2.2.1
      { w := 1920, h := 1080, x := 0, y := 0, fullscreen := false, grab := false,
        maximized := false, display := 0, min_w := 0, min_h := 0 } 0
      rfl (by decide) (by decide) (by decide) (by decide) (by decide) (by decide)
    have hm' : m = 225 := by
      have := hm.symm.trans h225
      simpa using this
    subst hm'
    obtain ⟨s', hs'⟩ := hB (by decide)
    obtain ⟨-, -, -, -, hq, -, hp⟩ := T.2.1 s' _ hs'
    exact ⟨s', hs', hq, hp⟩

/-- C18, instance: at density 1.0 with a request of 100, a window of 7 x 5 pixels has an
effective percentage of at least 1 and a logical size, and a window of 6 x 5 pixels has the
effective percentage 0. -/
theorem effective_percentage_positive_witness :
    (∃ sc' lw lh, resize_logical_size ⟨100, 100, density_1_0⟩ 7 5 = some (sc', lw, lh) ∧
        1 ≤ sc'.percentage) ∧
      ∃ sc', apply_max_scale ⟨100, 100, density_1_0⟩ 6 5 = some sc' ∧ sc'.percentage = 0 ∧
        resize_logical_size ⟨100, 100, density_1_0⟩ 6 5 = none :=
  ⟨((effective_percentage_positive ⟨100, 100, density_1_0⟩ 7 5 rfl (by decide)).1
      (by decide) (by decide)).2 (by decide) (by decide),
    (effective_percentage_positive ⟨100, 100, density_1_0⟩ 6 5 rfl (by decide)).2
      (by decide) (by decide) (by decide) (by decide) (by decide)⟩

/-- C19, instance: on a desktop build, `system_resize(1024, 768)` and then
`system_resize(1280, 720)` while one earlier resize command is still queued: all three
commands are applied with 1280 x 720. -/
theorem last_resize_request_wins_witness :
    ∃ s', process_event_queue desktop
        (system_resize (system_resize (system_resize (example_state 1920 1080 100 density_1_0)
          800 600) 1024 768) 1280 720).queue
        (system_resize (system_resize (system_resize (example_state 1920 1080 100 density_1_0)
          800 600) 1024 768) 1280 720) = some s' ∧
      s'.trace.filter Action.is_set_window_size_call =
        [Action.platform_screen_set_window_size 1280 720,
          Action.platform_screen_set_window_size 1280 720,
          Action.platform_screen_set_window_size 1280 720] := by
  have h0 : (process_event_queue desktop
      (system_resize (system_resize (system_resize (example_state 1920 1080 100 density_1_0)
        800 600) 1024 768) 1280 720).queue
      (system_resize (system_resize (system_resize (example_state 1920 1080 100 density_1_0)
        800 600) 1024 768) 1280 720)).isSome = true := by
    decide
  obtain ⟨s', h1⟩ := Option.isSome_iff_exists.1 h0
  have h2 := last_resize_request_wins desktop
    (system_resize (example_state 1920 1080 100 density_1_0) 800 600) s' 1024 768 1280 720
    (by decide) h1
  exact ⟨s', h1, h2.2⟩

end Julius
